import Mathlib

/-!
Layout-reflow coordinator of the code editor: a shallow embedding of

* `frontend/src/utils/resizeObserverErrorHandler.js` (class `SafeResizeObserver`), and
* `frontend/src/components/CodeEditor.jsx` (the `forceLayout` scheduler and its triggers).

JavaScript runs these on one event loop, so every handler is a function from the state
before it runs to the state after it.  Time is an integer number of milliseconds
(`Date.now()`); a timer created by `setTimeout(f, d)` at time `now` is due at `now + d`.
Timer handles are positive integers, so a stored handle is always truthy and `null`
is the only falsy value of a handle field.  Console output is not part of the model.
-/

namespace CodeMaster

/-! ## Timers -/

/-- One pending `setTimeout` (or `requestAnimationFrame`) registration. -/
structure Timer (τ : Type) where
  id : Nat
  due : Int
  task : τ
  deriving DecidableEq

/-- The host timer table: the registrations still pending, and the last handle given out. -/
structure Timers (τ : Type) where
  pending : List (Timer τ)
  next : Nat
  deriving DecidableEq

namespace Timers

variable {τ : Type}

/-- No timer was ever created. -/
def empty : Timers τ := ⟨[], 0⟩

/-- The handle the next `setTimeout` returns (always positive). -/
def fresh (ts : Timers τ) : Nat := ts.next + 1

/-- The table after `setTimeout(task, delay)` evaluated at time `now`.  Every delay the two
files pass is between 0 and 300 ms when the clock does not run backwards, so the clamping
the host applies to negative or very large delays is left out. -/
def setTimeout (ts : Timers τ) (now delay : Int) (task : τ) : Timers τ :=
  ⟨ts.pending ++ [⟨ts.next + 1, now + delay, task⟩], ts.next + 1⟩

/-- The table after `clearTimeout(id)`. -/
def clearTimeout (ts : Timers τ) (id : Nat) : Timers τ :=
  ⟨ts.pending.filter (fun t => t.id != id), ts.next⟩

/-- The statement `if (ref) clearTimeout(ref)`. -/
def clearRef (ts : Timers τ) (ref : Option Nat) : Timers τ :=
  match ref with
  | some id => ts.clearTimeout id
  | none => ts

/-- The pending registration with handle `id`, if any. -/
def find? (ts : Timers τ) (id : Nat) : Option (Timer τ) :=
  ts.pending.find? (fun t => t.id == id)

end Timers

/-! ## Thrown values -/

/-- What a JavaScript `throw` can carry, as far as the catch blocks here can tell: an
`Error`, another non-nullish value, or `null`/`undefined`. -/
inductive Thrown where
  /-- An object whose `message` is a string (an `Error`). -/
  | error (message : String)
  /-- A non-nullish value whose `message` is `undefined` or `null`. -/
  | object
  /-- A non-nullish value whose `message` is neither nullish nor a string and has no
  `includes` method (as in `throw { message: 42 }`). -/
  | oddMessage
  /-- The values `null` and `undefined`: reading `.message` of them raises a `TypeError`. -/
  | nullish
  deriving DecidableEq

/-- The `TypeError` raised by reading a property of `null` or `undefined`. -/
def typeError : Thrown := .error "TypeError"

/-- Evaluation of `error.message` inside a catch block (`none` for a message that is not
a string). -/
def Thrown.readMessage : Thrown → Except Thrown (Option String)
  | .error m => .ok (some m)
  | .object => .ok none
  | .oddMessage => .ok none
  | .nullish => .error typeError

/-- What leaves a catch block of the form `catch (error) { ... error.message ... }`, as
the catch blocks of `CodeEditor.jsx` are: they read `error.message` and pass it to
`console.debug`, and do nothing else that can fail. -/
def catchEscapes (t : Thrown) : Option Thrown :=
  match t.readMessage with
  | .error e => some e
  | .ok _ => none

/-- What leaves a catch block of `SafeResizeObserver` (lines 117-127 and 133-138), which
evaluates `error.message?.includes(...)`: reading `message` of `null` or `undefined`
raises a `TypeError`, and so does calling `includes` on a message that has no such method
(`?.` guards a nullish message only). -/
def filterEscapes : Thrown → Option Thrown
  | .error _ => none
  | .object => none
  | .oddMessage => some typeError
  | .nullish => some typeError

/-! ## SafeResizeObserver -/

/-- A resize entry delivered by the platform. -/
abbrev Entry := Nat

/-- The platform `ResizeObserver` object held in `this.observer`. -/
structure ResizeObserver where
  targets : List Nat
  deriving DecidableEq

/-- How the platform answers `new ResizeObserver(cb)` followed by `.observe(element)`. -/
inductive PlatformOutcome where
  | ok
  | ctorThrows (t : Thrown)
  | observeThrows (t : Thrown)
  deriving DecidableEq

/-- The fields of a `SafeResizeObserver` instance.  `callbackIsFunction` stands for
`typeof this.callback === "function"`. -/
structure SafeResizeObserver where
  callbackIsFunction : Bool
  observer : Option ResizeObserver
  timeoutId : Option Nat
  isObserving : Bool
  isDestroyed : Bool
  lastCallTime : Int
  minInterval : Int
  deriving DecidableEq

namespace SafeResizeObserver

/-- The constructor (lines 79-87). -/
def new (callbackIsFunction : Bool) : SafeResizeObserver :=
  { callbackIsFunction := callbackIsFunction
    observer := none
    timeoutId := none
    isObserving := false
    isDestroyed := false
    lastCallTime := 0
    minInterval := 50 }

/-- The method `observe(element)` (lines 89-139); the second component is the exception that
leaves the method, if any. -/
def observe (o : SafeResizeObserver) (element : Option Nat) (p : PlatformOutcome) :
    SafeResizeObserver × Option Thrown :=
  if o.isObserving || o.isDestroyed || element.isNone then (o, none)
  else
    match p with
    | .ctorThrows t => (o, filterEscapes t)
    | .observeThrows t => ({ o with observer := some ⟨[]⟩ }, filterEscapes t)
    | .ok => ({ o with observer := some ⟨element.toList⟩, isObserving := true }, none)

/-- The raw notification handler passed to `new ResizeObserver` (lines 93-129, outer
function): `mk entries` is the deferred closure it hands to `setTimeout`. -/
def notify {τ : Type} (mk : List Entry → τ) (o : SafeResizeObserver) (now : Int)
    (entries : List Entry) (ts : Timers τ) : SafeResizeObserver × Timers τ :=
  if o.isDestroyed then (o, ts)
  else
    let timeSinceLastCall := now - o.lastCallTime
    let ts1 := ts.clearRef o.timeoutId
    let delay := max 0 (o.minInterval - timeSinceLastCall)
    ({ o with timeoutId := some ts1.fresh }, ts1.setTimeout now delay (mk entries))

/-- The guard of the deferred closure (lines 109-116): whether it goes on to call
`this.callback(entries)`.  An empty list stands for an empty or missing `entries`. -/
def deferredCalls (o : SafeResizeObserver) (entries : List Entry) : Bool :=
  !o.isDestroyed && (!entries.isEmpty && o.callbackIsFunction)

/-- The instance after the deferred closure ran at time `now`, up to the callback call. -/
def deferred (o : SafeResizeObserver) (now : Int) (entries : List Entry) : SafeResizeObserver :=
  if o.deferredCalls entries then { o with lastCallTime := now } else o

/-- The method `disconnect()` (lines 141-159).  A failure of the platform `disconnect()`
is ignored by the empty catch block. -/
def disconnect {τ : Type} (o : SafeResizeObserver) (ts : Timers τ) :
    SafeResizeObserver × Timers τ :=
  ({ o with isDestroyed := true, timeoutId := none, observer := none, isObserving := false },
   ts.clearRef o.timeoutId)

/-- The method `isActive()` (lines 162-164). -/
def isActive (o : SafeResizeObserver) : Bool :=
  o.isObserving && !o.isDestroyed && o.observer.isSome

end SafeResizeObserver

/-! ## A SafeResizeObserver driven by its environment -/

/-- A `SafeResizeObserver` with a user callback, the timer table, the record of the callback
calls made so far (time and entries, oldest first) and the exceptions that left a handler. -/
structure ObserverWorld where
  obj : SafeResizeObserver
  timers : Timers (List Entry)
  calls : List (Int × List Entry)
  escaped : List Thrown
  deriving DecidableEq

/-- What can happen to a `SafeResizeObserver`. -/
inductive ObserverEvent where
  /-- The owner calls `observe(element)`; the platform answers as given. -/
  | observe (element : Option Nat) (p : PlatformOutcome)
  /-- The platform delivers a raw notification. -/
  | notify (entries : List Entry)
  /-- The timer with this handle fires; the user callback, if reached, throws `outcome`
  (or returns, for `none`). -/
  | fire (id : Nat) (outcome : Option Thrown)
  /-- The owner calls `disconnect()`. -/
  | disconnect
  deriving DecidableEq

namespace ObserverWorld

/-- A fresh instance: `new SafeResizeObserver(callback)`. -/
def init (callbackIsFunction : Bool) : ObserverWorld :=
  { obj := SafeResizeObserver.new callbackIsFunction
    timers := Timers.empty
    calls := []
    escaped := [] }

/-- The deferred closure of lines 108-128, run at time `now` with the entries it closed over. -/
def runDeferred (w : ObserverWorld) (now : Int) (entries : List Entry)
    (outcome : Option Thrown) : ObserverWorld :=
  if w.obj.deferredCalls entries then
    { w with
      obj := w.obj.deferred now entries
      calls := w.calls ++ [(now, entries)]
      escaped := w.escaped ++ (outcome.bind filterEscapes).toList }
  else w

/-- One event at time `now`. -/
def step (w : ObserverWorld) (now : Int) : ObserverEvent → ObserverWorld
  | .observe element p =>
    { w with
      obj := (w.obj.observe element p).1
      escaped := w.escaped ++ (w.obj.observe element p).2.toList }
  | .notify entries =>
    { w with
      obj := (w.obj.notify id now entries w.timers).1
      timers := (w.obj.notify id now entries w.timers).2 }
  | .fire id outcome =>
    match w.timers.find? id with
    | none => w
    | some t => runDeferred { w with timers := w.timers.clearTimeout id } now t.task outcome
  | .disconnect =>
    { w with
      obj := (w.obj.disconnect w.timers).1
      timers := (w.obj.disconnect w.timers).2 }

/-- A sequence of timed events. -/
def run (w : ObserverWorld) : List (Int × ObserverEvent) → ObserverWorld
  | [] => w
  | (now, e) :: rest => run (step w now e) rest

/-- At most one deferred invocation is pending, and it is the one `timeoutId` names. -/
def Single (w : ObserverWorld) : Prop :=
  ∀ t ∈ w.timers.pending, w.timers.pending = [t] ∧ w.obj.timeoutId = some t.id

/-- The timing facts that hold along a run in which no timer fires before it is due. -/
structure Spaced (w : ObserverWorld) : Prop where
  interval : w.obj.minInterval = 50
  due : ∀ t ∈ w.timers.pending, w.obj.lastCallTime + 50 ≤ t.due
  recent : ∀ c ∈ w.calls, c.1 ≤ w.obj.lastCallTime
  spaced : w.calls.Pairwise (fun a b => a.1 + 50 ≤ b.1)

/-- An observing instance holds a platform observer and is not destroyed. -/
def Linked (w : ObserverWorld) : Prop :=
  w.obj.isObserving = true → w.obj.observer.isSome = true ∧ w.obj.isDestroyed = false

/-- The state `disconnect()` leaves an instance in. -/
def Released (w : ObserverWorld) : Prop :=
  w.obj.isDestroyed = true ∧ w.obj.isObserving = false ∧ w.obj.observer = none ∧
    w.obj.timeoutId = none

/-- The events of a burst: raw notifications, and timers firing. -/
def isBurstEvent : ObserverEvent → Bool
  | .notify _ => true
  | .fire _ _ => true
  | _ => false

/-- Every event of the list happens before `limit`. -/
def allBefore (limit : Int) (evs : List (Int × ObserverEvent)) : Bool :=
  evs.all (fun x => decide (x.1 < limit))

/-- No timer fires before it is due. -/
def noEarlyFire (w : ObserverWorld) : List (Int × ObserverEvent) → Bool
  | [] => true
  | (now, e) :: rest =>
    (match e with
      | .fire id _ => w.timers.pending.all (fun t => t.id != id || decide (t.due ≤ now))
      | _ => true) && noEarlyFire (step w now e) rest

end ObserverWorld

/-! ## The editor component (`CodeEditor.jsx`) -/

/-- The rectangle returned by `getBoundingClientRect()`; only `width` is read by the code. -/
structure Rect where
  width : ℚ
  height : ℚ
  deriving DecidableEq

/-- The argument of a call of `editor.layout`: none, or an explicit size. -/
inductive LayoutArg where
  | auto
  | size (width height : Int)
  deriving DecidableEq

/-- Which piece of code made a call of `editor.layout`. -/
inductive LayoutSource where
  | forceLayout
  | initial
  deriving DecidableEq

/-- One recorded call of `editor.layout` (recorded when the call starts, so also when the
call then throws). -/
structure LayoutCall where
  editor : Nat
  time : Int
  arg : LayoutArg
  source : LayoutSource
  deriving DecidableEq

/-- The editor instance handed to `onMount`; `hasLayout` stands for
`typeof editor.layout === "function"`. -/
structure EditorObj where
  id : Nat
  hasLayout : Bool
  deriving DecidableEq

/-- What the code reads from its surroundings: `containerRef.current` (`none` for `null`)
with its bounding rectangle, whether measuring or `editor.layout` throws, `document.hidden`,
and how the platform answers the creation of a `ResizeObserver`. -/
structure Env where
  container : Option Rect
  measureThrows : Option Thrown
  layoutThrows : Option Thrown
  hidden : Bool
  platform : PlatformOutcome
  deriving DecidableEq

/-- The closures the component hands to `setTimeout` and `requestAnimationFrame`. -/
inductive Task where
  /-- The retry of `forceLayout` (line 99). -/
  | retry
  /-- The delayed initial layout of `handleEditorDidMount` (line 199). -/
  | initialLayout (editor : EditorObj)
  /-- The prop-change effect (line 265). -/
  | propChange
  /-- The window-resize handler (line 285). -/
  | windowResize
  /-- The visibility handler (line 307). -/
  | visibility
  /-- The `requestAnimationFrame` callback of `handleResize` (line 221). -/
  | animationFrame
  /-- The deferred closure of the observer stored at this index. -/
  | observerDeferred (obs : Nat) (entries : List Entry)
  deriving DecidableEq

/-- The refs of one `CodeEditor` component, the local variables of its effects, the
`SafeResizeObserver` objects it created, the editors on which a dispose listener was
registered, and the host: timers, surroundings, and the record of `editor.layout` calls and
of exceptions that left a handler. -/
structure EditorWorld where
  editorRef : Option EditorObj
  resizeObserverRef : Option Nat
  isEditorMountedRef : Bool
  layoutTimeoutRef : Option Nat
  lastLayoutTimeRef : Int
  isLayoutInProgressRef : Bool
  propTimer : Option Nat
  resizeTimeout : Option Nat
  effectsActive : Bool
  disposeListeners : List Nat
  observers : List SafeResizeObserver
  timers : Timers Task
  env : Env
  layouts : List LayoutCall
  escaped : List Thrown
  deriving DecidableEq

/-- What can happen to the component. -/
inductive EditorEvent where
  /-- The surroundings change (container resized or detached, tab hidden, ...). -/
  | setEnv (env : Env)
  /-- The component is committed: its effects run. -/
  | componentMount
  /-- `language` or `darkMode` changed: the prop effect is cleaned up and runs again. -/
  | propsChange
  /-- A window `resize` event. -/
  | windowResize
  /-- A document `visibilitychange` event. -/
  | visibilityChange
  /-- The component unmounts: every effect cleanup runs. -/
  | componentUnmount
  /-- The editor calls `onMount` (`handleEditorDidMount`). -/
  | editorMount (editor : EditorObj)
  /-- The editor calls `beforeUnmount` (`handleEditorWillUnmount`). -/
  | editorWillUnmount
  /-- The editor with this id is disposed: it runs the listener that line 238 registered
  on it, if `handleEditorDidMount` got as far as line 238 for it. -/
  | editorDispose (editor : Nat)
  /-- The platform delivers a raw notification to the observer stored at this index. -/
  | notify (obs : Nat) (entries : List Entry)
  /-- The timer (or animation frame) with this handle fires. -/
  | fire (id : Nat)
  /-- Any caller invokes `forceLayout()` directly. -/
  | forceLayout
  deriving DecidableEq

namespace EditorWorld

/-- The component before its first commit (lines 7-13). -/
def init (env : Env) : EditorWorld :=
  { editorRef := none
    resizeObserverRef := none
    isEditorMountedRef := false
    layoutTimeoutRef := none
    lastLayoutTimeRef := 0
    isLayoutInProgressRef := false
    propTimer := none
    resizeTimeout := none
    effectsActive := false
    disposeListeners := []
    observers := []
    timers := Timers.empty
    env := env
    layouts := []
    escaped := [] }

/-- The try block of `forceLayout` (lines 109-125): the `editor.layout` calls it makes and
the value it throws, if any. -/
def layoutAttempt (w : EditorWorld) (editor : EditorObj) (now : Int) :
    List LayoutCall × Option Thrown :=
  match w.env.container with
  | some containerRect =>
    match w.env.measureThrows with
    | some t => ([], some t)
    | none =>
      let maxWidth := containerRect.width
      let maxHeight : Int := 400
      if decide (maxWidth > 0) && decide (maxHeight > 0) then
        ([⟨editor.id, now, .size ⌊maxWidth⌋ maxHeight, .forceLayout⟩], w.env.layoutThrows)
      else ([], none)
  | none => ([⟨editor.id, now, .auto, .forceLayout⟩], w.env.layoutThrows)

/-- The first two statements of the try block of `forceLayout` (lines 106-107): the state
in which the container is measured and `editor.layout` runs. -/
def beginLayout (w : EditorWorld) (now : Int) : EditorWorld :=
  { w with isLayoutInProgressRef := true, lastLayoutTimeRef := now }

/-- The function `forceLayout` (lines 80-131).  The four tests of the first guard have no
side effect; the test of `editorRef.current` is made first here to name the editor.  The
try block sets the in-progress flag and `lastLayoutTimeRef` and then measures and lays
out; the catch block reads `error.message`; the finally block clears the flag.  Nothing in
the file calls `forceLayout` from inside `editor.layout`. -/
def forceLayout (w : EditorWorld) (now : Int) : EditorWorld :=
  match w.editorRef with
  | none => w
  | some editor =>
    if !w.isEditorMountedRef || !editor.hasLayout || w.isLayoutInProgressRef then w
    else
      let timeSinceLastLayout := now - w.lastLayoutTimeRef
      if timeSinceLastLayout < 100 then
        let ts := w.timers.clearRef w.layoutTimeoutRef
        { w with
          layoutTimeoutRef := some ts.fresh
          timers := ts.setTimeout now (100 - timeSinceLastLayout) .retry }
      else
        let started := w.beginLayout now
        let r := layoutAttempt started editor now
        { started with
          isLayoutInProgressRef := false
          layouts := started.layouts ++ r.1
          escaped := started.escaped ++ (r.2.bind catchEscapes).toList }

/-- The guarded call `if (!isLayoutInProgressRef.current) forceLayout()` of the timers. -/
def guardedForceLayout (w : EditorWorld) (now : Int) : EditorWorld :=
  if !w.isLayoutInProgressRef then w.forceLayout now else w

/-- The delayed initial layout (lines 199-215), for the editor the closure captured. -/
def initialLayout (w : EditorWorld) (editor : EditorObj) (now : Int) : EditorWorld :=
  if w.isEditorMountedRef && editor.hasLayout then
    match w.env.container with
    | some containerRect =>
      match w.env.measureThrows with
      | some t => { w with escaped := w.escaped ++ (catchEscapes t).toList }
      | none =>
        if containerRect.width > 0 then
          { w with
            layouts := w.layouts ++ [⟨editor.id, now, .size ⌊containerRect.width⌋ 400, .initial⟩]
            escaped := w.escaped ++ (w.env.layoutThrows.bind catchEscapes).toList }
        else w
    | none => w
  else w

/-- The observer callback `handleResize` (lines 218-227). -/
def handleResize (w : EditorWorld) (now : Int) : EditorWorld :=
  if w.isEditorMountedRef && !w.isLayoutInProgressRef then
    { w with timers := w.timers.setTimeout now 0 .animationFrame }
  else w

/-- The animation-frame callback of `handleResize` (lines 221-225). -/
def animationFrame (w : EditorWorld) (now : Int) : EditorWorld :=
  if w.isEditorMountedRef && !w.isLayoutInProgressRef then w.forceLayout now else w

/-- The statement `if (resizeObserverRef.current) resizeObserverRef.current.disconnect()`. -/
def disconnectObserver (w : EditorWorld) : EditorWorld :=
  match w.resizeObserverRef with
  | none => w
  | some i =>
    match w.observers[i]? with
    | none => w
    | some o =>
      { w with
        observers := w.observers.set i (o.disconnect w.timers).1
        timers := (o.disconnect w.timers).2 }

/-- The function `handleEditorDidMount` (lines 133-249).  `editor.updateOptions` does not
touch the state modelled here.  An exception that leaves `observe` (line 234) leaves the
function too: the statements before it have run, and line 238 is not reached, so no
dispose listener is registered on this editor. -/
def handleEditorDidMount (w : EditorWorld) (now : Int) (editor : EditorObj) : EditorWorld :=
  let created := SafeResizeObserver.new true
  let observed :=
    match w.env.container with
    | some _ => created.observe (some 0) w.env.platform
    | none => (created, none)
  { w with
    editorRef := some editor
    isEditorMountedRef := true
    timers := w.timers.setTimeout now 100 (.initialLayout editor)
    resizeObserverRef := some w.observers.length
    observers := w.observers ++ [observed.1]
    escaped := w.escaped ++ observed.2.toList
    disposeListeners :=
      if observed.2.isNone then w.disposeListeners ++ [editor.id] else w.disposeListeners }

/-- The listener registered with `editor.onDidDispose` (lines 238-246).  It reads and
writes the refs only, so every registered copy does the same, and running it again changes
nothing more. -/
def onDidDispose (w : EditorWorld) : EditorWorld :=
  let w1 := disconnectObserver { w with isEditorMountedRef := false }
  { w1 with timers := w1.timers.clearRef w1.layoutTimeoutRef }

/-- The function `handleEditorWillUnmount` (lines 251-260); the cleanup of the last effect
(lines 320-330) has the same body. -/
def handleEditorWillUnmount (w : EditorWorld) : EditorWorld :=
  let w1 := disconnectObserver
    { w with isEditorMountedRef := false, isLayoutInProgressRef := false }
  { w1 with timers := w1.timers.clearRef w1.layoutTimeoutRef }

/-- The body of the prop-change effect (lines 265-269). -/
def propEffect (w : EditorWorld) (now : Int) : EditorWorld :=
  { w with
    propTimer := some w.timers.fresh
    timers := w.timers.setTimeout now 200 .propChange }

/-- The cleanup of the prop-change effect (line 271). -/
def propCleanup (w : EditorWorld) : EditorWorld :=
  { w with timers := w.timers.clearRef w.propTimer, propTimer := none }

/-- The listener `handleWindowResize` (lines 278-290). -/
def handleWindowResize (w : EditorWorld) (now : Int) : EditorWorld :=
  let ts := w.timers.clearRef w.resizeTimeout
  { w with
    resizeTimeout := some ts.fresh
    timers := ts.setTimeout now 150 .windowResize }

/-- The listener `handleVisibilityChange` (lines 304-313). -/
def handleVisibilityChange (w : EditorWorld) (now : Int) : EditorWorld :=
  if !w.env.hidden && !w.isLayoutInProgressRef then
    { w with timers := w.timers.setTimeout now 300 .visibility }
  else w

/-- All effect cleanups, in the order of the effects (lines 271, 294-299, 316, 320-330). -/
def cleanupEffects (w : EditorWorld) : EditorWorld :=
  let w1 := propCleanup w
  let w2 := { w1 with timers := w1.timers.clearRef w1.resizeTimeout, resizeTimeout := none }
  handleEditorWillUnmount { w2 with effectsActive := false }

/-- The deferred closure of the observer at index `obs`, whose callback is `handleResize`
(which raises nothing, so the catch block of the closure is not entered). -/
def observerDeferred (w : EditorWorld) (now : Int) (obs : Nat) (entries : List Entry) :
    EditorWorld :=
  match w.observers[obs]? with
  | none => w
  | some o =>
    if o.deferredCalls entries then
      handleResize { w with observers := w.observers.set obs (o.deferred now entries) } now
    else w

/-- A raw notification for the observer at index `obs`. -/
def notifyObserver (w : EditorWorld) (now : Int) (obs : Nat) (entries : List Entry) :
    EditorWorld :=
  match w.observers[obs]? with
  | none => w
  | some o =>
    { w with
      observers := w.observers.set obs (o.notify (Task.observerDeferred obs) now entries w.timers).1
      timers := (o.notify (Task.observerDeferred obs) now entries w.timers).2 }

/-- The closure of a timer, run at time `now`. -/
def runTask (w : EditorWorld) (now : Int) : Task → EditorWorld
  | .retry => w.forceLayout now
  | .initialLayout editor => w.initialLayout editor now
  | .propChange => w.guardedForceLayout now
  | .windowResize => w.guardedForceLayout now
  | .visibility => w.guardedForceLayout now
  | .animationFrame => w.animationFrame now
  | .observerDeferred obs entries => w.observerDeferred now obs entries

/-- One event at time `now`.  Listeners and effects exist only between the commit of the
component and its unmount. -/
def step (w : EditorWorld) (now : Int) : EditorEvent → EditorWorld
  | .setEnv env => { w with env := env }
  | .componentMount =>
    if w.effectsActive then w else propEffect { w with effectsActive := true } now
  | .propsChange => if w.effectsActive then propEffect (propCleanup w) now else w
  | .windowResize => if w.effectsActive then handleWindowResize w now else w
  | .visibilityChange => if w.effectsActive then handleVisibilityChange w now else w
  | .componentUnmount => if w.effectsActive then cleanupEffects w else w
  | .editorMount editor => handleEditorDidMount w now editor
  | .editorWillUnmount => handleEditorWillUnmount w
  | .editorDispose editor =>
    if w.disposeListeners.contains editor then onDidDispose w else w
  | .notify obs entries => notifyObserver w now obs entries
  | .fire id =>
    match w.timers.find? id with
    | none => w
    | some t => runTask { w with timers := w.timers.clearTimeout id } now t.task
  | .forceLayout => w.forceLayout now

/-- A sequence of timed events. -/
def run (w : EditorWorld) : List (Int × EditorEvent) → EditorWorld
  | [] => w
  | (now, e) :: rest => run (step w now e) rest

/-- The times of the `editor.layout` calls made by `forceLayout`, oldest first. -/
def forceLayoutTimes (w : EditorWorld) : List Int :=
  (w.layouts.filter (fun c => c.source = .forceLayout)).map LayoutCall.time

/-- The pending retries of `forceLayout`. -/
def pendingRetries (w : EditorWorld) : List (Timer Task) :=
  w.timers.pending.filter (fun t => t.task = .retry)

/-- The events that mount an editor. -/
def isMount : EditorEvent → Bool
  | .editorMount _ => true
  | _ => false

/-- Every pending timer has a handle that was already given out. -/
def FreshTimers (w : EditorWorld) : Prop :=
  ∀ t ∈ w.timers.pending, t.id ≤ w.timers.next

/-- At most one retry is pending, and it is the one `layoutTimeoutRef` names. -/
def RetryInv (w : EditorWorld) : Prop :=
  ∀ t ∈ w.pendingRetries, w.pendingRetries = [t] ∧ w.layoutTimeoutRef = some t.id

/-- The `editor.layout` calls of `forceLayout` are at least 100 ms apart and none is later
than `lastLayoutTimeRef`. -/
def LayoutInv (w : EditorWorld) : Prop :=
  (∀ t ∈ w.forceLayoutTimes, t ≤ w.lastLayoutTimeRef) ∧
    w.forceLayoutTimes.Pairwise (fun a b => a + 100 ≤ b)

/-- A transition that neither lays out through `forceLayout` nor creates a retry. -/
structure Quiet (w w' : EditorWorld) : Prop where
  lastLayoutTime : w'.lastLayoutTimeRef = w.lastLayoutTimeRef
  layoutTimeout : w'.layoutTimeoutRef = w.layoutTimeoutRef
  forceLayouts : w'.forceLayoutTimes = w.forceLayoutTimes
  retries : ∃ p : Timer Task → Bool, w'.pendingRetries = w.pendingRetries.filter p
  fresh : w.FreshTimers → w'.FreshTimers

/-- The editor is mounted and idle and its container can be measured: the first guard of
`forceLayout` passes and the try block reads the rectangle `rect`. -/
structure Ready (w : EditorWorld) (editor : EditorObj) (rect : Rect) : Prop where
  mounted : w.isEditorMountedRef = true
  editorRef : w.editorRef = some editor
  hasLayout : editor.hasLayout = true
  idle : w.isLayoutInProgressRef = false
  container : w.env.container = some rect
  measurable : w.env.measureThrows = none
  fresh : w.FreshTimers

/-- The states the component reaches from its initial state. -/
def Reachable (w : EditorWorld) : Prop :=
  ∃ (env : Env) (evs : List (Int × EditorEvent)), w = (init env).run evs

/-- What holds of every state the component can reach. -/
structure Inv (w : EditorWorld) : Prop where
  layout : w.LayoutInv
  retry : w.RetryInv
  fresh : w.FreshTimers

end EditorWorld

namespace EditorWorld

/-- The index in `resizeObserverRef` names an observer that was created. -/
def RefInv (w : EditorWorld) : Prop :=
  ∀ i, w.resizeObserverRef = some i → i < w.observers.length

/-- A transition at time `now` that mounts no editor: it keeps `editorRef`, the observer
index and the number of observers, it sets no in-progress flag, and every `editor.layout`
call it records is made at `now`. -/
structure Steady (now : Int) (w w' : EditorWorld) : Prop where
  editor : w'.editorRef = w.editorRef
  ref : w'.resizeObserverRef = w.resizeObserverRef
  len : w'.observers.length = w.observers.length
  idle : w.isLayoutInProgressRef = false → w'.isLayoutInProgressRef = false
  layouts : ∃ new, w'.layouts = w.layouts ++ new ∧ ∀ c ∈ new, c.time = now

/-- The time stamps of the events never decrease and are not before `t`. -/
def nonDecreasing : Int → List (Int × EditorEvent) → Bool
  | _, [] => true
  | t, (now, _) :: rest => decide (t ≤ now) && nonDecreasing now rest

end EditorWorld

/-! ## The global error handlers (`suppressResizeObserverError`) -/

/-- The method `String.prototype.includes`: `needle` occurs somewhere in `s`. -/
def includes (s needle : String) : Bool :=
  decide (needle.data <:+: s.data)

/-- The three tests every global handler applies to a string (lines 16-18, 20-22, 24-26,
40-42, 58-60 and 62-64). -/
def matchesResizeObserver (s : String) : Bool :=
  includes s "ResizeObserver" || includes s "undelivered notifications" ||
    includes s "ResizeObserver loop"

/-- The spec's rule: the string contains 'ResizeObserver' or 'undelivered notifications'
(a missing string contains neither). -/
def specSuppresses : Option String → Bool
  | some s => includes s "ResizeObserver" || includes s "undelivered notifications"
  | none => false

/-- What reading `value.message` gives, as far as the handlers can tell. -/
inductive MessageField where
  /-- The values `undefined`, `null` and the other falsy values that are not strings. -/
  | absent
  /-- A string (falsy when empty). -/
  | text (s : String)
  /-- A truthy value that is not a string and has no `includes` method (a number, a plain
  object). -/
  | other
  deriving DecidableEq

/-- A JavaScript value as the handlers inspect it: through its truthiness, `typeof`, its
`message` property and the string its `toString()` returns (`none` when the value has no
`toString` method). -/
inductive JsValue where
  /-- The values `undefined`, `null`, `false`, `0` and `NaN`. -/
  | falsy
  | str (s : String)
  | obj (message : MessageField) (toStr : Option String)
  deriving DecidableEq

namespace JsValue

/-- Truthiness: the empty string is falsy, every object is truthy. -/
def truthy : JsValue → Bool
  | .falsy => false
  | .str s => s != ""
  | .obj _ _ => true

/-- The property `value.message` (a string primitive has none). -/
def message : JsValue → MessageField
  | .obj m _ => m
  | _ => .absent

/-- The result of `value.toString()`, when `value.toString` is truthy. -/
def toStr : JsValue → Option String
  | .falsy => none
  | .str s => some s
  | .obj _ t => t

end JsValue

/-- The string a `message` property holds, if it holds one. -/
def MessageField.text? : MessageField → Option String
  | .text s => some s
  | _ => none

/-- The test `m && (m.includes(..) || m.includes(..) || m.includes(..))` on `m = value.message`;
`none` when `m.includes` is not a function, which raises a `TypeError`. -/
def MessageField.matches : MessageField → Option Bool
  | .absent => some false
  | .text s => some (s != "" && matchesResizeObserver s)
  | .other => none

/-- What a call of the replaced `console.error` does. -/
inductive ConsoleOutcome where
  /-- The wrapper returns without calling the original. -/
  | suppressed
  /-- The call `originalError.apply(console, args)` is made, once. -/
  | forwarded (args : List JsValue)
  | raised (t : Thrown)
  deriving DecidableEq

/-- The function installed as `window.console.error` (lines 9-33). -/
def consoleError (args : List JsValue) : ConsoleOutcome :=
  match args.head? with
  | none => .forwarded args
  | some errorMessage =>
    if !errorMessage.truthy then .forwarded args
    else if (match errorMessage with
        | .str s => matchesResizeObserver s
        | _ => false) then .suppressed
    else
      match errorMessage.message.matches with
      | none => .raised typeError
      | some true => .suppressed
      | some false =>
        match errorMessage.toStr with
        | some t => if matchesResizeObserver t then .suppressed else .forwarded args
        | none => .forwarded args

/-- The five arguments of `window.onerror` as the browser passes them for an error event:
`message` is a string, or `none` for `undefined`.  A call with a first argument of another
type is not covered. -/
structure ErrorEventArgs where
  message : Option String
  source : String
  lineno : Nat
  colno : Nat
  error : JsValue
  deriving DecidableEq

/-- The function installed as `window.onerror` (lines 37-50): the value it returns (`true`,
`false`, or `none` for `undefined`), and the arguments it called the previous handler
with, if it called it. -/
def onerror (originalErrorHandler : Option (ErrorEventArgs → Option Bool))
    (a : ErrorEventArgs) : Option Bool × Option ErrorEventArgs :=
  if (match a.message with
      | some message => message != "" && matchesResizeObserver message
      | none => false) then (some true, none)
  else
    match originalErrorHandler with
    | some h => (h a, some a)
    | none => (some false, none)

/-- What the replaced `window.onunhandledrejection` does with an event. -/
inductive RejectionOutcome where
  /-- The call `event.preventDefault()` is made; the previous handler is not invoked. -/
  | prevented
  /-- The previous handler is invoked with the event. -/
  | delegated
  /-- Nothing is done: there is no previous handler. -/
  | ignored
  | raised (t : Thrown)
  deriving DecidableEq

/-- The function installed as `window.onunhandledrejection` (lines 54-72), for an event
whose `reason` is given; `hasOriginal` tells whether a handler was installed before. -/
def onunhandledrejection (hasOriginal : Bool) (reason : JsValue) : RejectionOutcome :=
  let pass := if hasOriginal then RejectionOutcome.delegated else RejectionOutcome.ignored
  if !reason.truthy then pass
  else
    match reason.message.matches with
    | none => .raised typeError
    | some true => .prevented
    | some false =>
      match reason.toStr with
      | some t => if matchesResizeObserver t then .prevented else pass
      | none => pass

/-- The filter of the catch block of the deferred closure of `SafeResizeObserver` (lines
119-124) on `error.message`: whether the error is left out of the console. -/
def SafeResizeObserver.silencesCallbackError (message : Option String) : Bool :=
  match message with
  | none => false
  | some m =>
    includes m "ResizeObserver" || includes m "undelivered notifications" ||
      includes m "isDisposed" || includes m "layout"

namespace EditorWorld

/-- Every pending window-resize timer is the one `resizeTimeout` names. -/
def ResizeInv (w : EditorWorld) : Prop :=
  ∀ t ∈ w.timers.pending, t.task = .windowResize → w.resizeTimeout = some t.id

/-- A transition that keeps `resizeTimeout` and creates no window-resize timer. -/
structure Calm (w w' : EditorWorld) : Prop where
  ref : w'.resizeTimeout = w.resizeTimeout
  old : ∀ t ∈ w'.timers.pending, t.task = .windowResize → t ∈ w.timers.pending

/-- The due times of the pending timers of one kind, oldest first. -/
def pendingDues (w : EditorWorld) (task : Task) : List Int :=
  (w.timers.pending.filter (fun t => t.task = task)).map Timer.due

/-- A burst of events of one kind at the given times, with nothing in between. -/
def burst (e : EditorEvent) (times : List Int) : List (Int × EditorEvent) :=
  times.map (fun t => (t, e))

end EditorWorld

/-- The rule the spec gives for `console.error`: the first argument contains one of the
fixed substrings as a string, in its message, or in its `toString()`. -/
def specConsoleSuppresses : Option JsValue → Bool
  | none => false
  | some v =>
    (match v with
      | .str s => matchesResizeObserver s
      | _ => false) ||
    (match v.message.text? with
      | some s => matchesResizeObserver s
      | none => false) ||
    (match v.toStr with
      | some s => matchesResizeObserver s
      | none => false)

/-- The filter of the catch block of `observe` (lines 133-138) on `error.message`: whether
the error is left out of the console. -/
def SafeResizeObserver.silencesCreationError (message : Option String) : Bool :=
  match message with
  | none => false
  | some m => includes m "ResizeObserver"

/-! ## Sample surroundings and states -/

/-- A visible page whose container measures 800 by 400. -/
def env800 : Env := ⟨some ⟨800, 400⟩, none, none, false, .ok⟩

/-- A visible page whose container measures 800 wide and 0 high. -/
def envFlat : Env := ⟨some ⟨800, 0⟩, none, none, false, .ok⟩

/-- An editor with a `layout` function. -/
def editor1 : EditorObj := ⟨1, true⟩

/-- The component just after editor 1 was mounted at time 0 in an 800 by 400 container. -/
def mounted800 : EditorWorld :=
  (EditorWorld.init env800).run [(0, .componentMount), (0, .editorMount editor1)]

/-- The state `mounted800` 20 ms later, with one trigger of every kind pending: the
prop-change timer (handle 1), the initial layout (2), a window-resize timer (3), a
visibility timer (4), a deferred invocation of the observer (5) and a retry (6). -/
def busy800 : EditorWorld :=
  mounted800.run
    [(10, .windowResize), (10, .visibilityChange), (10, .notify 0 [1]), (20, .forceLayout)]

/-- The state `mounted800` as `editor.layout` sees it during a layout started at time
1000: the in-progress flag is set and `lastLayoutTimeRef` already holds 1000. -/
def layingOut800 : EditorWorld :=
  { mounted800 with isLayoutInProgressRef := true, lastLayoutTimeRef := 1000 }

/-- A page whose container is present but hidden: it measures 0 by 0. -/
def envHidden : Env := ⟨some ⟨0, 0⟩, none, none, false, .ok⟩

/-- A page without a container element (`containerRef.current` is `null`). -/
def envDetached : Env := ⟨none, none, none, false, .ok⟩

/-- An 800 by 400 container and an editor whose `layout` throws `null`. -/
def envThrowNull : Env := ⟨some ⟨800, 400⟩, none, some .nullish, false, .ok⟩

/-- A visible page whose container measures half a pixel wide. -/
def envSliver : Env := ⟨some ⟨1 / 2, 400⟩, none, none, false, .ok⟩

/-- The state `mounted800` after its container shrank to half a pixel at time 500. -/
def sliver800 : EditorWorld :=
  mounted800.run [(500, .setEnv envSliver)]

/-- A second editor with a `layout` function. -/
def editor2 : EditorObj := ⟨2, true⟩

/-- An 800 by 400 container on a platform whose `ResizeObserver` constructor throws
`null`. -/
def envCtorNull : Env := ⟨some ⟨800, 400⟩, none, none, false, .ctorThrows .nullish⟩

/-! ## Invariants of a SafeResizeObserver -/

namespace Timers

variable {τ : Type}

theorem clearRef_pending_nil (ts : Timers τ) (ref : Option Nat)
    (h : ∀ t ∈ ts.pending, ts.pending = [t] ∧ ref = some t.id) :
    (ts.clearRef ref).pending = [] := by
  cases hp : ts.pending with
  | nil => cases ref <;> simp [clearRef, clearTimeout, hp]
  | cons t l =>
    obtain ⟨h1, h2⟩ := h t (by simp [hp])
    rw [hp] at h1
    simp [clearRef, clearTimeout, h2, hp, h1]

theorem clearRef_next (ts : Timers τ) (ref : Option Nat) :
    (ts.clearRef ref).next = ts.next := by
  cases ref <;> rfl

theorem find?_some {ts : Timers τ} {id : Nat} {t : Timer τ} (h : ts.find? id = some t) :
    t ∈ ts.pending ∧ t.id = id := by
  unfold find? at h
  exact ⟨List.mem_of_find?_eq_some h, by simpa using List.find?_some h⟩

end Timers

namespace SafeResizeObserver

theorem observe_minInterval (o : SafeResizeObserver) (el : Option Nat) (p : PlatformOutcome) :
    (o.observe el p).1.minInterval = o.minInterval := by
  unfold observe; split <;> [rfl; (split <;> rfl)]

theorem observe_timeoutId (o : SafeResizeObserver) (el : Option Nat) (p : PlatformOutcome) :
    (o.observe el p).1.timeoutId = o.timeoutId := by
  unfold observe; split <;> [rfl; (split <;> rfl)]

theorem observe_lastCallTime (o : SafeResizeObserver) (el : Option Nat) (p : PlatformOutcome) :
    (o.observe el p).1.lastCallTime = o.lastCallTime := by
  unfold observe; split <;> [rfl; (split <;> rfl)]

theorem observe_isDestroyed (o : SafeResizeObserver) (el : Option Nat) (p : PlatformOutcome) :
    (o.observe el p).1.isDestroyed = o.isDestroyed := by
  unfold observe; split <;> [rfl; (split <;> rfl)]

theorem observe_callbackIsFunction (o : SafeResizeObserver) (el : Option Nat)
    (p : PlatformOutcome) :
    (o.observe el p).1.callbackIsFunction = o.callbackIsFunction := by
  unfold observe; split <;> [rfl; (split <;> rfl)]

end SafeResizeObserver

namespace ObserverWorld

theorem single_init (f : Bool) : Single (init f) := by
  simp [Single, init, Timers.empty]

theorem single_step {w : ObserverWorld} (h : Single w) (now : Int) (e : ObserverEvent) :
    Single (step w now e) := by
  unfold Single at h ⊢
  cases e with
  | observe element p =>
    simp only [step, SafeResizeObserver.observe_timeoutId]
    exact h
  | notify entries =>
    by_cases hd : w.obj.isDestroyed = true
    · simp only [step, SafeResizeObserver.notify, hd, if_true]
      exact h
    · have hnil := Timers.clearRef_pending_nil w.timers w.obj.timeoutId h
      simp [step, SafeResizeObserver.notify, hd, Timers.setTimeout, hnil, Timers.fresh]
  | fire id outcome =>
    simp only [step]
    cases hf : w.timers.find? id with
    | none => exact h
    | some t =>
      obtain ⟨hmem, hid⟩ := Timers.find?_some hf
      obtain ⟨hp, -⟩ := h t hmem
      have hclr : (w.timers.clearTimeout id).pending = [] := by
        simp [Timers.clearTimeout, hp, hid]
      simp only [runDeferred]
      split <;> simp [hclr]
  | disconnect =>
    have hnil := Timers.clearRef_pending_nil w.timers w.obj.timeoutId h
    simp [step, SafeResizeObserver.disconnect, hnil]

theorem single_run {w : ObserverWorld} (h : Single w) (evs : List (Int × ObserverEvent)) :
    Single (run w evs) := by
  induction evs generalizing w with
  | nil => exact h
  | cons x rest ih => exact ih (single_step h x.1 x.2)

theorem spaced_init (f : Bool) : Spaced (init f) :=
  ⟨rfl, by simp [init, Timers.empty], by simp [init], by simp [init]⟩

theorem spaced_step {w : ObserverWorld} (hs : Single w) (h : Spaced w) (now : Int)
    (e : ObserverEvent) (ht : noEarlyFire w [(now, e)] = true) : Spaced (step w now e) := by
  obtain ⟨h1, h3, h4, h5⟩ := h
  cases e with
  | observe element p =>
    refine ⟨?_, ?_, ?_, ?_⟩ <;>
      (simp only [step, SafeResizeObserver.observe_minInterval,
        SafeResizeObserver.observe_lastCallTime]
       assumption)
  | notify entries =>
    by_cases hd : w.obj.isDestroyed = true
    · refine ⟨?_, ?_, ?_, ?_⟩ <;>
        (simp only [step, SafeResizeObserver.notify, hd, if_true]; assumption)
    · have hnil := Timers.clearRef_pending_nil w.timers w.obj.timeoutId hs
      refine ⟨?_, ?_, ?_, ?_⟩
      · simpa [step, SafeResizeObserver.notify, hd] using h1
      · simp only [step, SafeResizeObserver.notify, hd, Timers.setTimeout, hnil]
        simp only [Bool.false_eq_true, if_false, List.nil_append, List.mem_singleton,
          forall_eq, h1]
        have := le_max_right (0 : Int) (50 - (now - w.obj.lastCallTime))
        omega
      · simpa [step, SafeResizeObserver.notify, hd] using h4
      · simpa [step, SafeResizeObserver.notify, hd] using h5
  | fire id outcome =>
    simp only [step]
    cases hf : w.timers.find? id with
    | none => exact ⟨h1, h3, h4, h5⟩
    | some t =>
      obtain ⟨hmem, hid⟩ := Timers.find?_some hf
      obtain ⟨hp, -⟩ := hs t hmem
      have hdue : t.due ≤ now := by
        simp only [noEarlyFire, List.all_eq_true, Bool.and_true] at ht
        simpa [hid] using ht t hmem
      have hlast := h3 t hmem
      have hclr : (w.timers.clearTimeout id).pending = [] := by
        simp [Timers.clearTimeout, hp, hid]
      simp only [runDeferred]
      split
      · rename_i hc
        refine ⟨?_, ?_, ?_, ?_⟩
        · simpa [SafeResizeObserver.deferred, hc] using h1
        · simp [hclr]
        · intro c hcm
          simp only [SafeResizeObserver.deferred, hc, if_true, List.mem_append,
            List.mem_singleton] at hcm ⊢
          rcases hcm with hcm | rfl
          · have := h4 c hcm
            omega
          · exact le_refl _
        · rw [List.pairwise_append]
          refine ⟨h5, by simp, ?_⟩
          intro a ha b hb
          simp only [List.mem_singleton] at hb
          subst hb
          have := h4 a ha
          show a.1 + 50 ≤ now
          omega
      · exact ⟨h1, by simp [hclr], h4, h5⟩
  | disconnect =>
    have hnil := Timers.clearRef_pending_nil w.timers w.obj.timeoutId hs
    refine ⟨?_, ?_, ?_, ?_⟩
    · simpa [step, SafeResizeObserver.disconnect] using h1
    · simp [step, SafeResizeObserver.disconnect, hnil]
    · simpa [step, SafeResizeObserver.disconnect] using h4
    · simpa [step, SafeResizeObserver.disconnect] using h5

theorem noEarlyFire_cons (w : ObserverWorld) (x : Int × ObserverEvent)
    (rest : List (Int × ObserverEvent)) :
    noEarlyFire w (x :: rest) = (noEarlyFire w [x] && noEarlyFire (step w x.1 x.2) rest) := by
  obtain ⟨now, e⟩ := x
  simp [noEarlyFire]

theorem spaced_run {w : ObserverWorld} (hs : Single w) (h : Spaced w)
    (evs : List (Int × ObserverEvent)) (ht : noEarlyFire w evs = true) :
    Spaced (run w evs) := by
  induction evs generalizing w with
  | nil => exact h
  | cons x rest ih =>
    rw [noEarlyFire_cons, Bool.and_eq_true] at ht
    exact ih (single_step hs x.1 x.2) (spaced_step hs h x.1 x.2 ht.1) ht.2

theorem callbackIsFunction_step (w : ObserverWorld) (now : Int) (e : ObserverEvent) :
    (step w now e).obj.callbackIsFunction = w.obj.callbackIsFunction := by
  cases e with
  | observe element p => simp [step, SafeResizeObserver.observe_callbackIsFunction]
  | notify entries =>
    simp only [step, SafeResizeObserver.notify]
    split <;> rfl
  | fire id outcome =>
    simp only [step]
    cases w.timers.find? id with
    | none => rfl
    | some t =>
      simp only [runDeferred, SafeResizeObserver.deferred]
      split <;> simp_all
  | disconnect => simp [step, SafeResizeObserver.disconnect]

theorem callbackIsFunction_run (w : ObserverWorld) (evs : List (Int × ObserverEvent)) :
    (run w evs).obj.callbackIsFunction = w.obj.callbackIsFunction := by
  induction evs generalizing w with
  | nil => rfl
  | cons x rest ih => exact (ih _).trans (callbackIsFunction_step w x.1 x.2)

theorem run_append (w : ObserverWorld) (xs ys : List (Int × ObserverEvent)) :
    run w (xs ++ ys) = run (run w xs) ys := by
  induction xs generalizing w with
  | nil => rfl
  | cons x rest ih => exact ih _

/-- Once destroyed, an instance stays destroyed, calls nothing and raises nothing. -/
theorem destroyed_step {w : ObserverWorld} (hd : w.obj.isDestroyed = true) (now : Int)
    (e : ObserverEvent) :
    (step w now e).obj.isDestroyed = true ∧ (step w now e).calls = w.calls ∧
      (step w now e).escaped = w.escaped := by
  cases e with
  | observe element p =>
    simp [step, SafeResizeObserver.observe, hd]
  | notify entries =>
    simp [step, SafeResizeObserver.notify, hd]
  | fire id outcome =>
    simp only [step]
    cases w.timers.find? id with
    | none => exact ⟨hd, rfl, rfl⟩
    | some t => simp [runDeferred, SafeResizeObserver.deferredCalls, hd]
  | disconnect =>
    simp [step, SafeResizeObserver.disconnect]

theorem destroyed_run {w : ObserverWorld} (hd : w.obj.isDestroyed = true)
    (evs : List (Int × ObserverEvent)) :
    (run w evs).obj.isDestroyed = true ∧ (run w evs).calls = w.calls ∧
      (run w evs).escaped = w.escaped := by
  induction evs generalizing w with
  | nil => exact ⟨hd, rfl, rfl⟩
  | cons x rest ih =>
    obtain ⟨h1, h2, h3⟩ := destroyed_step hd x.1 x.2
    obtain ⟨k1, k2, k3⟩ := ih h1
    exact ⟨k1, k2.trans h2, k3.trans h3⟩

/-- A run of raw notifications on a live instance leaves it live and calls nothing. -/
theorem notify_run_live {w : ObserverWorld} (hl : w.obj.isDestroyed = false)
    (burst : List (Int × List Entry)) :
    (run w (burst.map (fun b => (b.1, ObserverEvent.notify b.2)))).obj.isDestroyed = false ∧
    (run w (burst.map (fun b => (b.1, ObserverEvent.notify b.2)))).obj.callbackIsFunction
      = w.obj.callbackIsFunction ∧
    (run w (burst.map (fun b => (b.1, ObserverEvent.notify b.2)))).obj.lastCallTime
      = w.obj.lastCallTime ∧
    (run w (burst.map (fun b => (b.1, ObserverEvent.notify b.2)))).obj.minInterval
      = w.obj.minInterval ∧
    (run w (burst.map (fun b => (b.1, ObserverEvent.notify b.2)))).calls = w.calls := by
  induction burst generalizing w with
  | nil => exact ⟨hl, rfl, rfl, rfl, rfl⟩
  | cons b rest ih =>
    have hstep : (step w b.1 (.notify b.2)).obj.isDestroyed = false := by
      simp [step, SafeResizeObserver.notify, hl]
    obtain ⟨k1, k2, k3, k4, k5⟩ := ih hstep
    refine ⟨k1, k2.trans ?_, k3.trans ?_, k4.trans ?_, k5.trans ?_⟩ <;>
      simp [step, SafeResizeObserver.notify, hl]

end ObserverWorld

/-! ## Invariants of the editor component -/

namespace EditorWorld

theorem Quiet.refl (w : EditorWorld) : Quiet w w :=
  ⟨rfl, rfl, rfl, ⟨fun _ => true, by simp⟩, id⟩

theorem Quiet.trans {a b c : EditorWorld} (h₁ : Quiet a b) (h₂ : Quiet b c) : Quiet a c := by
  obtain ⟨p, hp⟩ := h₁.retries
  obtain ⟨q, hq⟩ := h₂.retries
  refine ⟨h₂.lastLayoutTime.trans h₁.lastLayoutTime, h₂.layoutTimeout.trans h₁.layoutTimeout,
    h₂.forceLayouts.trans h₁.forceLayouts, ⟨fun t => p t && q t, ?_⟩,
    fun h => h₂.fresh (h₁.fresh h)⟩
  rw [hq, hp, List.filter_filter]
  congr 1
  funext t
  exact Bool.and_comm _ _

/-- Replacing the timer table by one with a timer cleared is quiet. -/
theorem quiet_clearTimeout (w w' : EditorWorld) (id : Nat)
    (h1 : w'.lastLayoutTimeRef = w.lastLayoutTimeRef)
    (h2 : w'.layoutTimeoutRef = w.layoutTimeoutRef) (h3 : w'.layouts = w.layouts)
    (h4 : w'.timers = w.timers.clearTimeout id) : Quiet w w' := by
  refine ⟨h1, h2, by simp [forceLayoutTimes, h3], ⟨fun t => t.id != id, ?_⟩, ?_⟩
  · simp only [pendingRetries, h4, Timers.clearTimeout, List.filter_filter]
    congr 1
    funext t
    exact Bool.and_comm _ _
  · intro hf t ht
    simp only [h4, Timers.clearTimeout, List.mem_filter] at ht ⊢
    exact hf t ht.1

/-- Replacing the timer table by one with `if (ref) clearTimeout(ref)` applied is quiet. -/
theorem quiet_clearRef (w w' : EditorWorld) (ref : Option Nat)
    (h1 : w'.lastLayoutTimeRef = w.lastLayoutTimeRef)
    (h2 : w'.layoutTimeoutRef = w.layoutTimeoutRef) (h3 : w'.layouts = w.layouts)
    (h4 : w'.timers = w.timers.clearRef ref) : Quiet w w' := by
  cases ref with
  | none =>
    refine ⟨h1, h2, by simp [forceLayoutTimes, h3], ⟨fun _ => true, ?_⟩, ?_⟩
    · simp [pendingRetries, h4, Timers.clearRef]
    · intro hf t ht
      simp only [h4, Timers.clearRef] at ht ⊢
      exact hf t ht
  | some id => exact quiet_clearTimeout w w' id h1 h2 h3 h4

/-- Adding a timer that is not a retry is quiet. -/
theorem quiet_setTimeout (w w' : EditorWorld) (now delay : Int) (task : Task)
    (h1 : w'.lastLayoutTimeRef = w.lastLayoutTimeRef)
    (h2 : w'.layoutTimeoutRef = w.layoutTimeoutRef) (h3 : w'.layouts = w.layouts)
    (h4 : w'.timers = w.timers.setTimeout now delay task) (h5 : task ≠ .retry) :
    Quiet w w' := by
  refine ⟨h1, h2, by simp [forceLayoutTimes, h3], ⟨fun _ => true, ?_⟩, ?_⟩
  · simp [pendingRetries, h4, Timers.setTimeout, List.filter_append, h5]
  · intro hf t ht
    simp only [h4, Timers.setTimeout, List.mem_append, List.mem_singleton] at ht ⊢
    rcases ht with ht | rfl
    · exact Nat.le_succ_of_le (hf t ht)
    · exact le_refl _

/-- A transition that leaves the timers and the scheduling refs alone is quiet. -/
theorem quiet_of_eq (w w' : EditorWorld)
    (h1 : w'.lastLayoutTimeRef = w.lastLayoutTimeRef)
    (h2 : w'.layoutTimeoutRef = w.layoutTimeoutRef) (h3 : w'.layouts = w.layouts)
    (h4 : w'.timers = w.timers) : Quiet w w' :=
  quiet_clearRef w w' none h1 h2 h3 h4

theorem quiet_handleResize (w : EditorWorld) (now : Int) : Quiet w (w.handleResize now) := by
  unfold handleResize
  split
  · exact quiet_setTimeout _ _ now 0 .animationFrame rfl rfl rfl rfl (by simp)
  · exact Quiet.refl w

theorem quiet_disconnectObserver (w : EditorWorld) : Quiet w w.disconnectObserver := by
  unfold disconnectObserver
  split
  · exact Quiet.refl w
  · split
    · exact Quiet.refl w
    · exact quiet_clearRef _ _ _ rfl rfl rfl rfl

theorem quiet_onDidDispose (w : EditorWorld) : Quiet w w.onDidDispose := by
  unfold onDidDispose
  refine Quiet.trans (Quiet.trans (b := { w with isEditorMountedRef := false }) ?_
    (quiet_disconnectObserver _)) ?_
  · exact quiet_of_eq _ _ rfl rfl rfl rfl
  · exact quiet_clearRef _ _ _ rfl rfl rfl rfl

theorem quiet_handleEditorWillUnmount (w : EditorWorld) :
    Quiet w w.handleEditorWillUnmount := by
  unfold handleEditorWillUnmount
  refine Quiet.trans (Quiet.trans
    (b := { w with isEditorMountedRef := false, isLayoutInProgressRef := false }) ?_
    (quiet_disconnectObserver _)) ?_
  · exact quiet_of_eq _ _ rfl rfl rfl rfl
  · exact quiet_clearRef _ _ _ rfl rfl rfl rfl

theorem quiet_handleEditorDidMount (w : EditorWorld) (now : Int) (editor : EditorObj) :
    Quiet w (w.handleEditorDidMount now editor) :=
  quiet_setTimeout _ _ now 100 (.initialLayout editor) rfl rfl rfl rfl (by simp)

theorem quiet_propEffect (w : EditorWorld) (now : Int) : Quiet w (w.propEffect now) :=
  quiet_setTimeout _ _ now 200 .propChange rfl rfl rfl rfl (by simp)

theorem quiet_propCleanup (w : EditorWorld) : Quiet w w.propCleanup :=
  quiet_clearRef _ _ _ rfl rfl rfl rfl

theorem quiet_handleWindowResize (w : EditorWorld) (now : Int) :
    Quiet w (w.handleWindowResize now) := by
  refine Quiet.trans (b := { w with timers := w.timers.clearRef w.resizeTimeout }) ?_ ?_
  · exact quiet_clearRef _ _ _ rfl rfl rfl rfl
  · exact quiet_setTimeout _ _ now 150 .windowResize rfl rfl rfl rfl (by simp)

theorem quiet_handleVisibilityChange (w : EditorWorld) (now : Int) :
    Quiet w (w.handleVisibilityChange now) := by
  unfold handleVisibilityChange
  split
  · exact quiet_setTimeout _ _ now 300 .visibility rfl rfl rfl rfl (by simp)
  · exact Quiet.refl w

theorem quiet_cleanupEffects (w : EditorWorld) : Quiet w w.cleanupEffects := by
  unfold cleanupEffects
  refine Quiet.trans (quiet_propCleanup w) (Quiet.trans ?_ (quiet_handleEditorWillUnmount _))
  exact quiet_clearRef _ _ _ rfl rfl rfl rfl

theorem quiet_observerDeferred (w : EditorWorld) (now : Int) (obs : Nat)
    (entries : List Entry) : Quiet w (w.observerDeferred now obs entries) := by
  unfold observerDeferred
  split
  · exact Quiet.refl w
  · split
    · rename_i o _ _
      exact Quiet.trans
        (b := { w with observers := w.observers.set obs (o.deferred now entries) })
        (quiet_of_eq _ _ rfl rfl rfl rfl) (quiet_handleResize _ now)
    · exact Quiet.refl w

theorem quiet_notifyObserver (w : EditorWorld) (now : Int) (obs : Nat)
    (entries : List Entry) : Quiet w (w.notifyObserver now obs entries) := by
  unfold notifyObserver
  split
  · exact Quiet.refl w
  · rename_i o _
    by_cases hd : o.isDestroyed = true
    · exact quiet_of_eq _ _ rfl rfl rfl (by simp [SafeResizeObserver.notify, hd])
    · refine Quiet.trans (b := { w with timers := w.timers.clearRef o.timeoutId }) ?_ ?_
      · exact quiet_clearRef _ _ _ rfl rfl rfl rfl
      · exact quiet_setTimeout _ _ now (max 0 (o.minInterval - (now - o.lastCallTime)))
          (.observerDeferred obs entries) rfl rfl rfl
          (by simp [SafeResizeObserver.notify, hd]) (by simp)

theorem quiet_initialLayout (w : EditorWorld) (editor : EditorObj) (now : Int) :
    Quiet w (w.initialLayout editor now) := by
  unfold initialLayout
  split
  · split
    · split
      · exact quiet_of_eq _ _ rfl rfl rfl rfl
      · split
        · refine ⟨rfl, rfl, ?_, ⟨fun _ => true, by simp [pendingRetries]⟩, id⟩
          simp [forceLayoutTimes, List.filter_append]
        · exact Quiet.refl w
    · exact Quiet.refl w
  · exact Quiet.refl w

end EditorWorld

namespace EditorWorld

theorem inv_of_quiet {w w' : EditorWorld} (h : Quiet w w') (hi : Inv w) : Inv w' := by
  refine ⟨?_, ?_, h.fresh hi.fresh⟩
  · have := hi.layout
    unfold LayoutInv at this ⊢
    rw [h.forceLayouts, h.lastLayoutTime]
    exact this
  · obtain ⟨p, hp⟩ := h.retries
    have := hi.retry
    unfold RetryInv at this ⊢
    rw [hp, h.layoutTimeout]
    intro t ht
    obtain ⟨hm, hpt⟩ := List.mem_filter.1 ht
    obtain ⟨k1, k2⟩ := this t hm
    refine ⟨?_, k2⟩
    rw [k1]
    simp [hpt]

theorem inv_init (env : Env) : Inv (init env) := by
  refine ⟨?_, ?_, ?_⟩
  · simp [LayoutInv, forceLayoutTimes, init]
  · simp [RetryInv, pendingRetries, init, Timers.empty]
  · simp [FreshTimers, init, Timers.empty]

/-- The function `forceLayout` with the effect of its try and finally blocks on the refs
written out: the flag set on line 106 is cleared on line 129, and the measurement does not
read the refs. -/
theorem forceLayout_eq (w : EditorWorld) (now : Int) :
    w.forceLayout now =
      match w.editorRef with
      | none => w
      | some editor =>
        if !w.isEditorMountedRef || !editor.hasLayout || w.isLayoutInProgressRef then w
        else
          let timeSinceLastLayout := now - w.lastLayoutTimeRef
          if timeSinceLastLayout < 100 then
            let ts := w.timers.clearRef w.layoutTimeoutRef
            { w with
              layoutTimeoutRef := some ts.fresh
              timers := ts.setTimeout now (100 - timeSinceLastLayout) .retry }
          else
            let r := layoutAttempt w editor now
            { w with
              isLayoutInProgressRef := false
              lastLayoutTimeRef := now
              layouts := w.layouts ++ r.1
              escaped := w.escaped ++ (r.2.bind catchEscapes).toList } :=
  rfl

/-- With the retry invariant, cancelling the timer `layoutTimeoutRef` names leaves no
pending retry. -/
theorem retries_clearRef_nil {w : EditorWorld} (h : RetryInv w) :
    (w.timers.clearRef w.layoutTimeoutRef).pending.filter (fun t => t.task = .retry) = [] := by
  unfold RetryInv pendingRetries at h
  cases hr : w.layoutTimeoutRef with
  | none =>
    simp only [Timers.clearRef]
    cases hp : w.timers.pending.filter (fun t => t.task = .retry) with
    | nil => rfl
    | cons t l =>
      have := (h t (by simp [hp])).2
      simp [hr] at this
  | some id =>
    simp only [Timers.clearRef, Timers.clearTimeout, List.filter_filter]
    rw [List.filter_eq_nil_iff]
    intro t ht
    by_cases hk : t.task = .retry
    · have hm : t ∈ w.timers.pending.filter (fun t => t.task = .retry) := by
        simp [List.mem_filter, ht, hk]
      have := (h t hm).2
      rw [hr] at this
      simp only [Option.some.injEq] at this
      simp [this]
    · simp [hk]

theorem inv_forceLayout {w : EditorWorld} (hi : Inv w) (now : Int) :
    Inv (w.forceLayout now) := by
  rw [forceLayout_eq]
  split
  · exact hi
  · rename_i editor _
    split
    · exact hi
    · dsimp only
      split
      · -- the retry branch
        refine ⟨hi.layout, ?_, ?_⟩
        · have hnil := retries_clearRef_nil hi.retry
          unfold RetryInv pendingRetries
          simp [Timers.setTimeout, List.filter_append, hnil, Timers.fresh, Timers.clearRef_next]
        · have hf := hi.fresh
          unfold FreshTimers at hf ⊢
          intro t ht
          simp only [Timers.setTimeout, List.mem_append, List.mem_singleton,
            Timers.clearRef_next] at ht ⊢
          rcases ht with ht | rfl
          · have : t ∈ w.timers.pending := by
              cases hr : w.layoutTimeoutRef with
              | none => simpa [hr, Timers.clearRef] using ht
              | some id =>
                simp only [hr, Timers.clearRef, Timers.clearTimeout, List.mem_filter] at ht
                exact ht.1
            exact Nat.le_succ_of_le (hf t this)
          · exact le_refl _
      · -- the layout branch
        rename_i hlt
        refine ⟨?_, hi.retry, hi.fresh⟩
        obtain ⟨h1, h2⟩ := hi.layout
        have hcases : (w.layoutAttempt editor now).1 = [] ∨
            ∃ arg, (w.layoutAttempt editor now).1 = [⟨editor.id, now, arg, .forceLayout⟩] := by
          unfold layoutAttempt
          split
          · split
            · exact Or.inl rfl
            · dsimp only
              split
              · exact Or.inr ⟨_, rfl⟩
              · exact Or.inl rfl
          · exact Or.inr ⟨_, rfl⟩
        unfold forceLayoutTimes at h1 h2
        unfold LayoutInv forceLayoutTimes
        rcases hcases with hc | ⟨arg, hc⟩
        · simp only [hc, List.append_nil]
          refine ⟨fun t ht => ?_, h2⟩
          have := h1 t ht
          show t ≤ now
          omega
        · simp only [hc, List.filter_append, List.map_append]
          constructor
          · intro t ht
            simp only [List.mem_append] at ht
            show t ≤ now
            rcases ht with ht | ht
            · have := h1 t ht
              omega
            · simp at ht
              omega
          · rw [List.pairwise_append]
            refine ⟨h2, by simp, ?_⟩
            intro a ha b hb
            simp at hb
            have := h1 a ha
            omega

theorem inv_runTask {w : EditorWorld} (hi : Inv w) (now : Int) (task : Task) :
    Inv (w.runTask now task) := by
  cases task with
  | retry => exact inv_forceLayout hi now
  | initialLayout editor => exact inv_of_quiet (quiet_initialLayout w editor now) hi
  | propChange =>
    simp only [runTask, guardedForceLayout]
    split <;> [exact inv_forceLayout hi now; exact hi]
  | windowResize =>
    simp only [runTask, guardedForceLayout]
    split <;> [exact inv_forceLayout hi now; exact hi]
  | visibility =>
    simp only [runTask, guardedForceLayout]
    split <;> [exact inv_forceLayout hi now; exact hi]
  | animationFrame =>
    simp only [runTask, animationFrame]
    split <;> [exact inv_forceLayout hi now; exact hi]
  | observerDeferred obs entries =>
    exact inv_of_quiet (quiet_observerDeferred w now obs entries) hi

theorem inv_step {w : EditorWorld} (hi : Inv w) (now : Int) (e : EditorEvent) :
    Inv (step w now e) := by
  cases e with
  | setEnv env => exact inv_of_quiet (quiet_of_eq w _ rfl rfl rfl rfl) hi
  | componentMount =>
    simp only [step]
    split
    · exact hi
    · exact inv_of_quiet (Quiet.trans (b := { w with effectsActive := true })
        (quiet_of_eq w _ rfl rfl rfl rfl) (quiet_propEffect _ now)) hi
  | propsChange =>
    simp only [step]
    split
    · exact inv_of_quiet (Quiet.trans (quiet_propCleanup w) (quiet_propEffect _ now)) hi
    · exact hi
  | windowResize =>
    simp only [step]
    split <;> [exact inv_of_quiet (quiet_handleWindowResize w now) hi; exact hi]
  | visibilityChange =>
    simp only [step]
    split <;> [exact inv_of_quiet (quiet_handleVisibilityChange w now) hi; exact hi]
  | componentUnmount =>
    simp only [step]
    split <;> [exact inv_of_quiet (quiet_cleanupEffects w) hi; exact hi]
  | editorMount editor => exact inv_of_quiet (quiet_handleEditorDidMount w now editor) hi
  | editorWillUnmount => exact inv_of_quiet (quiet_handleEditorWillUnmount w) hi
  | editorDispose ed =>
    simp only [step]
    split <;> [exact inv_of_quiet (quiet_onDidDispose w) hi; exact hi]
  | notify obs entries => exact inv_of_quiet (quiet_notifyObserver w now obs entries) hi
  | fire id =>
    simp only [step]
    split
    · exact hi
    · exact inv_runTask
        (inv_of_quiet (quiet_clearTimeout w { w with timers := w.timers.clearTimeout id } id
          rfl rfl rfl rfl) hi) now _
  | forceLayout => exact inv_forceLayout hi now

theorem inv_run {w : EditorWorld} (hi : Inv w) (evs : List (Int × EditorEvent)) :
    Inv (run w evs) := by
  induction evs generalizing w with
  | nil => exact hi
  | cons x rest ih => exact ih (inv_step hi x.1 x.2)

end EditorWorld

namespace EditorWorld

theorem forceLayout_unmounted {w : EditorWorld} (hm : w.isEditorMountedRef = false)
    (now : Int) : w.forceLayout now = w := by
  unfold forceLayout
  split
  · rfl
  · simp [hm]

theorem disconnectObserver_mounted (w : EditorWorld) :
    w.disconnectObserver.isEditorMountedRef = w.isEditorMountedRef ∧
      w.disconnectObserver.layouts = w.layouts := by
  unfold disconnectObserver
  split
  · exact ⟨rfl, rfl⟩
  · split <;> exact ⟨rfl, rfl⟩

theorem onDidDispose_unmounted (w : EditorWorld) :
    w.onDidDispose.isEditorMountedRef = false ∧ w.onDidDispose.layouts = w.layouts := by
  unfold onDidDispose
  exact disconnectObserver_mounted { w with isEditorMountedRef := false }

theorem handleEditorWillUnmount_unmounted (w : EditorWorld) :
    w.handleEditorWillUnmount.isEditorMountedRef = false ∧
      w.handleEditorWillUnmount.layouts = w.layouts := by
  unfold handleEditorWillUnmount
  exact disconnectObserver_mounted
    { w with isEditorMountedRef := false, isLayoutInProgressRef := false }

theorem cleanupEffects_unmounted (w : EditorWorld) :
    w.cleanupEffects.isEditorMountedRef = false ∧ w.cleanupEffects.layouts = w.layouts := by
  unfold cleanupEffects
  exact handleEditorWillUnmount_unmounted _

theorem runTask_unmounted {w : EditorWorld} (hm : w.isEditorMountedRef = false) (now : Int)
    (task : Task) :
    (w.runTask now task).isEditorMountedRef = false ∧ (w.runTask now task).layouts = w.layouts := by
  cases task with
  | retry => simp [runTask, forceLayout_unmounted hm, hm]
  | initialLayout editor => simp [runTask, initialLayout, hm]
  | propChange => simp [runTask, guardedForceLayout, forceLayout_unmounted hm, hm]
  | windowResize => simp [runTask, guardedForceLayout, forceLayout_unmounted hm, hm]
  | visibility => simp [runTask, guardedForceLayout, forceLayout_unmounted hm, hm]
  | animationFrame => simp [runTask, animationFrame, hm]
  | observerDeferred obs entries =>
    simp only [runTask, observerDeferred]
    split
    · exact ⟨hm, rfl⟩
    · split
      · simp [handleResize, hm]
      · exact ⟨hm, rfl⟩

/-- While the mounted flag is clear, an event other than a mount leaves it clear and makes
no `editor.layout` call. -/
theorem step_unmounted {w : EditorWorld} (hm : w.isEditorMountedRef = false) (now : Int)
    (e : EditorEvent) (he : isMount e = false) :
    (step w now e).isEditorMountedRef = false ∧ (step w now e).layouts = w.layouts := by
  cases e with
  | setEnv env => exact ⟨hm, rfl⟩
  | componentMount =>
    simp only [step]
    split <;> exact ⟨hm, rfl⟩
  | propsChange =>
    simp only [step]
    split <;> exact ⟨hm, rfl⟩
  | windowResize =>
    simp only [step]
    split <;> exact ⟨hm, rfl⟩
  | visibilityChange =>
    simp only [step, handleVisibilityChange]
    split <;> [split; skip] <;> exact ⟨hm, rfl⟩
  | componentUnmount =>
    simp only [step]
    split <;> [exact cleanupEffects_unmounted w; exact ⟨hm, rfl⟩]
  | editorMount editor => simp [isMount] at he
  | editorWillUnmount => exact handleEditorWillUnmount_unmounted w
  | editorDispose ed =>
    simp only [step]
    split <;> [exact onDidDispose_unmounted w; exact ⟨hm, rfl⟩]
  | notify obs entries =>
    simp only [step, notifyObserver]
    split <;> exact ⟨hm, rfl⟩
  | fire id =>
    simp only [step]
    split
    · exact ⟨hm, rfl⟩
    · exact runTask_unmounted (w := { w with timers := w.timers.clearTimeout id }) hm now _
  | forceLayout => simp [step, forceLayout_unmounted hm, hm]

theorem run_unmounted {w : EditorWorld} (hm : w.isEditorMountedRef = false)
    (evs : List (Int × EditorEvent)) (he : evs.all (fun x => !isMount x.2) = true) :
    (run w evs).isEditorMountedRef = false ∧ (run w evs).layouts = w.layouts := by
  induction evs generalizing w with
  | nil => exact ⟨hm, rfl⟩
  | cons x rest ih =>
    simp only [List.all_cons, Bool.and_eq_true, Bool.not_eq_true'] at he
    obtain ⟨h1, h2⟩ := step_unmounted hm x.1 x.2 he.1
    obtain ⟨k1, k2⟩ := ih h1 he.2
    exact ⟨k1, k2.trans h2⟩

end EditorWorld

namespace EditorWorld

theorem inv_of_reachable {w : EditorWorld} (h : Reachable w) : Inv w := by
  obtain ⟨env, evs, rfl⟩ := h
  exact inv_run (inv_init env) evs

/-- The retry branch of `forceLayout`, when the first guard passes and less than 100 ms
have elapsed. -/
theorem forceLayout_throttled {w : EditorWorld} {editor : EditorObj} {now : Int}
    (hm : w.isEditorMountedRef = true) (he : w.editorRef = some editor)
    (hl : editor.hasLayout = true) (hp : w.isLayoutInProgressRef = false)
    (ht : now - w.lastLayoutTimeRef < 100) :
    w.forceLayout now =
      { w with
        layoutTimeoutRef := some (w.timers.clearRef w.layoutTimeoutRef).fresh
        timers := (w.timers.clearRef w.layoutTimeoutRef).setTimeout now
          (100 - (now - w.lastLayoutTimeRef)) .retry } := by
  unfold forceLayout
  simp [he, hm, hl, hp, ht]

/-- The layout branch of `forceLayout`, when the first guard passes and at least 100 ms
have elapsed. -/
theorem forceLayout_due {w : EditorWorld} {editor : EditorObj} {now : Int}
    (hm : w.isEditorMountedRef = true) (he : w.editorRef = some editor)
    (hl : editor.hasLayout = true) (hp : w.isLayoutInProgressRef = false)
    (ht : 100 ≤ now - w.lastLayoutTimeRef) :
    w.forceLayout now =
      { w with
        isLayoutInProgressRef := false
        lastLayoutTimeRef := now
        layouts := w.layouts ++ (w.layoutAttempt editor now).1
        escaped := w.escaped ++ ((w.layoutAttempt editor now).2.bind catchEscapes).toList } := by
  rw [forceLayout_eq]
  have : ¬ now - w.lastLayoutTimeRef < 100 := by omega
  simp [he, hm, hl, hp, this]

end EditorWorld

namespace EditorWorld

theorem find?_append_last {l : List (Timer Task)} {t : Timer Task} (n : Nat) (next : Nat)
    (hid : t.id = n) (hl : ∀ x ∈ l, x.id < n) :
    (Timers.mk (l ++ [t]) next).find? n = some t ∧
    ((Timers.mk (l ++ [t]) next).clearTimeout n).pending = l := by
  constructor
  · unfold Timers.find?
    rw [List.find?_append]
    have : l.find? (fun x => x.id == n) = none := by
      rw [List.find?_eq_none]
      intro x hx
      have := hl x hx
      simp
      omega
    simp [this, hid]
  · simp only [Timers.clearTimeout, List.filter_append]
    have : l.filter (fun x => x.id != n) = l := by
      rw [List.filter_eq_self]
      intro x hx
      have := hl x hx
      simp
      omega
    simp [this, hid]

/-- A throttled `forceLayout` call on a ready state: nothing is laid out, and the new
retry is the last pending timer, with the next handle. -/
theorem ready_throttled {w : EditorWorld} {editor : EditorObj} {rect : Rect} (now : Int)
    (h : Ready w editor rect) (ht : now - w.lastLayoutTimeRef < 100) :
    Ready (w.step now .forceLayout) editor rect ∧
    (w.step now .forceLayout).lastLayoutTimeRef = w.lastLayoutTimeRef ∧
    (w.step now .forceLayout).layouts = w.layouts ∧
    (w.step now .forceLayout).timers.next = w.timers.next + 1 ∧
    ∃ l, (w.step now .forceLayout).timers.pending
        = l ++ [⟨w.timers.next + 1, now + (100 - (now - w.lastLayoutTimeRef)), .retry⟩] ∧
      ∀ x ∈ l, x.id < w.timers.next + 1 := by
  have hsub : ∀ x ∈ (w.timers.clearRef w.layoutTimeoutRef).pending, x.id < w.timers.next + 1 := by
    intro x hx
    have : x ∈ w.timers.pending := by
      cases hr : w.layoutTimeoutRef with
      | none => simpa [hr, Timers.clearRef] using hx
      | some id =>
        simp only [hr, Timers.clearRef, Timers.clearTimeout, List.mem_filter] at hx
        exact hx.1
    exact Nat.lt_succ_of_le (h.fresh x this)
  have e : w.step now .forceLayout = w.forceLayout now := rfl
  rw [e, forceLayout_throttled h.mounted h.editorRef h.hasLayout h.idle ht]
  refine ⟨⟨h.mounted, h.editorRef, h.hasLayout, h.idle, h.container, h.measurable, ?_⟩,
    rfl, rfl, ?_, ⟨_, ?_, hsub⟩⟩
  · intro t htm
    simp only [Timers.setTimeout, List.mem_append, List.mem_singleton,
      Timers.clearRef_next] at htm ⊢
    rcases htm with htm | rfl
    · exact Nat.le_of_lt (hsub t htm)
    · exact le_refl _
  · simp [Timers.setTimeout, Timers.clearRef_next]
  · simp [Timers.setTimeout, Timers.clearRef_next]

/-- The try block on a ready state whose container has positive width. -/
theorem ready_layoutAttempt {w : EditorWorld} {editor : EditorObj} {rect : Rect}
    (h : Ready w editor rect) (now : Int) :
    (w.layoutAttempt editor now).1 =
      if rect.width > 0 then [⟨editor.id, now, .size ⌊rect.width⌋ 400, .forceLayout⟩]
      else [] := by
  unfold layoutAttempt
  simp only [h.container, h.measurable]
  by_cases hw : rect.width > 0 <;> simp [hw]

/-- A `forceLayout` call on a ready state at least 100 ms after `lastLayoutTimeRef`. -/
theorem ready_due {w : EditorWorld} {editor : EditorObj} {rect : Rect} (now : Int)
    (h : Ready w editor rect) (ht : 100 ≤ now - w.lastLayoutTimeRef) :
    Ready (w.step now .forceLayout) editor rect ∧
    (w.step now .forceLayout).lastLayoutTimeRef = now ∧
    (w.step now .forceLayout).layouts = w.layouts ++
      (if rect.width > 0 then [⟨editor.id, now, .size ⌊rect.width⌋ 400, .forceLayout⟩]
       else []) ∧
    (w.step now .forceLayout).timers = w.timers := by
  have e : w.step now .forceLayout = w.forceLayout now := rfl
  rw [e, forceLayout_due h.mounted h.editorRef h.hasLayout h.idle ht]
  refine ⟨⟨h.mounted, h.editorRef, h.hasLayout, rfl, h.container, h.measurable, h.fresh⟩,
    rfl, ?_, rfl⟩
  show w.layouts ++ (w.layoutAttempt editor now).1 = _
  rw [ready_layoutAttempt h]

/-- The pending retry of a ready state fires at least 100 ms after `lastLayoutTimeRef`. -/
theorem ready_fire {w : EditorWorld} {editor : EditorObj} {rect : Rect} {r : Int}
    {l : List (Timer Task)} {t : Timer Task} {n : Nat}
    (h : Ready w editor rect) (hp : w.timers.pending = l ++ [t]) (hid : t.id = n)
    (htask : t.task = .retry) (hl : ∀ x ∈ l, x.id < n)
    (ht : 100 ≤ r - w.lastLayoutTimeRef) :
    (w.step r (.fire n)).layouts = w.layouts ++
      (if rect.width > 0 then [⟨editor.id, r, .size ⌊rect.width⌋ 400, .forceLayout⟩]
       else []) := by
  have hw : w.timers = Timers.mk (l ++ [t]) w.timers.next := by
    rw [← hp]
  obtain ⟨hf, hc⟩ := find?_append_last n w.timers.next hid hl
  rw [← hw] at hf hc
  simp only [step, hf, htask, runTask]
  have hready : Ready { w with timers := w.timers.clearTimeout n } editor rect := by
    refine ⟨h.mounted, h.editorRef, h.hasLayout, h.idle, h.container, h.measurable, ?_⟩
    intro x hx
    simp only [Timers.clearTimeout, List.mem_filter] at hx
    exact h.fresh x hx.1
  exact (ready_due r hready ht).2.2.1

end EditorWorld

namespace ObserverWorld

theorem linked_init (f : Bool) : Linked (init f) := by
  simp [Linked, init, SafeResizeObserver.new]

theorem linked_step {w : ObserverWorld} (h : Linked w) (now : Int) (e : ObserverEvent) :
    Linked (step w now e) := by
  unfold Linked at h ⊢
  cases e with
  | observe element p =>
    simp only [step, SafeResizeObserver.observe]
    split
    · exact h
    · rename_i hg
      simp only [Bool.or_eq_true, not_or, Bool.not_eq_true] at hg
      split <;> simp_all
  | notify entries =>
    simp only [step, SafeResizeObserver.notify]
    split <;> exact h
  | fire id outcome =>
    simp only [step]
    cases w.timers.find? id with
    | none => exact h
    | some t =>
      simp only [runDeferred, SafeResizeObserver.deferred]
      split <;> simp_all
  | disconnect => simp [step, SafeResizeObserver.disconnect]

theorem linked_run {w : ObserverWorld} (h : Linked w) (evs : List (Int × ObserverEvent)) :
    Linked (run w evs) := by
  induction evs generalizing w with
  | nil => exact h
  | cons x rest ih => exact ih (linked_step h x.1 x.2)

theorem released_disconnect (w : ObserverWorld) (now : Int) :
    Released (step w now .disconnect) := by
  simp [Released, step, SafeResizeObserver.disconnect]

theorem released_step {w : ObserverWorld} (h : Released w) (now : Int) (e : ObserverEvent) :
    Released (step w now e) := by
  obtain ⟨h1, h2, h3, h4⟩ := h
  cases e with
  | observe element p => simp [Released, step, SafeResizeObserver.observe, h1, h2, h3, h4]
  | notify entries => simp [Released, step, SafeResizeObserver.notify, h1, h2, h3, h4]
  | fire id outcome =>
    simp only [step]
    cases w.timers.find? id with
    | none => exact ⟨h1, h2, h3, h4⟩
    | some t =>
      simp [Released, runDeferred, SafeResizeObserver.deferredCalls, h1, h2, h3, h4]
  | disconnect => simp [Released, step, SafeResizeObserver.disconnect]

theorem released_run {w : ObserverWorld} (h : Released w) (evs : List (Int × ObserverEvent)) :
    Released (run w evs) := by
  induction evs generalizing w with
  | nil => exact h
  | cons x rest ih => exact ih (released_step h x.1 x.2)

end ObserverWorld

namespace EditorWorld

theorem steady_refl (now : Int) (w : EditorWorld) : Steady now w w :=
  ⟨rfl, rfl, rfl, id, ⟨[], by simp, by simp⟩⟩

theorem steady_trans {now : Int} {a b c : EditorWorld} (h₁ : Steady now a b)
    (h₂ : Steady now b c) : Steady now a c := by
  obtain ⟨n1, e1, t1⟩ := h₁.layouts
  obtain ⟨n2, e2, t2⟩ := h₂.layouts
  refine ⟨h₂.editor.trans h₁.editor, h₂.ref.trans h₁.ref, h₂.len.trans h₁.len,
    fun h => h₂.idle (h₁.idle h), ⟨n1 ++ n2, by rw [e2, e1, List.append_assoc], ?_⟩⟩
  intro c hc
  rcases List.mem_append.1 hc with hc | hc
  · exact t1 c hc
  · exact t2 c hc

/-- A transition that keeps the five things `Steady` speaks of. -/
theorem steady_of_eq (now : Int) (w w' : EditorWorld) (h1 : w'.editorRef = w.editorRef)
    (h2 : w'.resizeObserverRef = w.resizeObserverRef)
    (h3 : w'.observers.length = w.observers.length)
    (h4 : w.isLayoutInProgressRef = false → w'.isLayoutInProgressRef = false)
    (h5 : w'.layouts = w.layouts) : Steady now w w' :=
  ⟨h1, h2, h3, h4, ⟨[], by simp [h5], by simp⟩⟩

theorem layoutAttempt_time (w : EditorWorld) (editor : EditorObj) (now : Int) :
    ∀ c ∈ (w.layoutAttempt editor now).1, c.time = now := by
  unfold layoutAttempt
  split
  · split
    · simp
    · dsimp only
      split <;> simp
  · simp

theorem steady_forceLayout (w : EditorWorld) (now : Int) : Steady now w (w.forceLayout now) := by
  unfold forceLayout
  split
  · exact steady_refl now w
  · split
    · exact steady_refl now w
    · dsimp only
      split
      · exact steady_of_eq now _ _ rfl rfl rfl id rfl
      · exact ⟨rfl, rfl, rfl, fun _ => rfl, ⟨_, rfl, layoutAttempt_time w _ now⟩⟩

theorem steady_guardedForceLayout (w : EditorWorld) (now : Int) :
    Steady now w (w.guardedForceLayout now) := by
  unfold guardedForceLayout
  split <;> [exact steady_forceLayout w now; exact steady_refl now w]

theorem steady_animationFrame (w : EditorWorld) (now : Int) :
    Steady now w (w.animationFrame now) := by
  unfold animationFrame
  split <;> [exact steady_forceLayout w now; exact steady_refl now w]

theorem steady_initialLayout (w : EditorWorld) (editor : EditorObj) (now : Int) :
    Steady now w (w.initialLayout editor now) := by
  unfold initialLayout
  split
  · split
    · split
      · exact steady_of_eq now _ _ rfl rfl rfl id rfl
      · split
        · exact ⟨rfl, rfl, rfl, id, ⟨_, rfl, by simp⟩⟩
        · exact steady_refl now w
    · exact steady_refl now w
  · exact steady_refl now w

theorem steady_handleResize (w : EditorWorld) (now : Int) :
    Steady now w (w.handleResize now) := by
  unfold handleResize
  split <;> [exact steady_of_eq now _ _ rfl rfl rfl id rfl; exact steady_refl now w]

theorem steady_disconnectObserver (now : Int) (w : EditorWorld) :
    Steady now w w.disconnectObserver := by
  unfold disconnectObserver
  split
  · exact steady_refl now w
  · split
    · exact steady_refl now w
    · exact steady_of_eq now _ _ rfl rfl (by simp) id rfl

theorem steady_onDidDispose (now : Int) (w : EditorWorld) : Steady now w w.onDidDispose := by
  unfold onDidDispose
  refine steady_trans (steady_trans (b := { w with isEditorMountedRef := false }) ?_
    (steady_disconnectObserver now _)) ?_
  · exact steady_of_eq now _ _ rfl rfl rfl id rfl
  · exact steady_of_eq now _ _ rfl rfl rfl id rfl

theorem steady_handleEditorWillUnmount (now : Int) (w : EditorWorld) :
    Steady now w w.handleEditorWillUnmount := by
  unfold handleEditorWillUnmount
  refine steady_trans (steady_trans
    (b := { w with isEditorMountedRef := false, isLayoutInProgressRef := false }) ?_
    (steady_disconnectObserver now _)) ?_
  · exact steady_of_eq now _ _ rfl rfl rfl (fun _ => rfl) rfl
  · exact steady_of_eq now _ _ rfl rfl rfl id rfl

theorem steady_cleanupEffects (now : Int) (w : EditorWorld) :
    Steady now w w.cleanupEffects := by
  unfold cleanupEffects
  refine steady_trans ?_ (steady_handleEditorWillUnmount now _)
  exact steady_of_eq now _ _ rfl rfl rfl id rfl

theorem steady_observerDeferred (w : EditorWorld) (now : Int) (obs : Nat)
    (entries : List Entry) : Steady now w (w.observerDeferred now obs entries) := by
  unfold observerDeferred
  split
  · exact steady_refl now w
  · split
    · rename_i o _ _
      exact steady_trans
        (b := { w with observers := w.observers.set obs (o.deferred now entries) })
        (steady_of_eq now _ _ rfl rfl (by simp) id rfl) (steady_handleResize _ now)
    · exact steady_refl now w

theorem steady_notifyObserver (w : EditorWorld) (now : Int) (obs : Nat)
    (entries : List Entry) : Steady now w (w.notifyObserver now obs entries) := by
  unfold notifyObserver
  split
  · exact steady_refl now w
  · exact steady_of_eq now _ _ rfl rfl (by simp) id rfl

theorem steady_runTask (w : EditorWorld) (now : Int) (task : Task) :
    Steady now w (w.runTask now task) := by
  cases task with
  | retry => exact steady_forceLayout w now
  | initialLayout editor => exact steady_initialLayout w editor now
  | propChange => exact steady_guardedForceLayout w now
  | windowResize => exact steady_guardedForceLayout w now
  | visibility => exact steady_guardedForceLayout w now
  | animationFrame => exact steady_animationFrame w now
  | observerDeferred obs entries => exact steady_observerDeferred w now obs entries

theorem steady_step (w : EditorWorld) (now : Int) (e : EditorEvent) (he : isMount e = false) :
    Steady now w (step w now e) := by
  cases e with
  | setEnv env => exact steady_of_eq now _ _ rfl rfl rfl id rfl
  | componentMount =>
    simp only [step]
    split <;> [exact steady_refl now w; exact steady_of_eq now _ _ rfl rfl rfl id rfl]
  | propsChange =>
    simp only [step]
    split <;> [exact steady_of_eq now _ _ rfl rfl rfl id rfl; exact steady_refl now w]
  | windowResize =>
    simp only [step]
    split <;> [exact steady_of_eq now _ _ rfl rfl rfl id rfl; exact steady_refl now w]
  | visibilityChange =>
    simp only [step, handleVisibilityChange]
    split <;> [split; skip] <;>
      first | exact steady_refl now w | exact steady_of_eq now _ _ rfl rfl rfl id rfl
  | componentUnmount =>
    simp only [step]
    split <;> [exact steady_cleanupEffects now w; exact steady_refl now w]
  | editorMount editor => simp [isMount] at he
  | editorWillUnmount => exact steady_handleEditorWillUnmount now w
  | editorDispose ed =>
    simp only [step]
    split <;> [exact steady_onDidDispose now w; exact steady_refl now w]
  | notify obs entries => exact steady_notifyObserver w now obs entries
  | fire tid =>
    simp only [step]
    split
    · exact steady_refl now w
    · exact steady_trans (b := { w with timers := w.timers.clearTimeout tid })
        (steady_of_eq now _ _ rfl rfl rfl id rfl) (steady_runTask _ now _)
  | forceLayout => exact steady_forceLayout w now

/-- What a mount does to the things `Steady` speaks of. -/
theorem mount_facts (w : EditorWorld) (now : Int) (editor : EditorObj) :
    (w.handleEditorDidMount now editor).editorRef = some editor ∧
    (w.handleEditorDidMount now editor).resizeObserverRef = some w.observers.length ∧
    (w.handleEditorDidMount now editor).observers.length = w.observers.length + 1 ∧
    (w.handleEditorDidMount now editor).isLayoutInProgressRef = w.isLayoutInProgressRef ∧
    (w.handleEditorDidMount now editor).layouts = w.layouts := by
  simp [handleEditorDidMount]

theorem isMount_eq_true {e : EditorEvent} (h : isMount e = true) :
    ∃ editor, e = .editorMount editor := by
  cases e <;> simp [isMount] at h
  exact ⟨_, rfl⟩

theorem refInv_init (env : Env) : RefInv (init env) := by
  simp [RefInv, init]

theorem refInv_step {w : EditorWorld} (h : RefInv w) (now : Int) (e : EditorEvent) :
    RefInv (step w now e) := by
  cases hm : isMount e with
  | false =>
    have hs := steady_step w now e hm
    intro i hi
    rw [hs.ref] at hi
    rw [hs.len]
    exact h i hi
  | true =>
    obtain ⟨editor, rfl⟩ := isMount_eq_true hm
    obtain ⟨-, h2, h3, -, -⟩ := mount_facts w now editor
    intro i hi
    show i < (w.handleEditorDidMount now editor).observers.length
    have hi' : (w.handleEditorDidMount now editor).resizeObserverRef = some i := hi
    rw [h2] at hi'
    rw [h3]
    simp only [Option.some.injEq] at hi'
    omega

theorem refInv_run {w : EditorWorld} (h : RefInv w) (evs : List (Int × EditorEvent)) :
    RefInv (run w evs) := by
  induction evs generalizing w with
  | nil => exact h
  | cons x rest ih => exact ih (refInv_step h x.1 x.2)

/-- Every step appends to the record of `editor.layout` calls, and only calls made at the
time of the step. -/
theorem step_layouts (w : EditorWorld) (now : Int) (e : EditorEvent) :
    ∃ new, (step w now e).layouts = w.layouts ++ new ∧ ∀ c ∈ new, c.time = now := by
  cases hm : isMount e with
  | false => exact (steady_step w now e hm).layouts
  | true =>
    obtain ⟨editor, rfl⟩ := isMount_eq_true hm
    exact ⟨[], by simp [step, (mount_facts w now editor).2.2.2.2], by simp⟩

/-- Between handlers no layout is in progress. -/
theorem idle_step {w : EditorWorld} (h : w.isLayoutInProgressRef = false) (now : Int)
    (e : EditorEvent) : (step w now e).isLayoutInProgressRef = false := by
  cases hm : isMount e with
  | false => exact (steady_step w now e hm).idle h
  | true =>
    obtain ⟨editor, rfl⟩ := isMount_eq_true hm
    exact (mount_facts w now editor).2.2.2.1.trans h

theorem idle_run {w : EditorWorld} (h : w.isLayoutInProgressRef = false)
    (evs : List (Int × EditorEvent)) : (run w evs).isLayoutInProgressRef = false := by
  induction evs generalizing w with
  | nil => exact h
  | cons x rest ih => exact ih (idle_step h x.1 x.2)

end EditorWorld

namespace EditorWorld

/-- Under non-decreasing time stamps the record of `editor.layout` calls stays in time
order. -/
theorem ordered_run {w : EditorWorld} {t : Int} (evs : List (Int × EditorEvent))
    (hb : ∀ c ∈ w.layouts, c.time ≤ t)
    (hp : (w.layouts.map LayoutCall.time).Pairwise (fun a b => a ≤ b))
    (h : nonDecreasing t evs = true) :
    ((run w evs).layouts.map LayoutCall.time).Pairwise (fun a b => a ≤ b) := by
  induction evs generalizing w t with
  | nil => exact hp
  | cons x rest ih =>
    obtain ⟨now, e⟩ := x
    simp only [nonDecreasing, Bool.and_eq_true, decide_eq_true_eq] at h
    obtain ⟨new, hnew, htime⟩ := step_layouts w now e
    refine ih (w := step w now e) (t := now) ?_ ?_ h.2
    · intro c hc
      rw [hnew] at hc
      rcases List.mem_append.1 hc with hc | hc
      · exact le_trans (hb c hc) h.1
      · exact le_of_eq (htime c hc)
    · rw [hnew, List.map_append, List.pairwise_append]
      refine ⟨hp, ?_, ?_⟩
      · rw [List.pairwise_map]
        apply List.pairwise_of_forall_mem_list
        intro a ha b hb'
        rw [htime a ha, htime b hb']
      · intro a ha b hb'
        obtain ⟨c, hc, rfl⟩ := List.mem_map.1 ha
        obtain ⟨d, hd, rfl⟩ := List.mem_map.1 hb'
        rw [htime d hd]
        exact le_trans (hb c hc) h.1

theorem clear_flag_eq {w : EditorWorld} (h : w.isLayoutInProgressRef = false) :
    { w with isLayoutInProgressRef := false } = w := by
  cases w
  simp_all

theorem handleEditorWillUnmount_eq (w : EditorWorld) :
    w.handleEditorWillUnmount = { w.onDidDispose with isLayoutInProgressRef := false } := by
  unfold handleEditorWillUnmount onDidDispose disconnectObserver
  dsimp only
  split <;> [rfl; (split <;> rfl)]

end EditorWorld

/-! ## Facts about the suppression tests -/

theorem includes_loop_imp (s : String) (h : includes s "ResizeObserver loop" = true) :
    includes s "ResizeObserver" = true := by
  unfold includes at *
  simp only [decide_eq_true_eq] at *
  exact List.IsInfix.trans (by decide) h

theorem matchesResizeObserver_eq (s : String) :
    matchesResizeObserver s = specSuppresses (some s) := by
  unfold matchesResizeObserver specSuppresses
  cases h3 : includes s "ResizeObserver loop"
  · simp
  · simp [includes_loop_imp s h3]

theorem matchesResizeObserver_nonempty (s : String) :
    (s != "" && matchesResizeObserver s) = matchesResizeObserver s := by
  by_cases h : s = ""
  · subst h
    decide
  · simp [h]

theorem specSuppresses_nonempty (s : String) :
    (s != "" && specSuppresses (some s)) = specSuppresses (some s) := by
  rw [← matchesResizeObserver_eq, matchesResizeObserver_nonempty]

namespace EditorWorld

/-- Cancelling the only pending retry leaves none. -/
theorem retries_clearTimeout_nil {w : EditorWorld} {t : Timer Task} (h : RetryInv w)
    (hf : w.timers.find? t.id = some t) (htask : t.task = .retry) :
    (w.timers.clearTimeout t.id).pending.filter (fun x => x.task = .retry) = [] := by
  have hmem : t ∈ w.pendingRetries := by
    unfold pendingRetries
    simp [List.mem_filter, (Timers.find?_some hf).1, htask]
  have hone := (h t hmem).1
  unfold pendingRetries at hone
  simp only [Timers.clearTimeout, List.filter_filter]
  have hswap : w.timers.pending.filter (fun a => decide (a.task = Task.retry) && (a.id != t.id))
      = (w.timers.pending.filter (fun x => x.task = .retry)).filter (fun a => a.id != t.id) := by
    rw [List.filter_filter]
    congr 1
    funext a
    exact Bool.and_comm _ _
  rw [hswap, hone]
  simp

/-- The retry a throttled `forceLayout` call schedules can be found under the next handle
and is due 100 ms after `lastLayoutTimeRef`. -/
theorem throttled_find {w : EditorWorld} {editor : EditorObj} {now : Int}
    (hf : w.FreshTimers)
    (hm : w.isEditorMountedRef = true) (he : w.editorRef = some editor)
    (hl : editor.hasLayout = true) (hp : w.isLayoutInProgressRef = false)
    (ht : now - w.lastLayoutTimeRef < 100) :
    (w.forceLayout now).timers.find? (w.timers.next + 1)
      = some ⟨w.timers.next + 1, w.lastLayoutTimeRef + 100, .retry⟩ := by
  have hsub : ∀ x ∈ (w.timers.clearRef w.layoutTimeoutRef).pending, x.id < w.timers.next + 1 := by
    intro x hx
    have : x ∈ w.timers.pending := by
      cases hr : w.layoutTimeoutRef with
      | none => simpa [hr, Timers.clearRef] using hx
      | some id =>
        simp only [hr, Timers.clearRef, Timers.clearTimeout, List.mem_filter] at hx
        exact hx.1
    exact Nat.lt_succ_of_le (hf x this)
  rw [forceLayout_throttled hm he hl hp ht]
  have hd : now + (100 - (now - w.lastLayoutTimeRef)) = w.lastLayoutTimeRef + 100 := by omega
  simp only [Timers.setTimeout, Timers.clearRef_next, hd]
  exact (find?_append_last (w.timers.next + 1) (w.timers.next + 1) rfl hsub).1

end EditorWorld

namespace EditorWorld

/-- What `Math.floor` does to a positive width. -/
theorem floor_facts (x : ℚ) (hx : 0 < x) :
    0 ≤ ⌊x⌋ ∧ (⌊x⌋ : ℚ) ≤ x ∧ x - 1 < ⌊x⌋ ∧ (0 < ⌊x⌋ ↔ 1 ≤ x) :=
  ⟨Int.floor_nonneg.2 (le_of_lt hx), Int.floor_le x, Int.sub_one_lt_floor x, Int.floor_pos⟩

/-- An explicit size passed by the try block of `forceLayout` is the floor of the positive
width of the container, and 400. -/
theorem layoutAttempt_size {w : EditorWorld} {editor : EditorObj} {now : Int}
    {c : LayoutCall} {k h : Int} (hc : c ∈ (w.layoutAttempt editor now).1)
    (harg : c.arg = .size k h) :
    ∃ rect, w.env.container = some rect ∧ 0 < rect.width ∧ k = ⌊rect.width⌋ ∧ h = 400 := by
  unfold layoutAttempt at hc
  cases hcont : w.env.container with
  | none =>
    simp only [hcont, List.mem_singleton] at hc
    subst hc
    simp at harg
  | some rect =>
    cases hmt : w.env.measureThrows with
    | some t => simp [hcont, hmt] at hc
    | none =>
      by_cases hpos : rect.width > 0
      · simp only [hcont, hmt, hpos, decide_True, Bool.and_self, if_true,
          List.mem_singleton] at hc
        simp at hc
        subst hc
        simp only [LayoutArg.size.injEq] at harg
        exact ⟨rect, rfl, hpos, harg.1.symm, harg.2.symm⟩
      · simp [hcont, hmt, hpos] at hc

/-- The `editor.layout` calls one `forceLayout` call adds are those of its try block. -/
theorem forceLayout_new (w : EditorWorld) (now : Int) :
    (w.forceLayout now).layouts.drop w.layouts.length = [] ∨
    ∃ editor, w.editorRef = some editor ∧
      (w.forceLayout now).layouts.drop w.layouts.length = (w.layoutAttempt editor now).1 := by
  rw [forceLayout_eq]
  cases he : w.editorRef with
  | none => simp
  | some editor =>
    dsimp only
    split
    · simp
    · split
      · simp
      · right
        exact ⟨editor, rfl, by simp⟩

end EditorWorld

namespace Timers

variable {τ : Type}

theorem mem_clearTimeout {ts : Timers τ} {id : Nat} {t : Timer τ}
    (h : t ∈ (ts.clearTimeout id).pending) : t ∈ ts.pending ∧ t.id ≠ id := by
  simpa [clearTimeout, List.mem_filter] using h

theorem mem_clearRef {ts : Timers τ} {ref : Option Nat} {t : Timer τ}
    (h : t ∈ (ts.clearRef ref).pending) : t ∈ ts.pending ∧ ref ≠ some t.id := by
  cases ref with
  | none => exact ⟨h, by simp⟩
  | some id =>
    have := mem_clearTimeout h
    exact ⟨this.1, fun e => this.2 (Option.some.inj e).symm⟩

theorem mem_setTimeout {ts : Timers τ} {now delay : Int} {task : τ} {t : Timer τ}
    (h : t ∈ (ts.setTimeout now delay task).pending) :
    t ∈ ts.pending ∨ t = ⟨ts.next + 1, now + delay, task⟩ := by
  simpa [setTimeout] using h

end Timers

namespace EditorWorld

theorem calm_refl (w : EditorWorld) : Calm w w :=
  ⟨rfl, fun _ h _ => h⟩

theorem calm_trans {a b c : EditorWorld} (h₁ : Calm a b) (h₂ : Calm b c) : Calm a c :=
  ⟨h₂.ref.trans h₁.ref, fun t ht hk => h₁.old t (h₂.old t ht hk) hk⟩

theorem resizeInv_of_calm {w w' : EditorWorld} (h : ResizeInv w) (hc : Calm w w') :
    ResizeInv w' := by
  intro t ht hk
  rw [hc.ref]
  exact h t (hc.old t ht hk) hk

/-- A transition whose new timers are old ones or of another kind is calm. -/
theorem calm_of_timers {w w' : EditorWorld} (hr : w'.resizeTimeout = w.resizeTimeout)
    (h : ∀ t ∈ w'.timers.pending, t ∈ w.timers.pending ∨ t.task ≠ .windowResize) :
    Calm w w' :=
  ⟨hr, fun t ht hk => (h t ht).resolve_right (fun hn => hn hk)⟩

theorem calm_clearRef_setTimeout (w w' : EditorWorld) (ref : Option Nat) (now delay : Int)
    (task : Task) (hk : task ≠ .windowResize) (hr : w'.resizeTimeout = w.resizeTimeout)
    (ht : w'.timers = (w.timers.clearRef ref).setTimeout now delay task) : Calm w w' := by
  refine calm_of_timers hr ?_
  intro t hmem
  rw [ht] at hmem
  rcases Timers.mem_setTimeout hmem with h | rfl
  · exact Or.inl (Timers.mem_clearRef h).1
  · exact Or.inr hk

theorem calm_clearRef (w w' : EditorWorld) (ref : Option Nat)
    (hr : w'.resizeTimeout = w.resizeTimeout)
    (ht : w'.timers = w.timers.clearRef ref) : Calm w w' := by
  refine calm_of_timers hr ?_
  intro t hmem
  rw [ht] at hmem
  exact Or.inl (Timers.mem_clearRef hmem).1

theorem calm_forceLayout (w : EditorWorld) (now : Int) : Calm w (w.forceLayout now) := by
  unfold forceLayout
  split
  · exact calm_refl w
  · split
    · exact calm_refl w
    · dsimp only
      split
      · exact calm_clearRef_setTimeout w _ w.layoutTimeoutRef now _ .retry (by simp) rfl rfl
      · exact ⟨rfl, fun _ h _ => h⟩

theorem calm_guardedForceLayout (w : EditorWorld) (now : Int) :
    Calm w (w.guardedForceLayout now) := by
  unfold guardedForceLayout
  split <;> [exact calm_forceLayout w now; exact calm_refl w]

theorem calm_animationFrame (w : EditorWorld) (now : Int) :
    Calm w (w.animationFrame now) := by
  unfold animationFrame
  split <;> [exact calm_forceLayout w now; exact calm_refl w]

theorem calm_initialLayout (w : EditorWorld) (editor : EditorObj) (now : Int) :
    Calm w (w.initialLayout editor now) := by
  unfold initialLayout
  split
  · split
    · split
      · exact ⟨rfl, fun _ h _ => h⟩
      · split
        · exact ⟨rfl, fun _ h _ => h⟩
        · exact calm_refl w
    · exact calm_refl w
  · exact calm_refl w

theorem calm_handleResize (w : EditorWorld) (now : Int) : Calm w (w.handleResize now) := by
  unfold handleResize
  split
  · exact calm_clearRef_setTimeout w _ none now 0 .animationFrame (by simp) rfl rfl
  · exact calm_refl w

theorem calm_disconnectObserver (w : EditorWorld) : Calm w w.disconnectObserver := by
  unfold disconnectObserver
  split
  · exact calm_refl w
  · split
    · exact calm_refl w
    · exact calm_clearRef w _ _ rfl rfl

end EditorWorld

namespace EditorWorld

theorem calm_handleEditorDidMount (w : EditorWorld) (now : Int) (editor : EditorObj) :
    Calm w (w.handleEditorDidMount now editor) :=
  calm_clearRef_setTimeout w _ none now 100 (.initialLayout editor) (by simp) rfl rfl

theorem calm_onDidDispose (w : EditorWorld) : Calm w w.onDidDispose := by
  unfold onDidDispose
  exact calm_trans
    (calm_trans (b := { w with isEditorMountedRef := false }) ⟨rfl, fun _ h _ => h⟩
      (calm_disconnectObserver _))
    (calm_clearRef _ _ _ rfl rfl)

theorem calm_handleEditorWillUnmount (w : EditorWorld) : Calm w w.handleEditorWillUnmount := by
  unfold handleEditorWillUnmount
  exact calm_trans
    (calm_trans (b := { w with isEditorMountedRef := false, isLayoutInProgressRef := false })
      ⟨rfl, fun _ h _ => h⟩ (calm_disconnectObserver _))
    (calm_clearRef _ _ _ rfl rfl)

theorem calm_propEffect (w : EditorWorld) (now : Int) : Calm w (w.propEffect now) :=
  calm_clearRef_setTimeout w _ none now 200 .propChange (by simp) rfl rfl

theorem calm_propCleanup (w : EditorWorld) : Calm w w.propCleanup :=
  calm_clearRef w _ w.propTimer rfl rfl

theorem calm_handleVisibilityChange (w : EditorWorld) (now : Int) :
    Calm w (w.handleVisibilityChange now) := by
  unfold handleVisibilityChange
  split
  · exact calm_clearRef_setTimeout w _ none now 300 .visibility (by simp) rfl rfl
  · exact calm_refl w

theorem calm_observerDeferred (w : EditorWorld) (now : Int) (obs : Nat)
    (entries : List Entry) : Calm w (w.observerDeferred now obs entries) := by
  unfold observerDeferred
  split
  · exact calm_refl w
  · split
    · refine calm_trans ?_ (calm_handleResize _ now)
      exact ⟨rfl, fun _ h _ => h⟩
    · exact calm_refl w

theorem calm_notifyObserver (w : EditorWorld) (now : Int) (obs : Nat)
    (entries : List Entry) : Calm w (w.notifyObserver now obs entries) := by
  unfold notifyObserver
  split
  · exact calm_refl w
  · rename_i o _
    unfold SafeResizeObserver.notify
    split
    · exact ⟨rfl, fun _ h _ => h⟩
    · exact calm_clearRef_setTimeout w _ o.timeoutId now _ (.observerDeferred obs entries)
        (by simp) rfl rfl

theorem calm_runTask (w : EditorWorld) (now : Int) (task : Task) :
    Calm w (w.runTask now task) := by
  cases task with
  | retry => exact calm_forceLayout w now
  | initialLayout editor => exact calm_initialLayout w editor now
  | propChange => exact calm_guardedForceLayout w now
  | windowResize => exact calm_guardedForceLayout w now
  | visibility => exact calm_guardedForceLayout w now
  | animationFrame => exact calm_animationFrame w now
  | observerDeferred obs entries => exact calm_observerDeferred w now obs entries

theorem resizeInv_init (env : Env) : ResizeInv (init env) := by
  intro t ht
  simp [init, Timers.empty] at ht

/-- After `handleWindowResize` the only pending window-resize timer is the new one. -/
theorem handleWindowResize_pending {w : EditorWorld} (h : ResizeInv w) (now : Int) :
    (w.handleWindowResize now).timers.pending.filter (fun t => t.task = .windowResize)
      = [⟨w.timers.next + 1, now + 150, .windowResize⟩] ∧
    ResizeInv (w.handleWindowResize now) := by
  have hnone : (w.timers.clearRef w.resizeTimeout).pending.filter
      (fun t => t.task = .windowResize) = [] := by
    rw [List.filter_eq_nil_iff]
    intro t ht
    have hm := Timers.mem_clearRef ht
    intro hk
    exact hm.2 (h t hm.1 (by simpa using hk))
  constructor
  · simp only [handleWindowResize, Timers.setTimeout, List.filter_append, hnone,
      Timers.clearRef_next]
    simp
  · intro t ht hk
    simp only [handleWindowResize, Timers.setTimeout, List.mem_append,
      List.mem_singleton, Timers.clearRef_next] at ht
    rcases ht with ht | rfl
    · have hm := Timers.mem_clearRef ht
      exact absurd (h t hm.1 hk) hm.2
    · simp [handleWindowResize, Timers.fresh, Timers.clearRef_next]

theorem resizeInv_cleanupEffects {w : EditorWorld} (h : ResizeInv w) :
    ResizeInv w.cleanupEffects := by
  unfold cleanupEffects
  dsimp only
  refine resizeInv_of_calm ?_ (calm_handleEditorWillUnmount _)
  have h1 : ResizeInv w.propCleanup := resizeInv_of_calm h (calm_propCleanup w)
  intro t ht hk
  have hm := @Timers.mem_clearRef _ w.propCleanup.timers w.propCleanup.resizeTimeout t ht
  exact absurd (h1 t hm.1 hk) hm.2

theorem resizeInv_step {w : EditorWorld} (h : ResizeInv w) (now : Int) (e : EditorEvent) :
    ResizeInv (step w now e) := by
  cases e with
  | setEnv env => exact resizeInv_of_calm h ⟨rfl, fun _ h _ => h⟩
  | componentMount =>
    simp only [step]
    split
    · exact h
    · exact resizeInv_of_calm h
        (calm_trans (b := { w with effectsActive := true }) ⟨rfl, fun _ h _ => h⟩
          (calm_propEffect _ now))
  | propsChange =>
    simp only [step]
    split
    · exact resizeInv_of_calm h (calm_trans (calm_propCleanup w) (calm_propEffect _ now))
    · exact h
  | windowResize =>
    simp only [step]
    split
    · exact (handleWindowResize_pending h now).2
    · exact h
  | visibilityChange =>
    simp only [step]
    split
    · exact resizeInv_of_calm h (calm_handleVisibilityChange w now)
    · exact h
  | componentUnmount =>
    simp only [step]
    split
    · exact resizeInv_cleanupEffects h
    · exact h
  | editorMount editor => exact resizeInv_of_calm h (calm_handleEditorDidMount w now editor)
  | editorWillUnmount => exact resizeInv_of_calm h (calm_handleEditorWillUnmount w)
  | editorDispose ed =>
    simp only [step]
    split <;> [exact resizeInv_of_calm h (calm_onDidDispose w); exact h]
  | notify obs entries => exact resizeInv_of_calm h (calm_notifyObserver w now obs entries)
  | fire tid =>
    simp only [step]
    split
    · exact h
    · exact resizeInv_of_calm h
        (calm_trans (b := { w with timers := w.timers.clearTimeout tid })
          (calm_clearRef w _ (some tid) rfl rfl) (calm_runTask _ now _))
  | forceLayout => exact resizeInv_of_calm h (calm_forceLayout w now)

theorem resizeInv_run {w : EditorWorld} (h : ResizeInv w) (evs : List (Int × EditorEvent)) :
    ResizeInv (run w evs) := by
  induction evs generalizing w with
  | nil => exact h
  | cons x rest ih => exact ih (resizeInv_step h x.1 x.2)

end EditorWorld

namespace EditorWorld

/-- Every visibility event of a burst adds one timer, due 300 ms later, and cancels none. -/
theorem visibility_burst {w : EditorWorld} (ha : w.effectsActive = true)
    (hv : w.env.hidden = false) (hp : w.isLayoutInProgressRef = false) (times : List Int) :
    (w.run (burst .visibilityChange times)).pendingDues .visibility
      = w.pendingDues .visibility ++ times.map (· + 300) ∧
    (w.run (burst .visibilityChange times)).timers.pending.length
      = w.timers.pending.length + times.length := by
  induction times generalizing w with
  | nil => simp [burst, run]
  | cons t rest ih =>
    have e : w.run (burst .visibilityChange (t :: rest))
        = (EditorWorld.mk w.editorRef w.resizeObserverRef w.isEditorMountedRef
            w.layoutTimeoutRef w.lastLayoutTimeRef w.isLayoutInProgressRef w.propTimer
            w.resizeTimeout w.effectsActive w.disposeListeners w.observers
            (w.timers.setTimeout t 300 .visibility) w.env w.layouts w.escaped).run
          (burst .visibilityChange rest) := by
      simp [burst, run, step, handleVisibilityChange, ha, hv, hp]
    rw [e]
    obtain ⟨h1, h2⟩ := ih (w := EditorWorld.mk w.editorRef w.resizeObserverRef
      w.isEditorMountedRef w.layoutTimeoutRef w.lastLayoutTimeRef w.isLayoutInProgressRef
      w.propTimer w.resizeTimeout w.effectsActive w.disposeListeners w.observers
      (w.timers.setTimeout t 300 .visibility) w.env w.layouts w.escaped) ha hv hp
    rw [h1, h2]
    constructor
    · simp [pendingDues, Timers.setTimeout, List.filter_append]
    · simp [Timers.setTimeout]
      omega

/-- After a burst of window-resize events exactly one window-resize timer is pending, due
150 ms after the last event. -/
theorem resize_burst {w : EditorWorld} (ha : w.effectsActive = true) (h : ResizeInv w)
    (t : Int) (rest : List Int) (last : Int) (hlast : (t :: rest).getLast? = some last) :
    (w.run (burst .windowResize (t :: rest))).pendingDues .windowResize = [last + 150] := by
  have e : w.run (burst .windowResize (t :: rest))
      = (w.handleWindowResize t).run (burst .windowResize rest) := by
    simp [burst, run, step, ha]
  have hpend := handleWindowResize_pending h t
  induction rest generalizing w t with
  | nil =>
    have : last = t := by simpa using hlast.symm
    subst this
    rw [e]
    simp [burst, run, pendingDues, hpend.1]
  | cons t2 r ih =>
    rw [e]
    have hl : (t2 :: r).getLast? = some last := by
      simpa [List.getLast?_cons_cons] using hlast
    have e2 : (w.handleWindowResize t).run (burst .windowResize (t2 :: r))
        = ((w.handleWindowResize t).handleWindowResize t2).run (burst .windowResize r) := by
      simp [burst, run, step, handleWindowResize, ha]
    exact ih (w := w.handleWindowResize t) (by simpa [handleWindowResize] using ha) hpend.2
      t2 hl e2 (handleWindowResize_pending hpend.2 t2)

end EditorWorld

namespace EditorWorld

/-- The dispose event of an editor with a registered listener runs the listener; the
dispose event of any other editor changes nothing. -/
theorem step_editorDispose (w : EditorWorld) (now : Int) (editor : Nat) :
    (editor ∈ w.disposeListeners → w.step now (.editorDispose editor) = w.onDidDispose) ∧
    (editor ∉ w.disposeListeners → w.step now (.editorDispose editor) = w) := by
  constructor <;> intro h <;> simp [step, h]

/-- The dispose listener leaves no retry pending. -/
theorem onDidDispose_retries {w : EditorWorld} (hi : Inv w) :
    w.onDidDispose.pendingRetries = [] := by
  have h0 : Inv { w with isEditorMountedRef := false } :=
    inv_of_quiet (quiet_of_eq w _ rfl rfl rfl rfl) hi
  have h1 := inv_of_quiet (quiet_disconnectObserver _) h0
  exact retries_clearRef_nil h1.retry

/-- The observers the two teardown bodies leave do not depend on the timer table or on
the flags. -/
theorem cleanupEffects_observers (w : EditorWorld) :
    w.cleanupEffects.observers = w.onDidDispose.observers ∧
    w.cleanupEffects.layoutTimeoutRef = w.onDidDispose.layoutTimeoutRef := by
  unfold cleanupEffects handleEditorWillUnmount onDidDispose disconnectObserver propCleanup
  dsimp only
  cases w.resizeObserverRef with
  | none => exact ⟨rfl, rfl⟩
  | some i =>
    dsimp only
    cases w.observers[i]? with
    | none => exact ⟨rfl, rfl⟩
    | some o => exact ⟨rfl, rfl⟩

end EditorWorld

namespace ObserverWorld

theorem noEarlyFire_append (w : ObserverWorld) (xs ys : List (Int × ObserverEvent)) :
    noEarlyFire w (xs ++ ys) = (noEarlyFire w xs && noEarlyFire (run w xs) ys) := by
  induction xs generalizing w with
  | nil => simp [noEarlyFire, run]
  | cons x rest ih =>
    rw [List.cons_append, noEarlyFire_cons, ih, noEarlyFire_cons w x rest, Bool.and_assoc]
    rfl

/-- An event of a burst that happens less than 50 ms after the last call runs no callback:
a notification only schedules, and every pending timer is due later. -/
theorem burst_step {w : ObserverWorld} (h : Spaced w) (hl : w.obj.isDestroyed = false)
    (now : Int) (e : ObserverEvent) (hb : isBurstEvent e = true)
    (hwin : now < w.obj.lastCallTime + 50) (ht : noEarlyFire w [(now, e)] = true) :
    (step w now e).calls = w.calls ∧
    (step w now e).obj.lastCallTime = w.obj.lastCallTime ∧
    (step w now e).obj.isDestroyed = false := by
  cases e with
  | observe element p => simp [isBurstEvent] at hb
  | disconnect => simp [isBurstEvent] at hb
  | notify entries => simp [step, SafeResizeObserver.notify, hl]
  | fire id outcome =>
    simp only [step]
    cases hf : w.timers.find? id with
    | none => exact ⟨rfl, rfl, hl⟩
    | some t =>
      obtain ⟨hmem, hid⟩ := Timers.find?_some hf
      have hdue : t.due ≤ now := by
        simp only [noEarlyFire, List.all_eq_true, Bool.and_true] at ht
        simpa [hid] using ht t hmem
      have := h.due t hmem
      omega

theorem burst_run {w : ObserverWorld} (hs : Single w) (h : Spaced w)
    (hl : w.obj.isDestroyed = false) (evs : List (Int × ObserverEvent))
    (hb : evs.all (fun x => isBurstEvent x.2) = true)
    (hwin : allBefore (w.obj.lastCallTime + 50) evs = true)
    (ht : noEarlyFire w evs = true) :
    (run w evs).calls = w.calls ∧
    (run w evs).obj.lastCallTime = w.obj.lastCallTime ∧
    (run w evs).obj.isDestroyed = false := by
  induction evs generalizing w with
  | nil => exact ⟨rfl, rfl, hl⟩
  | cons x rest ih =>
    rw [noEarlyFire_cons, Bool.and_eq_true] at ht
    simp only [List.all_cons, Bool.and_eq_true] at hb
    simp only [allBefore, List.all_cons, Bool.and_eq_true, decide_eq_true_eq] at hwin
    obtain ⟨k1, k2, k3⟩ := burst_step h hl x.1 x.2 hb.1 hwin.1 ht.1
    have hwin2 : allBefore ((step w x.1 x.2).obj.lastCallTime + 50) rest = true := by
      rw [k2]
      exact hwin.2
    obtain ⟨j1, j2, j3⟩ := ih (single_step hs x.1 x.2) (spaced_step hs h x.1 x.2 ht.1) k3
      hb.2 hwin2 ht.2
    exact ⟨j1.trans k1, j2.trans k2, j3⟩

end ObserverWorld

/-! ## Claims about SafeResizeObserver -/

/-- C2: starting from a fresh `SafeResizeObserver`, along every sequence of observe,
raw-notification, timer-fire and disconnect events in which no timer fires before it is
due, `minInterval` stays 50 and any two invocations of the user callback, consecutive
ones in particular, are at least 50 ms apart.  (The clock need not even be monotone.) -/
theorem C2_callbacks_minInterval_apart (f : Bool) (evs : List (Int × ObserverEvent))
    (h : (ObserverWorld.init f).noEarlyFire evs = true) :
    ((ObserverWorld.init f).run evs).obj.minInterval = 50 ∧
    List.Chain' (fun a b => a + 50 ≤ b)
      (((ObserverWorld.init f).run evs).calls.map Prod.fst) ∧
    ((ObserverWorld.init f).run evs).calls.Pairwise (fun a b => a.1 + 50 ≤ b.1) := by
  have hsp := ObserverWorld.spaced_run (ObserverWorld.single_init f)
    (ObserverWorld.spaced_init f) evs h
  refine ⟨hsp.interval, ?_, hsp.spaced⟩
  apply List.Pairwise.chain'
  rw [List.pairwise_map]
  exact hsp.spaced

theorem C2_callbacks_minInterval_apart_witness :
    (ObserverWorld.init true).noEarlyFire
      [(0, .observe (some 7) .ok), (1000, .notify [1]), (1000, .fire 1 none),
       (1010, .notify [2]), (1020, .notify [3]), (1050, .fire 3 none)] = true ∧
    ((ObserverWorld.init true).run
      [(0, .observe (some 7) .ok), (1000, .notify [1]), (1000, .fire 1 none),
       (1010, .notify [2]), (1020, .notify [3]), (1050, .fire 3 none)]).obj.minInterval = 50 ∧
    List.Chain' (fun a b => a + 50 ≤ b)
      (((ObserverWorld.init true).run
        [(0, .observe (some 7) .ok), (1000, .notify [1]), (1000, .fire 1 none),
         (1010, .notify [2]), (1020, .notify [3]), (1050, .fire 3 none)]).calls.map Prod.fst) ∧
    ((ObserverWorld.init true).run
      [(0, .observe (some 7) .ok), (1000, .notify [1]), (1000, .fire 1 none),
       (1010, .notify [2]), (1020, .notify [3]), (1050, .fire 3 none)]).calls.Pairwise
        (fun a b => a.1 + 50 ≤ b.1) :=
  ⟨by decide, C2_callbacks_minInterval_apart true _ (by decide)⟩

/-- C3: after `disconnect()`, whatever the state it was called in and whatever events
follow (raw notifications, timer firings, further `observe` or `disconnect` calls), the
user callback is not executed and no exception leaves a handler; and the deferred closure
itself, run in any state reached after the disconnect with any entries, calls nothing and
raises nothing. -/
theorem C3_no_callback_after_disconnect (w : ObserverWorld) (t : Int)
    (evs : List (Int × ObserverEvent)) :
    ((w.step t .disconnect).run evs).calls = w.calls ∧
    ((w.step t .disconnect).run evs).escaped = w.escaped ∧
    ∀ (now : Int) (entries : List Entry) (outcome : Option Thrown),
      ((w.step t .disconnect).run evs).obj.deferredCalls entries = false ∧
      (((w.step t .disconnect).run evs).runDeferred now entries outcome).calls = w.calls ∧
      (((w.step t .disconnect).run evs).runDeferred now entries outcome).escaped
        = w.escaped := by
  have hd : (w.step t .disconnect).obj.isDestroyed = true := by
    simp [ObserverWorld.step, SafeResizeObserver.disconnect]
  have hc : (w.step t .disconnect).calls = w.calls := by
    simp [ObserverWorld.step]
  have he : (w.step t .disconnect).escaped = w.escaped := by
    simp [ObserverWorld.step]
  obtain ⟨k1, k2, k3⟩ := ObserverWorld.destroyed_run hd evs
  refine ⟨k2.trans hc, k3.trans he, ?_⟩
  intro now entries outcome
  have hg : ((w.step t .disconnect).run evs).obj.deferredCalls entries = false := by
    simp [SafeResizeObserver.deferredCalls, k1]
  refine ⟨hg, ?_, ?_⟩
  · simp only [ObserverWorld.runDeferred, hg, Bool.false_eq_true, if_false]
    exact k2.trans hc
  · simp only [ObserverWorld.runDeferred, hg, Bool.false_eq_true, if_false]
    exact k3.trans he

/-- C6: in every state a fresh `SafeResizeObserver` reaches, at most one deferred
invocation is pending; and a raw notification delivered to a live instance in such a
state leaves exactly one pending invocation, the one it has just scheduled (with the
notification's entries, due `max(0, minInterval - timeSinceLastCall)` ms later), the
earlier one having been cancelled. -/
theorem C6_single_pending_invocation (f : Bool) (evs : List (Int × ObserverEvent)) :
    ((ObserverWorld.init f).run evs).timers.pending.length ≤ 1 ∧
    ∀ (now : Int) (entries : List Entry),
      ((ObserverWorld.init f).run evs).obj.isDestroyed = false →
      (((ObserverWorld.init f).run evs).step now (.notify entries)).timers.pending =
        [⟨((ObserverWorld.init f).run evs).timers.next + 1,
          now + max 0 (((ObserverWorld.init f).run evs).obj.minInterval
            - (now - ((ObserverWorld.init f).run evs).obj.lastCallTime)),
          entries⟩] := by
  have hs := ObserverWorld.single_run (ObserverWorld.single_init f) evs
  constructor
  · cases hp : ((ObserverWorld.init f).run evs).timers.pending with
    | nil => simp
    | cons t l =>
      have := (hs t (by simp [hp])).1
      rw [hp] at this
      simp [this]
  · intro now entries hl
    have hnil := Timers.clearRef_pending_nil _ _ hs
    simp [ObserverWorld.step, SafeResizeObserver.notify, hl, Timers.setTimeout, hnil,
      Timers.clearRef_next]

/-- C7, as stated, fails: two raw notifications 10 ms apart, the first one arriving when
`minInterval` has long elapsed.  The first is scheduled with delay 0 and fires (here 2 ms
later) before the second arrives, so the callback runs twice for the burst, the first
time with the entries of the first notification. -/
theorem C7_counterexample :
    (ObserverWorld.init true).noEarlyFire
      [(1000, .notify [1]), (1002, .fire 1 none), (1010, .notify [2]), (1052, .fire 2 none)]
        = true ∧
    ((ObserverWorld.init true).run
      [(1000, .notify [1]), (1002, .fire 1 none), (1010, .notify [2]), (1052, .fire 2 none)]).calls
        = [(1002, [1]), (1052, [2])] := by
  decide

/-- C7, amended: take a live `SafeResizeObserver` in a state reached from its constructor
with no timer firing before it is due, and a burst of one or more raw notifications, the
last one carrying `es`, that all arrive less than `minInterval` (50 ms) after the last
callback (`lastCallTime`), with timers firing at any time they are due.  Then no callback
runs during the burst; after it exactly one deferred invocation is pending, due 50 ms
after the last callback and carrying the entries of the last notification; and when it
fires the callback runs at most once, with those entries, and nothing stays pending. -/
theorem C7_burst_within_minInterval (f : Bool) (pre evs : List (Int × ObserverEvent))
    (t : Int) (es : List Entry)
    (hpre : (ObserverWorld.init f).noEarlyFire pre = true)
    (hl : ((ObserverWorld.init f).run pre).obj.isDestroyed = false)
    (hb : evs.all (fun x => ObserverWorld.isBurstEvent x.2) = true)
    (hwin : ObserverWorld.allBefore (((ObserverWorld.init f).run pre).obj.lastCallTime + 50)
      (evs ++ [(t, .notify es)]) = true)
    (ht : ((ObserverWorld.init f).run pre).noEarlyFire (evs ++ [(t, .notify es)]) = true) :
    (((ObserverWorld.init f).run pre).run (evs ++ [(t, .notify es)])).calls
      = ((ObserverWorld.init f).run pre).calls ∧
    (((ObserverWorld.init f).run pre).run (evs ++ [(t, .notify es)])).timers.pending
      = [⟨(((ObserverWorld.init f).run pre).run (evs ++ [(t, .notify es)])).timers.next,
          ((ObserverWorld.init f).run pre).obj.lastCallTime + 50, es⟩] ∧
    ∀ (now : Int) (outcome : Option Thrown),
      ((((ObserverWorld.init f).run pre).run (evs ++ [(t, .notify es)])).step now
        (.fire (((ObserverWorld.init f).run pre).run
          (evs ++ [(t, .notify es)])).timers.next outcome)).calls
        = ((ObserverWorld.init f).run pre).calls ++
            (if !es.isEmpty && f then [(now, es)] else []) ∧
      ((((ObserverWorld.init f).run pre).run (evs ++ [(t, .notify es)])).step now
        (.fire (((ObserverWorld.init f).run pre).run
          (evs ++ [(t, .notify es)])).timers.next outcome)).timers.pending = [] := by
  have hs0 := ObserverWorld.single_run (ObserverWorld.single_init f) pre
  have hp0 := ObserverWorld.spaced_run (ObserverWorld.single_init f)
    (ObserverWorld.spaced_init f) pre hpre
  have hf0 : ((ObserverWorld.init f).run pre).obj.callbackIsFunction = f :=
    ObserverWorld.callbackIsFunction_run _ pre
  generalize (ObserverWorld.init f).run pre = w0 at hl hs0 hp0 hf0 hwin ht ⊢
  rw [ObserverWorld.noEarlyFire_append, Bool.and_eq_true] at ht
  simp only [ObserverWorld.allBefore, List.all_append, Bool.and_eq_true, List.all_cons,
    List.all_nil, Bool.and_true, decide_eq_true_eq] at hwin
  obtain ⟨k1, k2, k3⟩ := ObserverWorld.burst_run hs0 hp0 hl evs hb hwin.1 ht.1
  have hs1 := ObserverWorld.single_run hs0 evs
  have hp1 := ObserverWorld.spaced_run hs0 hp0 evs ht.1
  have hf1 : (w0.run evs).obj.callbackIsFunction = f :=
    (ObserverWorld.callbackIsFunction_run _ evs).trans hf0
  rw [ObserverWorld.run_append]
  generalize w0.run evs = w1 at k1 k2 k3 hs1 hp1 hf1 ⊢
  have hnil := Timers.clearRef_pending_nil _ _ hs1
  have hint := hp1.interval
  have hdelay : max 0 (w1.obj.minInterval - (t - w1.obj.lastCallTime))
      = 50 - (t - w1.obj.lastCallTime) := by
    rw [hint]
    apply max_eq_right
    omega
  have hdue : t + (50 - (t - w1.obj.lastCallTime)) = w0.obj.lastCallTime + 50 := by
    rw [k2]
    omega
  simp only [ObserverWorld.run]
  refine ⟨by simp [ObserverWorld.step, k1], ?_, ?_⟩
  · simp [ObserverWorld.step, SafeResizeObserver.notify, k3, Timers.setTimeout, hnil,
      Timers.clearRef_next, hdelay, hdue]
  · intro now outcome
    simp [ObserverWorld.step, SafeResizeObserver.notify, k3, Timers.setTimeout, hnil,
      Timers.clearRef_next, Timers.find?, Timers.clearTimeout, ObserverWorld.runDeferred,
      SafeResizeObserver.deferredCalls, hf1, k1]
    split <;> simp_all

theorem C7_burst_within_minInterval_witness :
    (((ObserverWorld.init true).run
        [(0, .observe (some 7) .ok), (1000, .notify [1]), (1000, .fire 1 none)]).run
      ([(1010, .notify [2]), (1020, .fire 1 none), (1030, .notify [3])]
        ++ [(1040, .notify [4])])).calls = [(1000, [1])] ∧
    (((ObserverWorld.init true).run
        [(0, .observe (some 7) .ok), (1000, .notify [1]), (1000, .fire 1 none)]).run
      ([(1010, .notify [2]), (1020, .fire 1 none), (1030, .notify [3])]
        ++ [(1040, .notify [4])])).timers.pending = [⟨4, 1050, [4]⟩] :=
  ⟨(C7_burst_within_minInterval true
      [(0, .observe (some 7) .ok), (1000, .notify [1]), (1000, .fire 1 none)]
      [(1010, .notify [2]), (1020, .fire 1 none), (1030, .notify [3])] 1040 [4]
      (by decide) (by decide) (by decide) (by decide) (by decide)).1,
   (C7_burst_within_minInterval true
      [(0, .observe (some 7) .ok), (1000, .notify [1]), (1000, .fire 1 none)]
      [(1010, .notify [2]), (1020, .fire 1 none), (1030, .notify [3])] 1040 [4]
      (by decide) (by decide) (by decide) (by decide) (by decide)).2.1⟩

/-- C13, as stated, fails: a raw notification that arrives long after the last call
(`timeSinceLastCall` is 1000, `minInterval` is 50) runs no callback while it is handled and
does not touch `lastCallTime`; it schedules a deferred invocation with delay 0. -/
theorem C13_counterexample :
    ((ObserverWorld.init true).step 1000 (.notify [1])).calls = [] ∧
    ((ObserverWorld.init true).step 1000 (.notify [1])).obj.lastCallTime = 0 ∧
    ((ObserverWorld.init true).step 1000 (.notify [1])).timers.pending = [⟨1, 1000, [1]⟩] := by
  decide

/-- C13, amended: a raw notification delivered to a live `SafeResizeObserver` (in any
state reached from the constructor) never runs the callback while it is handled and leaves
`lastCallTime` as it was; it leaves exactly one deferred invocation pending, with delay 0
when `timeSinceLastCall >= minInterval` and with delay `minInterval - timeSinceLastCall`
otherwise. -/
theorem C13_notification_always_defers (f : Bool) (evs : List (Int × ObserverEvent))
    (now : Int) (entries : List Entry)
    (hl : ((ObserverWorld.init f).run evs).obj.isDestroyed = false) :
    (((ObserverWorld.init f).run evs).step now (.notify entries)).calls
      = ((ObserverWorld.init f).run evs).calls ∧
    (((ObserverWorld.init f).run evs).step now (.notify entries)).obj.lastCallTime
      = ((ObserverWorld.init f).run evs).obj.lastCallTime ∧
    (((ObserverWorld.init f).run evs).step now (.notify entries)).timers.pending =
      [⟨((ObserverWorld.init f).run evs).timers.next + 1,
        now + (if ((ObserverWorld.init f).run evs).obj.minInterval
                  ≤ now - ((ObserverWorld.init f).run evs).obj.lastCallTime then 0
               else ((ObserverWorld.init f).run evs).obj.minInterval
                  - (now - ((ObserverWorld.init f).run evs).obj.lastCallTime)),
        entries⟩] := by
  have hs := ObserverWorld.single_run (ObserverWorld.single_init f) evs
  generalize (ObserverWorld.init f).run evs = w at hl hs ⊢
  have hnil := Timers.clearRef_pending_nil _ _ hs
  refine ⟨by simp [ObserverWorld.step], by simp [ObserverWorld.step,
    SafeResizeObserver.notify, hl], ?_⟩
  simp only [ObserverWorld.step, SafeResizeObserver.notify, hl, Bool.false_eq_true, if_false,
    Timers.setTimeout, hnil, Timers.clearRef_next, List.nil_append, id]
  congr 2
  split
  · rw [max_eq_left (by omega)]
  · rw [max_eq_right (by omega)]

theorem C13_notification_always_defers_witness :
    (((ObserverWorld.init true).run [(0, .observe (some 7) .ok)]).step 1000
      (.notify [1])).calls = ((ObserverWorld.init true).run [(0, .observe (some 7) .ok)]).calls :=
  (C13_notification_always_defers true [(0, .observe (some 7) .ok)] 1000 [1] (by decide)).1

/-- C14 at its failing input: the callback of a live observer throws `null` when the
deferred invocation fires.  The catch block reads `error.message` of `null`, which raises
a `TypeError` that leaves the timer callback. -/
theorem C14_null_throw_escapes :
    ((ObserverWorld.init true).run
      [(0, .observe (some 7) .ok), (1000, .notify [1]), (1000, .fire 1 (some .nullish))]).calls
        = [(1000, [1])] ∧
    ((ObserverWorld.init true).run
      [(0, .observe (some 7) .ok), (1000, .notify [1]), (1000, .fire 1 (some .nullish))]).escaped
        = [typeError] := by
  decide

/-- C18: `disconnect()`, called in any state (also one in which `observe` was never
called), raises nothing and leaves `isDestroyed` set, `isObserving` clear, `timeoutId` and
`observer` null; a second call changes nothing more; and in every state reached from the
constructor no timer is pending after it. -/
theorem C18_disconnect_idempotent (w : ObserverWorld) (t t' : Int) :
    ((w.step t .disconnect).obj.isDestroyed = true ∧
      (w.step t .disconnect).obj.isObserving = false ∧
      (w.step t .disconnect).obj.timeoutId = none ∧
      (w.step t .disconnect).obj.observer = none ∧
      (w.step t .disconnect).escaped = w.escaped) ∧
    (w.step t .disconnect).step t' .disconnect = w.step t .disconnect ∧
    (∀ (f : Bool) (evs : List (Int × ObserverEvent)),
      (((ObserverWorld.init f).run evs).step t .disconnect).timers.pending = []) := by
  refine ⟨by simp [ObserverWorld.step, SafeResizeObserver.disconnect], ?_, ?_⟩
  · simp [ObserverWorld.step, SafeResizeObserver.disconnect, Timers.clearRef]
  · intro f evs
    have hs := ObserverWorld.single_run (ObserverWorld.single_init f) evs
    have hnil := Timers.clearRef_pending_nil _ _ hs
    simp [ObserverWorld.step, SafeResizeObserver.disconnect, hnil]

/-- C19: in every state reached from the constructor (through `observe`, `disconnect`, and
also raw notifications and timer firings), `isActive()` is true exactly when the instance
is observing and not destroyed; `isActive` is a function of the fields alone, so a call
changes no state. -/
theorem C19_isActive_iff (f : Bool) (evs : List (Int × ObserverEvent)) :
    ((ObserverWorld.init f).run evs).obj.isActive
      = (((ObserverWorld.init f).run evs).obj.isObserving
          && !((ObserverWorld.init f).run evs).obj.isDestroyed) := by
  have h := ObserverWorld.linked_run (ObserverWorld.linked_init f) evs
  unfold ObserverWorld.Linked at h
  generalize (ObserverWorld.init f).run evs = w at h ⊢
  unfold SafeResizeObserver.isActive
  cases ho : w.obj.isObserving
  · simp
  · simp [(h ho).1]

/-- C20: `observe(element)` called on an instance that is observing or destroyed, or with
a null element, returns at once: no field changes (so nothing is registered) and nothing
is raised.  And after `disconnect()`, whatever events follow, the instance is never
observing again and holds no platform observer. -/
theorem C20_observe_noop (o : SafeResizeObserver) (element : Option Nat) (p : PlatformOutcome)
    (h : o.isObserving = true ∨ o.isDestroyed = true ∨ element = none)
    (w : ObserverWorld) (t : Int) (evs : List (Int × ObserverEvent)) :
    o.observe element p = (o, none) ∧
    ((w.step t .disconnect).run evs).obj.isDestroyed = true ∧
    ((w.step t .disconnect).run evs).obj.isObserving = false ∧
    ((w.step t .disconnect).run evs).obj.observer = none := by
  constructor
  · unfold SafeResizeObserver.observe
    rcases h with h | h | h <;> simp [h]
  · obtain ⟨h1, h2, h3, -⟩ :=
      ObserverWorld.released_run (ObserverWorld.released_disconnect w t) evs
    exact ⟨h1, h2, h3⟩

theorem C20_observe_noop_witness :
    ((SafeResizeObserver.new true).observe (some 7) .ok).1.observe (some 8) .ok
      = (((SafeResizeObserver.new true).observe (some 7) .ok).1, none) ∧
    (((ObserverWorld.init true).step 10 .disconnect).run
      [(20, .observe (some 7) .ok), (30, .notify [1])]).obj.isObserving = false :=
  ⟨(C20_observe_noop ((SafeResizeObserver.new true).observe (some 7) .ok).1 (some 8) .ok
      (Or.inl (by decide)) (ObserverWorld.init true) 10 []).1,
   (C20_observe_noop (SafeResizeObserver.new true) none .ok (Or.inr (Or.inr rfl))
      (ObserverWorld.init true) 10 [(20, .observe (some 7) .ok), (30, .notify [1])]).2.2.1⟩

/-- C25: every state a `SafeResizeObserver` reaches from its constructor through observe,
raw-notification, timer-fire and disconnect events satisfies: if `isObserving` is true
then the platform observer is not null and `isDestroyed` is false; and if `isDestroyed` is
true in such a state it is still true after any further events. -/
theorem C25_observing_is_live_destroyed_stays (f : Bool)
    (evs more : List (Int × ObserverEvent)) :
    (((ObserverWorld.init f).run evs).obj.isObserving = true →
      ((ObserverWorld.init f).run evs).obj.observer.isSome = true ∧
      ((ObserverWorld.init f).run evs).obj.isDestroyed = false) ∧
    (((ObserverWorld.init f).run evs).obj.isDestroyed = true →
      (((ObserverWorld.init f).run evs).run more).obj.isDestroyed = true) :=
  ⟨ObserverWorld.linked_run (ObserverWorld.linked_init f) evs,
    fun hd => (ObserverWorld.destroyed_run hd more).1⟩

theorem C25_observing_is_live_destroyed_stays_witness :
    (((ObserverWorld.init true).run [(0, .observe (some 7) .ok), (10, .disconnect)]).run
      [(20, .observe (some 7) .ok), (30, .notify [1])]).obj.isDestroyed = true :=
  (C25_observing_is_live_destroyed_stays true [(0, .observe (some 7) .ok), (10, .disconnect)]
    [(20, .observe (some 7) .ok), (30, .notify [1])]).2 (by decide)

/-! ## Claims about the layout scheduler -/

/-- C1: from the initial state of the component, after every sequence of events (direct
`forceLayout` calls, the retry, prop-change, window-resize, visibility and animation-frame
timers, raw resize notifications, mounts, disposals, changes of the surroundings), with
any time stamps at all, any two `editor.layout` calls made by `forceLayout`, consecutive
ones in particular, are at least 100 ms apart. -/
theorem C1_forceLayout_calls_100ms_apart (env : Env) (evs : List (Int × EditorEvent)) :
    List.Chain' (fun a b => a + 100 ≤ b) ((EditorWorld.init env).run evs).forceLayoutTimes ∧
    ((EditorWorld.init env).run evs).forceLayoutTimes.Pairwise (fun a b => a + 100 ≤ b) := by
  have h := (EditorWorld.inv_run (EditorWorld.inv_init env) evs).layout.2
  exact ⟨List.Pairwise.chain' h, h⟩

/-- C4, as stated, fails: the initial-layout timer of editor 1 (handle 2, set at its
mount) is still pending when editor 1 is disposed at time 30.  A second editor is mounted
at time 50, which sets the shared mounted flag again; when the timer fires at time 100 it
finds the flag set and calls `layout` on editor 1, the disposed editor. -/
theorem C4_counterexample :
    busy800.timers.find? 2 = some ⟨2, 100, .initialLayout editor1⟩ ∧
    (busy800.step 30 (.editorDispose 1)).isEditorMountedRef = false ∧
    ((busy800.step 30 (.editorDispose 1)).run
      [(50, .editorMount editor2), (100, .fire 2)]).layouts
      = [⟨1, 100, .size 800 400, .initial⟩] := by
  decide

/-- C4, amended: after the editor is disposed, through the dispose listener registered on
it at its mount, through `handleEditorWillUnmount` or through the cleanup of the effects,
every later sequence of events that mounts no editor (firings of the retry,
initial-layout, prop-change, window-resize, visibility and animation-frame timers, raw
notifications and deferred invocations of the observers, direct `forceLayout` calls) finds
the mounted flag clear and makes no `editor.layout` call. -/
theorem C4_no_layout_after_dispose (w : EditorWorld) (t : Int) (editor : Nat)
    (evs : List (Int × EditorEvent))
    (hreg : editor ∈ w.disposeListeners)
    (h : evs.all (fun x => !EditorWorld.isMount x.2) = true) :
    (((w.step t (.editorDispose editor)).run evs).isEditorMountedRef = false ∧
      ((w.step t (.editorDispose editor)).run evs).layouts = w.layouts) ∧
    (((w.step t .editorWillUnmount).run evs).isEditorMountedRef = false ∧
      ((w.step t .editorWillUnmount).run evs).layouts = w.layouts) ∧
    ((w.cleanupEffects.run evs).isEditorMountedRef = false ∧
      (w.cleanupEffects.run evs).layouts = w.layouts) := by
  refine ⟨?_, ?_, ?_⟩
  · rw [(EditorWorld.step_editorDispose w t editor).1 hreg]
    obtain ⟨h1, h2⟩ := EditorWorld.onDidDispose_unmounted w
    obtain ⟨k1, k2⟩ := EditorWorld.run_unmounted h1 evs h
    exact ⟨k1, k2.trans h2⟩
  · obtain ⟨h1, h2⟩ := EditorWorld.handleEditorWillUnmount_unmounted w
    obtain ⟨k1, k2⟩ := EditorWorld.run_unmounted (w := w.step t .editorWillUnmount) h1 evs h
    exact ⟨k1, k2.trans h2⟩
  · obtain ⟨h1, h2⟩ := EditorWorld.cleanupEffects_unmounted w
    obtain ⟨k1, k2⟩ := EditorWorld.run_unmounted h1 evs h
    exact ⟨k1, k2.trans h2⟩

theorem C4_no_layout_after_dispose_witness :
    busy800.timers.pending.map Timer.id = [1, 2, 3, 4, 5, 6] ∧
    busy800.isEditorMountedRef = true ∧
    ((busy800.step 30 (.editorDispose 1)).run
      [(50, .fire 5), (100, .fire 2), (100, .fire 6), (160, .fire 3), (210, .fire 1),
       (310, .fire 4), (320, .notify 0 [2]), (330, .forceLayout)]).layouts = busy800.layouts :=
  ⟨by decide, by decide,
   (C4_no_layout_after_dispose busy800 30 1
      [(50, .fire 5), (100, .fire 2), (100, .fire 6), (160, .fire 3), (210, .fire 1),
       (310, .fire 4), (320, .notify 0 [2]), (330, .forceLayout)] (by decide) (by decide)).1.2⟩

/-- C5: in every state the component reaches, at most one retry is pending; and a
`forceLayout` call made there while the editor is mounted (flag set, `editorRef` holding an
editor with a `layout` function), no layout is in progress and less than 100 ms have
elapsed since `lastLayoutTimeRef` makes no `editor.layout` call, cancels the retry that was
pending, and leaves exactly one retry pending, the new one, due `100 - elapsed` ms after
the call and named by `layoutTimeoutRef`. -/
theorem C5_throttled_call_leaves_one_retry (w : EditorWorld) (hr : w.Reachable) :
    w.pendingRetries.length ≤ 1 ∧
    ∀ (now : Int) (editor : EditorObj),
      w.isEditorMountedRef = true → w.editorRef = some editor → editor.hasLayout = true →
      w.isLayoutInProgressRef = false → now - w.lastLayoutTimeRef < 100 →
        (w.forceLayout now).layouts = w.layouts ∧
        (∀ t ∈ w.pendingRetries, t ∉ (w.forceLayout now).timers.pending) ∧
        (w.forceLayout now).pendingRetries =
          [⟨w.timers.next + 1, now + (100 - (now - w.lastLayoutTimeRef)), .retry⟩] ∧
        (w.forceLayout now).layoutTimeoutRef = some (w.timers.next + 1) := by
  have hi := EditorWorld.inv_of_reachable hr
  constructor
  · cases hp : w.pendingRetries with
    | nil => simp
    | cons t l =>
      have := (hi.retry t (by simp [hp])).1
      rw [hp] at this
      simp [this]
  · intro now editor hm he hl hp ht
    rw [EditorWorld.forceLayout_throttled hm he hl hp ht]
    have hnil := EditorWorld.retries_clearRef_nil hi.retry
    refine ⟨rfl, ?_, ?_, ?_⟩
    · intro t htm
      have hid := (hi.retry t htm).2
      have hmem : t ∈ w.timers.pending := (List.mem_filter.1 htm).1
      have hle := hi.fresh t hmem
      simp only [Timers.setTimeout, hid, Timers.clearRef, Timers.clearTimeout,
        List.mem_append, List.mem_filter, List.mem_singleton, not_or]
      constructor
      · simp
      · intro heq
        rw [heq] at hle
        simp at hle
    · simp [EditorWorld.pendingRetries, Timers.setTimeout, List.filter_append, hnil,
        Timers.clearRef_next]
    · simp [Timers.fresh, Timers.clearRef_next]

theorem C5_throttled_call_leaves_one_retry_witness :
    mounted800.pendingRetries.length ≤ 1 ∧
    (mounted800.forceLayout 50).layouts = mounted800.layouts ∧
    (mounted800.forceLayout 50).pendingRetries =
      [⟨mounted800.timers.next + 1, 50 + (100 - (50 - mounted800.lastLayoutTimeRef)), .retry⟩] :=
  ⟨(C5_throttled_call_leaves_one_retry mounted800 ⟨env800, _, rfl⟩).1,
   ((C5_throttled_call_leaves_one_retry mounted800 ⟨env800, _, rfl⟩).2 50 editor1
      rfl rfl rfl rfl (by decide)).1,
   ((C5_throttled_call_leaves_one_retry mounted800 ⟨env800, _, rfl⟩).2 50 editor1
      rfl rfl rfl rfl (by decide)).2.2.1⟩

/-- C8, as stated, fails when the previous layout was long ago.  Editor 1 is mounted at
time 0 in an 800 by 400 container, its initial layout runs at 100 and a `forceLayout` call
lays out at 500.  Five `forceLayout` calls follow at 1000, 1010, 1020, 1030 and 1040: the
first lays out at once, the other four leave a retry (handle 6) due at 1100, and that
retry lays out again: two calls of `layout({width: 800, height: 400})`, not one. -/
theorem C8_counterexample :
    (mounted800.run
      [(100, .fire 2), (500, .forceLayout),
       (1000, .forceLayout), (1010, .forceLayout), (1020, .forceLayout),
       (1030, .forceLayout), (1040, .forceLayout), (1100, .fire 6)]).layouts
      = [⟨1, 100, .size 800 400, .initial⟩, ⟨1, 500, .size 800 400, .forceLayout⟩,
         ⟨1, 1000, .size 800 400, .forceLayout⟩, ⟨1, 1100, .size 800 400, .forceLayout⟩] := by
  decide

/-- C8, amended: in a reachable state with a mounted, idle editor whose container measures
800 by 400, let `forceLayout` be called five times within 40 ms (at `t1 ≤ ... ≤ t5 ≤ t1 + 40`)
and let the retry these calls leave fire at time `r`.  If the last call is still less than
100 ms after `lastLayoutTimeRef` (as with a clock that starts at 0 and no earlier layout),
exactly one call `layout({width: 800, height: 400})` is made, by the retry, at a time
`r ≥ lastLayoutTimeRef + 100`.  If the first call is at least 100 ms after
`lastLayoutTimeRef`, it lays out at once and the retry left by the other four lays out
again at `r ≥ t1 + 100`: two calls. -/
theorem C8_five_calls_within_40ms (w : EditorWorld) (hr : w.Reachable) (editor : EditorObj)
    (t1 t2 t3 t4 t5 r : Int)
    (hm : w.isEditorMountedRef = true) (he : w.editorRef = some editor)
    (hl : editor.hasLayout = true) (hp : w.isLayoutInProgressRef = false)
    (hc : w.env.container = some ⟨800, 400⟩) (hmt : w.env.measureThrows = none)
    (h12 : t1 ≤ t2) (h23 : t2 ≤ t3) (h34 : t3 ≤ t4) (h45 : t4 ≤ t5) (h15 : t5 ≤ t1 + 40) :
    (t5 - w.lastLayoutTimeRef < 100 → w.lastLayoutTimeRef + 100 ≤ r →
      (w.run [(t1, .forceLayout), (t2, .forceLayout), (t3, .forceLayout),
        (t4, .forceLayout), (t5, .forceLayout), (r, .fire (w.timers.next + 5))]).layouts
        = w.layouts ++ [⟨editor.id, r, .size 800 400, .forceLayout⟩]) ∧
    (100 ≤ t1 - w.lastLayoutTimeRef → t1 + 100 ≤ r →
      (w.run [(t1, .forceLayout), (t2, .forceLayout), (t3, .forceLayout),
        (t4, .forceLayout), (t5, .forceLayout), (r, .fire (w.timers.next + 4))]).layouts
        = w.layouts ++ [⟨editor.id, t1, .size 800 400, .forceLayout⟩,
            ⟨editor.id, r, .size 800 400, .forceLayout⟩]) := by
  have R0 : EditorWorld.Ready w editor ⟨800, 400⟩ :=
    ⟨hm, he, hl, hp, hc, hmt, (EditorWorld.inv_of_reachable hr).fresh⟩
  have hfloor : ⌊(800 : ℚ)⌋ = 800 := by norm_num
  have hpos : (0 : ℚ) < 800 := by norm_num
  constructor
  · intro hlt hr
    simp only [EditorWorld.run]
    obtain ⟨R1, L1, Y1, N1, -⟩ := EditorWorld.ready_throttled t1 R0 (by omega)
    obtain ⟨R2, L2, Y2, N2, -⟩ := EditorWorld.ready_throttled t2 R1 (by omega)
    obtain ⟨R3, L3, Y3, N3, -⟩ := EditorWorld.ready_throttled t3 R2 (by omega)
    obtain ⟨R4, L4, Y4, N4, -⟩ := EditorWorld.ready_throttled t4 R3 (by omega)
    obtain ⟨R5, L5, Y5, N5, l, P5, hl5⟩ :=
      EditorWorld.ready_throttled t5 R4 (by omega)
    have hfire := EditorWorld.ready_fire (r := r) (n := w.timers.next + 5) R5 P5
      (by simp only []; omega) rfl (fun x hx => by have := hl5 x hx; omega) (by omega)
    rw [hfire, Y5, Y4, Y3, Y2, Y1]
    simp [hfloor, hpos]
  · intro hge hr
    simp only [EditorWorld.run]
    obtain ⟨R1, L1, Y1, T1⟩ := EditorWorld.ready_due t1 R0 hge
    have N1 : (w.step t1 .forceLayout).timers.next = w.timers.next := by rw [T1]
    obtain ⟨R2, L2, Y2, N2, -⟩ := EditorWorld.ready_throttled t2 R1 (by omega)
    obtain ⟨R3, L3, Y3, N3, -⟩ := EditorWorld.ready_throttled t3 R2 (by omega)
    obtain ⟨R4, L4, Y4, N4, -⟩ := EditorWorld.ready_throttled t4 R3 (by omega)
    obtain ⟨R5, L5, Y5, N5, l, P5, hl5⟩ :=
      EditorWorld.ready_throttled t5 R4 (by omega)
    have hfire := EditorWorld.ready_fire (r := r) (n := w.timers.next + 4) R5 P5
      (by simp only []; omega) rfl (fun x hx => by have := hl5 x hx; omega) (by omega)
    rw [hfire, Y5, Y4, Y3, Y2, Y1]
    simp [hfloor, hpos]

theorem C8_five_calls_within_40ms_witness :
    (mounted800.run [(0, .forceLayout), (10, .forceLayout), (20, .forceLayout),
      (30, .forceLayout), (40, .forceLayout), (100, .fire (mounted800.timers.next + 5))]).layouts
      = mounted800.layouts ++ [⟨editor1.id, 100, .size 800 400, .forceLayout⟩] :=
  (C8_five_calls_within_40ms mounted800 ⟨env800, _, rfl⟩ editor1 0 10 20 30 40 100
    rfl rfl rfl rfl rfl rfl (by decide) (by decide) (by decide) (by decide) (by decide)).1
    (by decide) (by decide)

/-- C9, as stated, fails: a `forceLayout` call made while a layout is in progress (here
from inside the layout started at time 1000, with no retry pending) leaves no retry
pending, not one. -/
theorem C9_counterexample :
    layingOut800.isLayoutInProgressRef = true ∧
    layingOut800.pendingRetries = [] ∧
    (layingOut800.forceLayout 1010).layouts = layingOut800.layouts ∧
    (layingOut800.forceLayout 1010).pendingRetries = [] := by
  decide

/-- C9, amended: a `forceLayout` call made while `isLayoutInProgressRef` is set returns at
the first guard: the state is unchanged, so `editor.layout` is not invoked and no retry is
scheduled or cancelled (the pending retries are those that were pending before). -/
theorem C9_call_during_layout_is_dropped (w : EditorWorld) (now : Int)
    (h : w.isLayoutInProgressRef = true) :
    w.forceLayout now = w ∧
    (w.forceLayout now).layouts = w.layouts ∧
    (w.forceLayout now).pendingRetries = w.pendingRetries := by
  have : w.forceLayout now = w := by
    unfold EditorWorld.forceLayout
    split
    · rfl
    · simp [h]
  rw [this]
  exact ⟨rfl, rfl, rfl⟩

theorem C9_call_during_layout_is_dropped_witness :
    layingOut800.forceLayout 1010 = layingOut800 :=
  (C9_call_during_layout_is_dropped layingOut800 1010 rfl).1

/-- C10, as stated, fails: with a container measured 800 wide and 0 high, a `forceLayout`
call that passes the guards still calls `layout({width: 800, height: 400})`. -/
theorem C10_counterexample :
    envFlat.container = some ⟨800, 0⟩ ∧
    (((EditorWorld.init envFlat).run
      [(0, .componentMount), (0, .editorMount editor1)]).forceLayout 1000).layouts
      = [⟨1, 1000, .size 800 400, .forceLayout⟩] := by
  decide

/-- C10, amended: a `forceLayout` call that passes the mounted, in-progress and interval
guards with a container that can be measured calls `editor.layout` with an explicit size
if and only if the measured width is positive (the measured height is not read; the
height tested is the constant 400), and then exactly once, with
`{width: floor(width), height: 400}`; with a width that is not positive it makes no
`editor.layout` call. -/
theorem C10_explicit_size_iff_width_positive (w : EditorWorld) (editor : EditorObj)
    (rect : Rect) (now : Int)
    (hm : w.isEditorMountedRef = true) (he : w.editorRef = some editor)
    (hl : editor.hasLayout = true) (hp : w.isLayoutInProgressRef = false)
    (ht : 100 ≤ now - w.lastLayoutTimeRef)
    (hc : w.env.container = some rect) (hmt : w.env.measureThrows = none) :
    (w.forceLayout now).layouts = w.layouts ++
      (if rect.width > 0 then [⟨editor.id, now, .size ⌊rect.width⌋ 400, .forceLayout⟩]
       else []) := by
  rw [EditorWorld.forceLayout_due hm he hl hp ht]
  show w.layouts ++ (w.layoutAttempt editor now).1 = _
  unfold EditorWorld.layoutAttempt
  simp only [hc, hmt]
  by_cases hw : rect.width > 0 <;> simp [hw]

theorem C10_explicit_size_iff_width_positive_witness :
    (mounted800.forceLayout 1000).layouts = mounted800.layouts ++
      (if (800 : ℚ) > 0 then [⟨editor1.id, 1000, .size ⌊(800 : ℚ)⌋ 400, .forceLayout⟩]
       else []) :=
  C10_explicit_size_iff_width_positive mounted800 editor1 ⟨800, 400⟩ 1000
    rfl rfl rfl rfl (by decide) rfl rfl

/-- C11, as stated, fails: with a hidden container (present, measuring 0 by 0) a
`forceLayout` call that passes its guards makes no `editor.layout` call at all, neither
with a size nor without; nothing is raised and `lastLayoutTimeRef` is set. -/
theorem C11_counterexample :
    envHidden.container = some ⟨0, 0⟩ ∧
    (((EditorWorld.init envHidden).run
      [(0, .componentMount), (0, .editorMount editor1)]).forceLayout 1000).layouts = [] ∧
    (((EditorWorld.init envHidden).run
      [(0, .componentMount), (0, .editorMount editor1)]).forceLayout 1000).escaped = [] ∧
    (((EditorWorld.init envHidden).run
      [(0, .componentMount), (0, .editorMount editor1)]).forceLayout 1000).lastLayoutTimeRef
        = 1000 := by
  decide

/-- C11, amended: when `forceLayout` passes its guards and the container is present but
measures a width that is not positive, no `editor.layout` call is made and nothing is
raised; the automatic-layout fallback, exactly one `editor.layout()` call with no size
argument, is used only when there is no container element, and then nothing is raised
unless that call throws. -/
theorem C11_zero_width_skips_layout (w : EditorWorld) (editor : EditorObj) (now : Int)
    (hm : w.isEditorMountedRef = true) (he : w.editorRef = some editor)
    (hl : editor.hasLayout = true) (hp : w.isLayoutInProgressRef = false)
    (ht : 100 ≤ now - w.lastLayoutTimeRef) :
    (∀ rect : Rect, w.env.container = some rect → w.env.measureThrows = none →
      rect.width ≤ 0 →
        (w.forceLayout now).layouts = w.layouts ∧ (w.forceLayout now).escaped = w.escaped) ∧
    (w.env.container = none →
      (w.forceLayout now).layouts = w.layouts ++ [⟨editor.id, now, .auto, .forceLayout⟩] ∧
      (w.env.layoutThrows = none → (w.forceLayout now).escaped = w.escaped)) := by
  rw [EditorWorld.forceLayout_due hm he hl hp ht]
  constructor
  · intro rect hc hmt hw
    have hnot : ¬ rect.width > 0 := not_lt.2 hw
    simp [EditorWorld.layoutAttempt, hc, hmt, hnot]
  · intro hc
    refine ⟨by simp [EditorWorld.layoutAttempt, hc], ?_⟩
    intro hth
    simp [EditorWorld.layoutAttempt, hc, hth]

theorem C11_zero_width_skips_layout_witness :
    (((EditorWorld.init envHidden).run
      [(0, .componentMount), (0, .editorMount editor1)]).forceLayout 1000).layouts
      = ((EditorWorld.init envHidden).run
          [(0, .componentMount), (0, .editorMount editor1)]).layouts ∧
    (((EditorWorld.init envDetached).run
      [(0, .componentMount), (0, .editorMount editor1)]).forceLayout 1000).layouts
      = ((EditorWorld.init envDetached).run
          [(0, .componentMount), (0, .editorMount editor1)]).layouts
        ++ [⟨editor1.id, 1000, .auto, .forceLayout⟩] :=
  ⟨((C11_zero_width_skips_layout _ editor1 1000 rfl rfl rfl rfl (by decide)).1
      ⟨0, 0⟩ rfl rfl (le_refl _)).1,
   ((C11_zero_width_skips_layout _ editor1 1000 rfl rfl rfl rfl (by decide)).2 rfl).1⟩

/-- C12, as stated, fails: the component is committed at 1000 and the editor mounts at
1150; the prop-change timer (handle 1) fires at 1200 and `forceLayout` lays out; the
initial-layout timer (handle 2) fires at 1250 and lays out again, 50 ms later. -/
theorem C12_counterexample :
    EditorWorld.nonDecreasing 0
      [(1000, .componentMount), (1150, .editorMount editor1), (1200, .fire 1),
       (1250, .fire 2)] = true ∧
    ((EditorWorld.init env800).run
      [(1000, .componentMount), (1150, .editorMount editor1), (1200, .fire 1),
       (1250, .fire 2)]).layouts
      = [⟨1, 1200, .size 800 400, .forceLayout⟩, ⟨1, 1250, .size 800 400, .initial⟩] := by
  decide

/-- C12, amended: along every sequence of events with non-decreasing time stamps, the
`editor.layout` calls of the component (the delayed initial layout as well as the
`forceLayout`-driven ones) are made one after another in time order, and any two calls
made by `forceLayout` are at least 100 ms apart.  (The delayed initial layout is outside
the throttle.) -/
theorem C12_calls_in_order_forceLayout_spaced (env : Env) (t0 : Int)
    (evs : List (Int × EditorEvent)) (h : EditorWorld.nonDecreasing t0 evs = true) :
    (((EditorWorld.init env).run evs).layouts.map LayoutCall.time).Pairwise
      (fun a b => a ≤ b) ∧
    ((EditorWorld.init env).run evs).forceLayoutTimes.Pairwise (fun a b => a + 100 ≤ b) :=
  ⟨EditorWorld.ordered_run evs (by simp [EditorWorld.init]) (by simp [EditorWorld.init]) h,
   (EditorWorld.inv_run (EditorWorld.inv_init env) evs).layout.2⟩

theorem C12_calls_in_order_forceLayout_spaced_witness :
    EditorWorld.nonDecreasing 0
      [(1000, .componentMount), (1150, .editorMount editor1), (1200, .fire 1),
       (1250, .fire 2)] = true ∧
    (((EditorWorld.init env800).run
      [(1000, .componentMount), (1150, .editorMount editor1), (1200, .fire 1),
       (1250, .fire 2)]).layouts.map LayoutCall.time).Pairwise (fun a b => a ≤ b) :=
  ⟨by decide, (C12_calls_in_order_forceLayout_spaced env800 0 _ (by decide)).1⟩

/-- C15 at its failing input: `editor.layout` throws `null` in a `forceLayout` call that
passes its guards.  The in-progress flag is cleared and `lastLayoutTimeRef` holds the time
of the call, but the catch block reads `error.message` of `null`, and the `TypeError` this
raises leaves `forceLayout`. -/
theorem C15_null_throw_escapes :
    (((EditorWorld.init envThrowNull).run
      [(0, .componentMount), (0, .editorMount editor1)]).forceLayout 1000).isLayoutInProgressRef
        = false ∧
    (((EditorWorld.init envThrowNull).run
      [(0, .componentMount), (0, .editorMount editor1)]).forceLayout 1000).lastLayoutTimeRef
        = 1000 ∧
    (((EditorWorld.init envThrowNull).run
      [(0, .componentMount), (0, .editorMount editor1)]).forceLayout 1000).escaped
        = [typeError] := by
  decide

/-- C16, as stated, fails: after the dispose listener ran, `editorRef` still holds the
editor. -/
theorem C16_counterexample :
    (mounted800.step 10 (.editorDispose 1)).editorRef = some editor1 ∧
    (mounted800.step 10 (.editorDispose 1)).isEditorMountedRef = false := by
  decide

/-- C16, amended: from every state the component reaches, the dispose event of an editor
on which the dispose listener was registered (its mount reached line 238) leaves no retry
pending, the mounted flag clear and the observer named by `resizeObserverRef` disconnected
(destroyed, not observing, without platform observer or pending handle); `editorRef` is
left as it was.  The dispose event of an editor without a registered listener (its mount
was left by an exception at line 234) changes nothing. -/
theorem C16_dispose_outcome (w : EditorWorld) (hr : w.Reachable) (t : Int) (editor : Nat) :
    (editor ∈ w.disposeListeners →
      (w.step t (.editorDispose editor)).pendingRetries = [] ∧
      (w.step t (.editorDispose editor)).isEditorMountedRef = false ∧
      (w.step t (.editorDispose editor)).editorRef = w.editorRef ∧
      ∀ i, w.resizeObserverRef = some i →
        ∃ o, (w.step t (.editorDispose editor)).observers[i]? = some o ∧
          o.isDestroyed = true ∧ o.isObserving = false ∧ o.observer = none ∧
          o.timeoutId = none) ∧
    (editor ∉ w.disposeListeners → w.step t (.editorDispose editor) = w) := by
  have hi := EditorWorld.inv_of_reachable hr
  have href : w.RefInv := by
    obtain ⟨env, evs, rfl⟩ := hr
    exact EditorWorld.refInv_run (EditorWorld.refInv_init env) evs
  refine ⟨fun hreg => ?_, (EditorWorld.step_editorDispose w t editor).2⟩
  rw [(EditorWorld.step_editorDispose w t editor).1 hreg]
  refine ⟨EditorWorld.onDidDispose_retries hi, (EditorWorld.onDidDispose_unmounted w).1,
    (EditorWorld.steady_onDidDispose t w).editor, ?_⟩
  intro i hri
  have hlt := href i hri
  have ho : w.observers[i]? = some (w.observers.get ⟨i, hlt⟩) := by
    simp [List.getElem?_eq_getElem hlt]
  refine ⟨((w.observers.get ⟨i, hlt⟩).disconnect w.timers).1, ?_, ?_⟩
  · simp [EditorWorld.onDidDispose, EditorWorld.disconnectObserver, hri, ho, hlt]
  · simp [SafeResizeObserver.disconnect]

theorem C16_dispose_outcome_witness :
    (busy800.step 30 (.editorDispose 1)).pendingRetries = [] ∧
    (busy800.step 30 (.editorDispose 1)).isEditorMountedRef = false ∧
    (busy800.step 30 (.editorDispose 1)).editorRef = busy800.editorRef :=
  ⟨((C16_dispose_outcome busy800
      ⟨env800, [(0, .componentMount), (0, .editorMount editor1), (10, .windowResize),
        (10, .visibilityChange), (10, .notify 0 [1]), (20, .forceLayout)], rfl⟩ 30 1).1
      (by decide)).1,
   ((C16_dispose_outcome busy800
      ⟨env800, [(0, .componentMount), (0, .editorMount editor1), (10, .windowResize),
        (10, .visibilityChange), (10, .notify 0 [1]), (20, .forceLayout)], rfl⟩ 30 1).1
      (by decide)).2.1,
   ((C16_dispose_outcome busy800
      ⟨env800, [(0, .componentMount), (0, .editorMount editor1), (10, .windowResize),
        (10, .visibilityChange), (10, .notify 0 [1]), (20, .forceLayout)], rfl⟩ 30 1).1
      (by decide)).2.2.1⟩

/-- C17: in every state the component reaches, the dispose listener and
`handleEditorWillUnmount` (whose body is also the cleanup of the last effect) produce the
same state, so the dispose event of an editor with a registered listener and the
`beforeUnmount` event lead to the same state; and the unmount of the component, which runs
every effect cleanup, agrees with the dispose listener on the mounted flag, the in-progress
flag, the pending retries, `layoutTimeoutRef` and the observers. -/
theorem C17_teardown_paths_agree (w : EditorWorld) (hr : w.Reachable) (t : Int)
    (editor : Nat) :
    w.onDidDispose = w.handleEditorWillUnmount ∧
    (editor ∈ w.disposeListeners →
      w.step t (.editorDispose editor) = w.step t .editorWillUnmount) ∧
    w.cleanupEffects.isEditorMountedRef = w.onDidDispose.isEditorMountedRef ∧
    w.cleanupEffects.isLayoutInProgressRef = w.onDidDispose.isLayoutInProgressRef ∧
    w.cleanupEffects.pendingRetries = w.onDidDispose.pendingRetries ∧
    w.cleanupEffects.layoutTimeoutRef = w.onDidDispose.layoutTimeoutRef ∧
    w.cleanupEffects.observers = w.onDidDispose.observers := by
  have hidle : w.isLayoutInProgressRef = false := by
    obtain ⟨env, evs, rfl⟩ := hr
    exact EditorWorld.idle_run rfl evs
  have hi := EditorWorld.inv_of_reachable hr
  have key : w.onDidDispose = w.handleEditorWillUnmount := by
    rw [EditorWorld.handleEditorWillUnmount_eq,
      EditorWorld.clear_flag_eq ((EditorWorld.steady_onDidDispose 0 w).idle hidle)]
  have hclean : w.cleanupEffects.pendingRetries = [] := by
    have h1 : EditorWorld.Inv w.propCleanup :=
      EditorWorld.inv_of_quiet (EditorWorld.quiet_propCleanup w) hi
    have h2 : EditorWorld.Inv
        { w.propCleanup with
          timers := w.propCleanup.timers.clearRef w.propCleanup.resizeTimeout
          resizeTimeout := none
          effectsActive := false } :=
      EditorWorld.inv_of_quiet
        (EditorWorld.quiet_clearRef w.propCleanup _ w.propCleanup.resizeTimeout
          rfl rfl rfl rfl) h1
    have h3 := EditorWorld.onDidDispose_retries h2
    rw [EditorWorld.cleanupEffects, EditorWorld.handleEditorWillUnmount_eq]
    exact h3
  refine ⟨key, fun hreg => ?_, ?_, ?_, ?_, (EditorWorld.cleanupEffects_observers w).2,
    (EditorWorld.cleanupEffects_observers w).1⟩
  · rw [(EditorWorld.step_editorDispose w t editor).1 hreg, key]
    rfl
  · rw [(EditorWorld.cleanupEffects_unmounted w).1, (EditorWorld.onDidDispose_unmounted w).1]
  · rw [(EditorWorld.steady_onDidDispose 0 w).idle hidle]
    rw [EditorWorld.cleanupEffects, EditorWorld.handleEditorWillUnmount_eq]
  · rw [hclean, EditorWorld.onDidDispose_retries hi]

theorem C17_teardown_paths_agree_witness :
    busy800.step 30 (.editorDispose 1) = busy800.step 30 .editorWillUnmount :=
  (C17_teardown_paths_agree busy800
    ⟨env800, [(0, .componentMount), (0, .editorMount editor1), (10, .windowResize),
      (10, .visibilityChange), (10, .notify 0 [1]), (20, .forceLayout)], rfl⟩ 30 1).2.1
    (by decide)

/-- C21: a `forceLayout` call made while the editor is not mounted, or while `editorRef`
holds no editor, or holds one without a `layout` function, returns at the first guard and
leaves the whole state as it was: no `editor.layout` call is recorded, the timer table is
the same (nothing scheduled, nothing cancelled), and `lastLayoutTimeRef`, the in-progress
flag, `layoutTimeoutRef` and the pending retries are unchanged. -/
theorem C21_guarded_call_is_noop (w : EditorWorld) (now : Int)
    (h : w.isEditorMountedRef = false ∨ w.editorRef = none ∨
      ∃ e, w.editorRef = some e ∧ e.hasLayout = false) :
    w.forceLayout now = w ∧
    (w.forceLayout now).layouts = w.layouts ∧
    (w.forceLayout now).timers = w.timers ∧
    (w.forceLayout now).lastLayoutTimeRef = w.lastLayoutTimeRef ∧
    (w.forceLayout now).isLayoutInProgressRef = w.isLayoutInProgressRef ∧
    (w.forceLayout now).layoutTimeoutRef = w.layoutTimeoutRef ∧
    (w.forceLayout now).pendingRetries = w.pendingRetries := by
  have e : w.forceLayout now = w := by
    rcases h with h | h | ⟨ed, h, hl⟩
    · exact EditorWorld.forceLayout_unmounted h now
    · unfold EditorWorld.forceLayout
      simp [h]
    · unfold EditorWorld.forceLayout
      simp [h, hl]
  rw [e]
  exact ⟨rfl, rfl, rfl, rfl, rfl, rfl, rfl⟩

theorem C21_guarded_call_is_noop_witness :
    busy800.onDidDispose.isEditorMountedRef = false ∧
    busy800.onDidDispose.timers.pending.length = 4 ∧
    busy800.onDidDispose.forceLayout 500 = busy800.onDidDispose :=
  ⟨by decide, by decide, (C21_guarded_call_is_noop busy800.onDidDispose 500 (Or.inl (by decide))).1⟩

/-- C26: in every state the component reaches (so whenever a timer, listener or observer
callback starts) the in-progress flag is clear, and it is clear again after a `forceLayout`
call made there, whichever branch the call takes and also when the layout throws or the
catch block raises: the flag is set only by the try block, for the time `editor.layout`
runs, and the finally block clears it.  So the tests of the flag never skip a trigger: the
guarded call of the prop-change, window-resize and visibility timers is a plain
`forceLayout` call, and the observer callback, its animation frame and the visibility
listener act on their other conditions alone. -/
theorem C26_flag_clear_between_events (w : EditorWorld) (hr : w.Reachable) (now : Int) :
    w.isLayoutInProgressRef = false ∧
    (w.forceLayout now).isLayoutInProgressRef = false ∧
    (w.beginLayout now).isLayoutInProgressRef = true ∧
    w.guardedForceLayout now = w.forceLayout now ∧
    w.animationFrame now = (if w.isEditorMountedRef then w.forceLayout now else w) ∧
    w.handleResize now
      = (if w.isEditorMountedRef then
          { w with timers := w.timers.setTimeout now 0 .animationFrame } else w) ∧
    w.handleVisibilityChange now
      = (if !w.env.hidden then
          { w with timers := w.timers.setTimeout now 300 .visibility } else w) := by
  have h0 : w.isLayoutInProgressRef = false := by
    obtain ⟨env, evs, rfl⟩ := hr
    exact EditorWorld.idle_run rfl evs
  refine ⟨h0, EditorWorld.idle_step h0 now .forceLayout, rfl, ?_, ?_, ?_, ?_⟩
  · simp [EditorWorld.guardedForceLayout, h0]
  · simp [EditorWorld.animationFrame, h0]
  · simp [EditorWorld.handleResize, h0]
  · simp [EditorWorld.handleVisibilityChange, h0]

theorem C26_flag_clear_between_events_witness :
    (((EditorWorld.init envThrowNull).run
        [(0, .componentMount), (0, .editorMount editor1)]).forceLayout 1000).escaped
      = [typeError] ∧
    (((EditorWorld.init envThrowNull).run
        [(0, .componentMount), (0, .editorMount editor1)]).forceLayout 1000).isLayoutInProgressRef
      = false :=
  ⟨by decide,
    (C26_flag_clear_between_events
      ((EditorWorld.init envThrowNull).run [(0, .componentMount), (0, .editorMount editor1)])
      ⟨envThrowNull, _, rfl⟩ 1000).2.1⟩

/-- C29: a `forceLayout` call that passes the mounted, in-progress and interval guards
sets `lastLayoutTimeRef` to the current time whatever the try block does (explicit layout,
no layout because the container is 0 wide, automatic layout, or a throw); a following call
less than 100 ms later makes no `editor.layout` call, leaves `lastLayoutTimeRef` as it is
and schedules a retry for 100 ms after the first call. -/
theorem C29_lastLayoutTime_set_on_every_pass (w : EditorWorld) (editor : EditorObj)
    (now later : Int)
    (hm : w.isEditorMountedRef = true) (he : w.editorRef = some editor)
    (hl : editor.hasLayout = true) (hp : w.isLayoutInProgressRef = false)
    (ht : 100 ≤ now - w.lastLayoutTimeRef) (hlater : later - now < 100) :
    (w.forceLayout now).lastLayoutTimeRef = now ∧
    (w.env.container.map Rect.width = some 0 → (w.forceLayout now).layouts = w.layouts) ∧
    ((w.forceLayout now).forceLayout later).layouts = (w.forceLayout now).layouts ∧
    ((w.forceLayout now).forceLayout later).lastLayoutTimeRef = now ∧
    ((w.forceLayout now).forceLayout later).timers.pending =
      (w.timers.clearRef w.layoutTimeoutRef).pending ++
        [⟨w.timers.next + 1, now + 100, .retry⟩] := by
  have e1 := EditorWorld.forceLayout_due hm he hl hp ht
  have m1 : (w.forceLayout now).isEditorMountedRef = true := by rw [e1]; exact hm
  have r1 : (w.forceLayout now).editorRef = some editor := by rw [e1]; exact he
  have p1 : (w.forceLayout now).isLayoutInProgressRef = false := by rw [e1]
  have l1 : (w.forceLayout now).lastLayoutTimeRef = now := by rw [e1]
  have t1 : later - (w.forceLayout now).lastLayoutTimeRef < 100 := by rw [l1]; exact hlater
  have e2 := EditorWorld.forceLayout_throttled m1 r1 hl p1 t1
  refine ⟨l1, ?_, ?_, ?_, ?_⟩
  · intro hw
    rw [e1]
    show w.layouts ++ (w.layoutAttempt editor now).1 = w.layouts
    unfold EditorWorld.layoutAttempt
    cases hc : w.env.container with
    | none => simp [hc] at hw
    | some rect =>
      have : rect.width = 0 := by simpa [hc] using hw
      cases w.env.measureThrows <;> simp [this]
  · rw [e2]
  · rw [e2]
    exact l1
  · rw [e2]
    simp only [Timers.setTimeout, Timers.clearRef_next, l1]
    rw [e1]
    simp
    omega

theorem C29_lastLayoutTime_set_on_every_pass_witness :
    ((({ mounted800 with env := envHidden }).forceLayout 1000).forceLayout 1050).layouts = [] ∧
    ((({ mounted800 with env := envHidden }).forceLayout 1000).forceLayout
      1050).lastLayoutTimeRef = 1000 :=
  ⟨by decide,
    (C29_lastLayoutTime_set_on_every_pass { mounted800 with env := envHidden } editor1 1000 1050
      (by decide) (by decide) (by decide) (by decide) (by decide) (by decide)).2.2.2.1⟩

/-- C27: a throttled `forceLayout` call schedules a retry due 100 ms after
`lastLayoutTimeRef` and leaves `lastLayoutTimeRef` as it is.  When that retry fires at or
after its due time, in a state where the editor is still mounted and `lastLayoutTimeRef` is
still the same (no `forceLayout` pass in between), the call takes the layout branch: it sets
`lastLayoutTimeRef` to the firing time, runs the try block, schedules no timer, and leaves
no retry pending, so the request causes one retry firing and no further one. -/
theorem C27_retry_takes_layout_branch (w fired : EditorWorld) (editor : EditorObj)
    (now r : Int)
    (hw : w.Reachable) (hm : w.isEditorMountedRef = true) (he : w.editorRef = some editor)
    (hl : editor.hasLayout = true) (ht : now - w.lastLayoutTimeRef < 100)
    (hfired : fired.Reachable) (hm2 : fired.isEditorMountedRef = true)
    (he2 : fired.editorRef = some editor)
    (hpend : fired.timers.find? (w.timers.next + 1)
      = some ⟨w.timers.next + 1, w.lastLayoutTimeRef + 100, .retry⟩)
    (hsame : fired.lastLayoutTimeRef = w.lastLayoutTimeRef)
    (hdue : w.lastLayoutTimeRef + 100 ≤ r) :
    (w.forceLayout now).timers.find? (w.timers.next + 1)
      = some ⟨w.timers.next + 1, w.lastLayoutTimeRef + 100, .retry⟩ ∧
    (w.forceLayout now).lastLayoutTimeRef = w.lastLayoutTimeRef ∧
    (fired.step r (.fire (w.timers.next + 1))).lastLayoutTimeRef = r ∧
    (fired.step r (.fire (w.timers.next + 1))).layouts
      = fired.layouts ++ (fired.layoutAttempt editor r).1 ∧
    (fired.step r (.fire (w.timers.next + 1))).timers
      = fired.timers.clearTimeout (w.timers.next + 1) ∧
    (fired.step r (.fire (w.timers.next + 1))).pendingRetries = [] := by
  have hp : w.isLayoutInProgressRef = false := by
    obtain ⟨env, evs, rfl⟩ := hw
    exact EditorWorld.idle_run rfl evs
  have hp2 : fired.isLayoutInProgressRef = false := by
    obtain ⟨env, evs, rfl⟩ := hfired
    exact EditorWorld.idle_run rfl evs
  have hnil := EditorWorld.retries_clearTimeout_nil
    (t := ⟨w.timers.next + 1, w.lastLayoutTimeRef + 100, .retry⟩)
    (EditorWorld.inv_of_reachable hfired).retry hpend rfl
  have e : fired.step r (.fire (w.timers.next + 1))
      = EditorWorld.forceLayout
          { fired with timers := fired.timers.clearTimeout (w.timers.next + 1) } r := by
    simp only [EditorWorld.step, hpend, EditorWorld.runTask]
  have hdue2 : 100 ≤ r -
      ({ fired with timers := fired.timers.clearTimeout (w.timers.next + 1) } :
        EditorWorld).lastLayoutTimeRef := by
    show 100 ≤ r - fired.lastLayoutTimeRef
    omega
  have e2 := EditorWorld.forceLayout_due
    (w := { fired with timers := fired.timers.clearTimeout (w.timers.next + 1) })
    hm2 he2 hl hp2 hdue2
  refine ⟨EditorWorld.throttled_find (EditorWorld.inv_of_reachable hw).fresh hm he hl hp ht,
    ?_, ?_, ?_, ?_, ?_⟩
  · rw [EditorWorld.forceLayout_throttled hm he hl hp ht]
  · rw [e, e2]
  · rw [e, e2]
    rfl
  · rw [e, e2]
  · rw [e, e2]
    exact hnil

theorem C27_retry_takes_layout_branch_witness :
    ((mounted800.run [(50, .forceLayout), (60, .windowResize)]).step 130 (.fire 3)).layouts
      = [⟨1, 130, .size 800 400, .forceLayout⟩] ∧
    ((mounted800.run [(50, .forceLayout), (60, .windowResize)]).step 130
      (.fire 3)).pendingRetries = [] :=
  ⟨by decide,
    (C27_retry_takes_layout_branch mounted800
      (mounted800.run [(50, .forceLayout), (60, .windowResize)]) editor1 50 130
      ⟨env800, _, rfl⟩ (by decide) (by decide) (by decide) (by decide)
      ⟨env800, [(0, .componentMount), (0, .editorMount editor1), (50, .forceLayout),
        (60, .windowResize)], by decide⟩
      (by decide) (by decide) (by decide) (by decide) (by decide)).2.2.2.2.2⟩

/-- C28, as stated, fails for a width between 0 and 1: with a container measured half a
pixel wide, a `forceLayout` call that passes the guards calls
`layout({width: 0, height: 400})`, and 0 is not a positive integer. -/
theorem C28_counterexample :
    sliver800.env.container = some ⟨1 / 2, 400⟩ ∧ (0 : ℚ) < 1 / 2 ∧
    (sliver800.forceLayout 1000).layouts = [⟨1, 1000, .size 0 400, .forceLayout⟩] := by
  refine ⟨rfl, by norm_num, ?_⟩
  have h := EditorWorld.forceLayout_due (w := sliver800)
    (show sliver800.isEditorMountedRef = true by decide)
    (show sliver800.editorRef = some editor1 by decide)
    (show editor1.hasLayout = true by decide)
    (show sliver800.isLayoutInProgressRef = false by decide)
    (show 100 ≤ 1000 - sliver800.lastLayoutTimeRef by decide)
  have hl : sliver800.layouts = [] := by decide
  have hc : sliver800.env.container = some ⟨1 / 2, 400⟩ := rfl
  have hm : sliver800.env.measureThrows = none := by decide
  have hfloor : ⌊(1 / 2 : ℚ)⌋ = 0 := by
    rw [Int.floor_eq_iff]
    norm_num
  rw [h]
  show sliver800.layouts ++ (sliver800.layoutAttempt editor1 1000).1 = _
  rw [hl]
  unfold EditorWorld.layoutAttempt
  simp only [hc, hm]
  have hpos : (0 : ℚ) < 1 / 2 := by norm_num
  simp [hpos, hfloor]
  exact ⟨rfl, by norm_num⟩

/-- C28, amended: whenever a `forceLayout` call, or the delayed initial layout, calls
`editor.layout` with an explicit size, the container was measured with a width above 0, the
width passed is its floor: an integer that is not negative, does not exceed the measured
width and is greater than the measured width minus 1, and that is positive exactly when the
measured width is at least 1; the height passed is 400. -/
theorem C28_explicit_width_is_floor (w : EditorWorld) (editor : EditorObj) (now : Int)
    (c : LayoutCall) (k h : Int)
    (hc : c ∈ (w.forceLayout now).layouts.drop w.layouts.length ∨
      c ∈ (w.initialLayout editor now).layouts.drop w.layouts.length)
    (harg : c.arg = .size k h) :
    ∃ rect, w.env.container = some rect ∧ 0 < rect.width ∧ k = ⌊rect.width⌋ ∧
      0 ≤ k ∧ (k : ℚ) ≤ rect.width ∧ rect.width - 1 < k ∧ (0 < k ↔ 1 ≤ rect.width) ∧
      h = 400 := by
  have key : ∃ rect, w.env.container = some rect ∧ 0 < rect.width ∧ k = ⌊rect.width⌋ ∧
      h = 400 := by
    rcases hc with hc | hc
    · rcases EditorWorld.forceLayout_new w now with hn | ⟨ed, _, hn⟩
      · rw [hn] at hc
        simp at hc
      · rw [hn] at hc
        exact EditorWorld.layoutAttempt_size hc harg
    · unfold EditorWorld.initialLayout at hc
      by_cases hg : (w.isEditorMountedRef && editor.hasLayout) = true
      · simp only [hg, if_true] at hc
        cases hcont : w.env.container with
        | none => simp [hcont] at hc
        | some rect =>
          cases hmt : w.env.measureThrows with
          | some t => simp [hcont, hmt] at hc
          | none =>
            by_cases hpos : rect.width > 0
            · simp [hcont, hmt, hpos] at hc
              subst hc
              simp only [LayoutArg.size.injEq] at harg
              exact ⟨rect, rfl, hpos, harg.1.symm, harg.2.symm⟩
            · simp [hcont, hmt, hpos] at hc
      · simp [hg] at hc
  obtain ⟨rect, hcont, hpos, hk, hh⟩ := key
  obtain ⟨f1, f2, f3, f4⟩ := EditorWorld.floor_facts rect.width hpos
  subst hk
  exact ⟨rect, hcont, hpos, rfl, f1, f2, f3, f4, hh⟩

theorem C28_explicit_width_is_floor_witness :
    ∃ rect, mounted800.env.container = some rect ∧ 0 < rect.width ∧ (800 : Int) = ⌊rect.width⌋ ∧
      0 ≤ (800 : Int) ∧ ((800 : Int) : ℚ) ≤ rect.width ∧ rect.width - 1 < (800 : Int) ∧
      (0 < (800 : Int) ↔ 1 ≤ rect.width) ∧ (400 : Int) = 400 :=
  C28_explicit_width_is_floor mounted800 editor1 1000 ⟨1, 1000, .size 800 400, .forceLayout⟩
    800 400 (Or.inl (by decide)) rfl

/-- C24, as stated, fails: two visibility events 100 ms apart (at 1000 and 1100) leave two
timers pending, due at 1300 and 1400, and when both fire `forceLayout` runs twice and lays
out twice, at 1300 and at 1400, not once at 1400. -/
theorem C24_counterexample :
    (mounted800.run [(1000, .visibilityChange), (1100, .visibilityChange)]).pendingDues
      .visibility = [1300, 1400] ∧
    (mounted800.run [(1000, .visibilityChange), (1100, .visibilityChange), (1300, .fire 3),
      (1400, .fire 4)]).forceLayoutTimes = [1300, 1400] := by
  decide

/-- C24, amended: the page-visibility trigger is a plain 300 ms delay, not a debounce: in
a state the component reaches, with its listeners installed and the page visible, every
event of a burst schedules its own timer, due 300 ms after that event, and cancels no
timer, and each of these timers calls `forceLayout` when it fires.  The window-resize
trigger is debounced: after a burst of window-resize events exactly one window-resize
timer is pending, due 150 ms after the last event of the burst, and it calls `forceLayout`
when it fires. -/
theorem C24_visibility_delays_resize_debounces (w : EditorWorld) (times : List Int)
    (last now : Int)
    (hw : w.Reachable) (ha : w.effectsActive = true) (hv : w.env.hidden = false)
    (hlast : times.getLast? = some last) :
    (w.run (EditorWorld.burst .visibilityChange times)).pendingDues .visibility
      = w.pendingDues .visibility ++ times.map (· + 300) ∧
    (w.run (EditorWorld.burst .visibilityChange times)).timers.pending.length
      = w.timers.pending.length + times.length ∧
    w.runTask now .visibility = w.forceLayout now ∧
    (w.run (EditorWorld.burst .windowResize times)).pendingDues .windowResize
      = [last + 150] ∧
    w.runTask now .windowResize = w.forceLayout now := by
  have hinv : w.ResizeInv := by
    obtain ⟨env, evs, rfl⟩ := hw
    exact EditorWorld.resizeInv_run (EditorWorld.resizeInv_init env) evs
  have hp : w.isLayoutInProgressRef = false := by
    obtain ⟨env, evs, rfl⟩ := hw
    exact EditorWorld.idle_run rfl evs
  obtain ⟨v1, v2⟩ := EditorWorld.visibility_burst ha hv hp times
  refine ⟨v1, v2, ?_, ?_, ?_⟩
  · simp [EditorWorld.runTask, EditorWorld.guardedForceLayout, hp]
  · cases times with
    | nil => simp at hlast
    | cons t rest => exact EditorWorld.resize_burst ha hinv t rest last hlast
  · simp [EditorWorld.runTask, EditorWorld.guardedForceLayout, hp]

theorem C24_visibility_delays_resize_debounces_witness :
    (mounted800.run (EditorWorld.burst .windowResize [1000, 1100])).pendingDues .windowResize
      = [1100 + 150] :=
  (C24_visibility_delays_resize_debounces mounted800 [1000, 1100] 1100 1250
    ⟨env800, _, rfl⟩ (by decide) (by decide) (by decide)).2.2.2.1

/-! ## Claims about the global error handlers -/

/-- C22 at its failing input: `console.error` is called with an object whose `message`
is truthy but not a string (as in `console.error({ message: 42 })`).  The wrapper calls
`errorMessage.message.includes`, which is not a function: a `TypeError` is raised and the
original `console.error` is not invoked, although the argument contains none of the
substrings.  For every other argument list (the `message` of the first argument is absent
or a string) the wrapper raises nothing, returns without calling the original when the
first argument contains one of the substrings, and otherwise calls the original once with
the same argument list. -/
theorem C22_non_string_message_raises (args : List JsValue)
    (h : ∀ v, args.head? = some v → v.message ≠ .other) :
    consoleError [.obj .other (some "[object Object]")] = .raised typeError ∧
    specConsoleSuppresses (some (.obj .other (some "[object Object]"))) = false ∧
    consoleError args =
      (if specConsoleSuppresses args.head? then .suppressed else .forwarded args) := by
  refine ⟨by decide, by decide, ?_⟩
  unfold consoleError
  cases args with
  | nil => simp [specConsoleSuppresses]
  | cons v rest =>
    have hv := h v rfl
    cases v with
    | falsy => simp [JsValue.truthy, specConsoleSuppresses, JsValue.message, JsValue.toStr,
        MessageField.text?]
    | str s =>
      by_cases hs : s = ""
      · subst hs
        have e1 : (!(("" : String) != "")) = true := by decide
        have e2 : specConsoleSuppresses (some (.str "")) = false := by decide
        simp only [List.head?_cons, JsValue.truthy, e1, e2]
        simp
      · simp only [List.head?_cons, JsValue.truthy, JsValue.message, JsValue.toStr,
          MessageField.matches, specConsoleSuppresses, MessageField.text?]
        rcases Bool.eq_false_or_eq_true (matchesResizeObserver s) with k | k <;>
          simp [k, hs]
    | obj m t =>
      cases m with
      | other => exact absurd rfl hv
      | absent =>
        cases t with
        | none => simp [JsValue.truthy, JsValue.message, JsValue.toStr, MessageField.matches,
            specConsoleSuppresses, MessageField.text?]
        | some u =>
          simp only [List.head?_cons, JsValue.truthy, JsValue.message, JsValue.toStr,
            MessageField.matches, specConsoleSuppresses, MessageField.text?]
          rcases Bool.eq_false_or_eq_true (matchesResizeObserver u) with k | k <;>
            simp [k]
      | text s =>
        cases t with
        | none =>
          simp only [List.head?_cons, JsValue.truthy, JsValue.message, JsValue.toStr,
            MessageField.matches, specConsoleSuppresses, MessageField.text?,
            matchesResizeObserver_nonempty]
          rcases Bool.eq_false_or_eq_true (matchesResizeObserver s) with k | k <;>
            simp [k]
        | some u =>
          simp only [List.head?_cons, JsValue.truthy, JsValue.message, JsValue.toStr,
            MessageField.matches, specConsoleSuppresses, MessageField.text?,
            matchesResizeObserver_nonempty]
          rcases Bool.eq_false_or_eq_true (matchesResizeObserver s) with k | k <;>
            rcases Bool.eq_false_or_eq_true (matchesResizeObserver u) with j | j <;>
            simp [k, j]

theorem C22_non_string_message_raises_witness :
    consoleError [.str "Code execution error:", .obj (.text "timeout") (some "Error: timeout")]
      = (if specConsoleSuppresses
            [JsValue.str "Code execution error:",
              .obj (.text "timeout") (some "Error: timeout")].head?
          then .suppressed
          else .forwarded
            [.str "Code execution error:", .obj (.text "timeout") (some "Error: timeout")]) :=
  (C22_non_string_message_raises
    [.str "Code execution error:", .obj (.text "timeout") (some "Error: timeout")]
    (by decide)).2.2

/-- C23 at its failing input: a rejection whose reason has a `message` that is truthy but
not a string (as in `Promise.reject({ message: 42 })`) makes the installed
`window.onunhandledrejection` call `event.reason.message.includes`, which is not a
function: a `TypeError` is raised, and neither `event.preventDefault()` nor the previous
handler is called.  Everything else is as the claim says: the installed `window.onerror`
returns `true`, without calling the previous handler, when the message contains
'ResizeObserver' or 'undelivered notifications', and otherwise returns what the previous
handler returns for the same five arguments, or `false` when there is none; for a reason
whose `message` is absent or a string, `window.onunhandledrejection` applies the same rule
to `reason.message` and `reason.toString()`, calls `event.preventDefault()` when one of
them matches and otherwise invokes the previous handler, if there is one. -/
theorem C23_handlers_follow_rule (originalErrorHandler : Option (ErrorEventArgs → Option Bool))
    (a : ErrorEventArgs) (hasOriginal : Bool) (reason : JsValue)
    (hr : reason.message ≠ .other) :
    onunhandledrejection true (.obj .other (some "[object Object]")) = .raised typeError ∧
    onerror originalErrorHandler a =
      (if specSuppresses a.message then (some true, none)
       else
        match originalErrorHandler with
        | some h => (h a, some a)
        | none => (some false, none)) ∧
    onunhandledrejection hasOriginal reason =
      (if specSuppresses reason.message.text? || specSuppresses reason.toStr then .prevented
       else if hasOriginal then .delegated else .ignored) := by
  refine ⟨by decide, ?_, ?_⟩
  · unfold onerror
    cases hm : a.message with
    | none => simp [specSuppresses]
    | some m => simp only [matchesResizeObserver_eq, specSuppresses_nonempty]
  · unfold onunhandledrejection
    cases reason with
    | falsy => simp [JsValue.truthy, JsValue.message, JsValue.toStr, MessageField.text?,
        specSuppresses]
    | str s =>
      by_cases hs : s = ""
      · subst hs
        cases hasOriginal <;> decide
      · simp [JsValue.truthy, JsValue.message, JsValue.toStr, MessageField.text?, hs,
          MessageField.matches, matchesResizeObserver_eq, specSuppresses]
    | obj m t =>
      cases m with
      | other => exact absurd rfl hr
      | absent =>
        cases t <;>
          simp [JsValue.truthy, JsValue.message, JsValue.toStr, MessageField.text?,
            MessageField.matches, matchesResizeObserver_eq, specSuppresses]
      | text s =>
        cases t with
        | none =>
          simp only [JsValue.truthy, JsValue.message, JsValue.toStr, MessageField.text?,
            MessageField.matches, matchesResizeObserver_eq, specSuppresses_nonempty]
          have e : specSuppresses none = false := rfl
          rcases Bool.eq_false_or_eq_true (specSuppresses (some s)) with h | h <;>
            simp only [h, e] <;> cases hasOriginal <;> simp
        | some u =>
          simp only [JsValue.truthy, JsValue.message, JsValue.toStr, MessageField.text?,
            MessageField.matches, matchesResizeObserver_eq, specSuppresses_nonempty]
          rcases Bool.eq_false_or_eq_true (specSuppresses (some s)) with h | h <;>
            rcases Bool.eq_false_or_eq_true (specSuppresses (some u)) with k | k <;>
            simp only [h, k] <;> cases hasOriginal <;> simp

theorem C23_handlers_follow_rule_witness :
    onunhandledrejection true (.obj (.text "ResizeObserver loop limit exceeded") none)
      = (if specSuppresses
            (JsValue.obj (.text "ResizeObserver loop limit exceeded") none).message.text?
          || specSuppresses (JsValue.obj (.text "ResizeObserver loop limit exceeded") none).toStr
         then .prevented else if true then .delegated else .ignored) :=
  (C23_handlers_follow_rule none ⟨none, "", 0, 0, .falsy⟩ true
    (.obj (.text "ResizeObserver loop limit exceeded") none) (by decide)).2.2

/-- C30, as stated, fails for the error filters of `SafeResizeObserver`: a callback error
with the message "layout failed" contains neither 'ResizeObserver' nor 'undelivered
notifications', yet the filter of the deferred closure leaves it out of the console; and a
creation error with the message "undelivered notifications" is not left out by the filter
of `observe`. -/
theorem C30_counterexample :
    specSuppresses (some "layout failed") = false ∧
    matchesResizeObserver "layout failed" = false ∧
    SafeResizeObserver.silencesCallbackError (some "layout failed") = true ∧
    specSuppresses (some "undelivered notifications") = true ∧
    SafeResizeObserver.silencesCreationError (some "undelivered notifications") = false := by
  decide

/-- C30, amended: for every string `s`, the test of the global handlers (three calls of
`includes`) is true exactly when `s` contains 'ResizeObserver' or 'undelivered
notifications', so the third test, for 'ResizeObserver loop', never changes the result;
the filter of `SafeResizeObserver` for callback errors is true exactly when `s` contains
one of these two or 'isDisposed' or 'layout', and its filter for creation errors exactly
when `s` contains 'ResizeObserver'. -/
theorem C30_third_test_redundant (s : String) :
    matchesResizeObserver s
      = (includes s "ResizeObserver" || includes s "undelivered notifications") ∧
    (includes s "ResizeObserver loop" = true → includes s "ResizeObserver" = true) ∧
    SafeResizeObserver.silencesCallbackError (some s)
      = (includes s "ResizeObserver" || includes s "undelivered notifications" ||
          includes s "isDisposed" || includes s "layout") ∧
    SafeResizeObserver.silencesCreationError (some s) = includes s "ResizeObserver" :=
  ⟨matchesResizeObserver_eq s, includes_loop_imp s, rfl, rfl⟩

theorem C30_third_test_redundant_witness :
    includes "ResizeObserver loop limit exceeded" "ResizeObserver" = true :=
  (C30_third_test_redundant "ResizeObserver loop limit exceeded").2.1 (by decide)

end CodeMaster
